import Mathlib

/-!
# RT-Thread GUI `dc_blend.c`: clipping, dispatch and compositing

A shallow embedding of `components/rtgui/common/dc_blend.c`.

* C `int` values are mathematical integers (`Int`); overflow of signed `int` arithmetic is
  not modelled.
* Unsigned arithmetic wraps: a value stored in an `rt_uint8_t` is reduced `% 256`, a product
  of `rt_uint32_t` values `% 2^32`. A value stored in an `rt_int16_t` is reduced into
  `[-32768, 32767]` by `wrap16`.
* C integer division truncates toward zero, so `/` of the source is `Int.tdiv`; a zero
  divisor is reported as `ClipResult.div_by_zero`.
* The `while` loop of `_intersect_rect_line` is run with an explicit iteration budget; an
  exhausted budget is reported as `ClipResult.out_of_fuel`.
* Calls of a per-format drawing function through a function pointer are recorded as a list
  of calls with their arguments, in program order.
-/

namespace RTGUI

/-! ## Rectangles, points, regions -/

/-- The C struct `rtgui_rect_t`. -/
structure rtgui_rect_t where
  x1 : Int
  y1 : Int
  x2 : Int
  y2 : Int
deriving DecidableEq, Repr

/-- The C struct `rtgui_point_t`. -/
structure rtgui_point_t where
  x : Int
  y : Int
deriving DecidableEq, Repr

/-- The C struct `rtgui_region_t` as `dc_blend.c` reads it: `extents`, and `data`, which is
either `RT_NULL` (`none`) or the array of `rtgui_region_num_rects` rectangles. -/
structure rtgui_region_t where
  extents : rtgui_rect_t
  data : Option (List rtgui_rect_t)
deriving DecidableEq, Repr

/-! ## Cohen-Sutherland line clipping (`dc_blend.c` lines 112-257) -/

/-- The constant `CODE_BOTTOM` (line 113). -/
def CODE_BOTTOM : Nat := 1

/-- The constant `CODE_TOP` (line 114). -/
def CODE_TOP : Nat := 2

/-- The constant `CODE_LEFT` (line 115). -/
def CODE_LEFT : Nat := 4

/-- The constant `CODE_RIGHT` (line 116). -/
def CODE_RIGHT : Nat := 8

/-- Function `ComputeOutCode` (lines 118-140). Note that the comparisons are against `rect->y2` and
`rect->x2` themselves. -/
def ComputeOutCode (rect : rtgui_rect_t) (x y : Int) : Nat :=
  let code : Nat := 0
  let code := if y < rect.y1 then code ||| CODE_TOP
              else if y > rect.y2 then code ||| CODE_BOTTOM
              else code
  let code := if x < rect.x1 then code ||| CODE_LEFT
              else if x > rect.x2 then code ||| CODE_RIGHT
              else code
  code

/-- Outcome of `_intersect_rect_line`: `accepted` is `RT_TRUE` together with the values left in
`*X1, *Y1, *X2, *Y2`; `rejected` is `RT_FALSE`. -/
inductive ClipResult where
  | accepted (x1 y1 x2 y2 : Int)
  | rejected
  | div_by_zero
  | out_of_fuel
deriving DecidableEq, Repr

/-- The four-way `if / else if` chain of lines 215-227 (and 232-244): intersect the line
through `(x1,y1)`, `(x2,y2)` with the clip edge selected by `outcode`. `x` and `y` are the
previous values of the local variables, kept when no bit is set. `none` is a zero divisor. -/
def clip_edge (rectx1 recty1 rectx2 recty2 : Int) (x1 y1 x2 y2 : Int) (outcode : Nat)
    (x y : Int) : Option (Int × Int) :=
  if outcode &&& CODE_TOP ≠ 0 then
    if y2 - y1 = 0 then none
    else
      let y := recty1
      some (x1 + Int.tdiv ((x2 - x1) * (y - y1)) (y2 - y1), y)
  else if outcode &&& CODE_BOTTOM ≠ 0 then
    if y2 - y1 = 0 then none
    else
      let y := recty2
      some (x1 + Int.tdiv ((x2 - x1) * (y - y1)) (y2 - y1), y)
  else if outcode &&& CODE_LEFT ≠ 0 then
    if x2 - x1 = 0 then none
    else
      let x := rectx1
      some (x, y1 + Int.tdiv ((y2 - y1) * (x - x1)) (x2 - x1))
  else if outcode &&& CODE_RIGHT ≠ 0 then
    if x2 - x1 = 0 then none
    else
      let x := rectx2
      some (x, y1 + Int.tdiv ((y2 - y1) * (x - x1)) (x2 - x1))
  else some (x, y)

/-- The `while (outcode1 || outcode2)` loop of lines 209-249 followed by lines 251-256, with an
iteration budget. -/
def clip_loop (rect : rtgui_rect_t) :
    Nat → Int → Int → Int → Int → Nat → Nat → Int → Int → ClipResult
  | fuel, x1, y1, x2, y2, outcode1, outcode2, x, y =>
    if outcode1 = 0 ∧ outcode2 = 0 then ClipResult.accepted x1 y1 x2 y2
    else
      match fuel with
      | 0 => ClipResult.out_of_fuel
      | fuel + 1 =>
        if outcode1 &&& outcode2 ≠ 0 then ClipResult.rejected
        else if outcode1 ≠ 0 then
          match clip_edge rect.x1 rect.y1 (rect.x2 - 1) (rect.y2 - 1) x1 y1 x2 y2 outcode1 x y with
          | none => ClipResult.div_by_zero
          | some (x, y) => clip_loop rect fuel x y x2 y2 (ComputeOutCode rect x y) outcode2 x y
        else
          match clip_edge rect.x1 rect.y1 (rect.x2 - 1) (rect.y2 - 1) x1 y1 x2 y2 outcode2 x y with
          | none => ClipResult.div_by_zero
          | some (x, y) => clip_loop rect fuel x1 y1 x y outcode1 (ComputeOutCode rect x y) x y

/-- Function `_intersect_rect_line` (lines 142-257). `fuel` bounds the iterations of the loop. -/
def _intersect_rect_line (fuel : Nat) (rect : rtgui_rect_t) (X1 Y1 X2 Y2 : Int) : ClipResult :=
  let x1 := X1
  let y1 := Y1
  let x2 := X2
  let y2 := Y2
  let rectx1 := rect.x1
  let recty1 := rect.y1
  let rectx2 := rect.x2 - 1
  let recty2 := rect.y2 - 1
  -- Check to see if entire line is inside rect
  if x1 ≥ rectx1 ∧ x1 ≤ rectx2 ∧ x2 ≥ rectx1 ∧ x2 ≤ rectx2 ∧
     y1 ≥ recty1 ∧ y1 ≤ recty2 ∧ y2 ≥ recty1 ∧ y2 ≤ recty2 then
    ClipResult.accepted X1 Y1 X2 Y2
  -- Check to see if entire line is to one side of rect
  else if (x1 < rectx1 ∧ x2 < rectx1) ∨ (x1 > rectx2 ∧ x2 > rectx2) ∨
          (y1 < recty1 ∧ y2 < recty1) ∨ (y1 > recty2 ∧ y2 > recty2) then
    ClipResult.rejected
  else if y1 = y2 then
    -- Horizontal line, easy to clip
    let X1 := if x1 < rectx1 then rectx1 else if x1 > rectx2 then rectx2 else X1
    let X2 := if x2 < rectx1 then rectx1 else if x2 > rectx2 then rectx2 else X2
    ClipResult.accepted X1 Y1 X2 Y2
  else if x1 = x2 then
    -- Vertical line, easy to clip
    let Y1 := if y1 < recty1 then recty1 else if y1 > recty2 then recty2 else Y1
    let Y2 := if y2 < recty1 then recty1 else if y2 > recty2 then recty2 else Y2
    ClipResult.accepted X1 Y1 X2 Y2
  else
    -- More complicated Cohen-Sutherland algorithm
    clip_loop rect fuel x1 y1 x2 y2 (ComputeOutCode rect x1 y1) (ComputeOutCode rect x2 y2) 0 0

/-! ## Drawing contexts -/

/-- The values of `dc->type` that `dc_blend.c` tells apart. -/
inductive rtgui_dc_type where
  | RTGUI_DC_HW
  | RTGUI_DC_CLIENT
  | RTGUI_DC_BUFFER
  | RTGUI_DC_OTHER
deriving DecidableEq, Repr

/-- The pixel formats named in the `switch` statements of `dc_blend.c`; every other value of
the enumeration is `OTHER`. -/
inductive rtgui_pixel_format where
  | RTGRAPHIC_PIXEL_FORMAT_RGB565
  | RTGRAPHIC_PIXEL_FORMAT_BGR565
  | RTGRAPHIC_PIXEL_FORMAT_RGB888
  | RTGRAPHIC_PIXEL_FORMAT_ARGB888
  | RTGRAPHIC_PIXEL_FORMAT_OTHER
deriving DecidableEq, Repr

/-- The C enumeration `enum RTGUI_BLENDMODE`. -/
inductive RTGUI_BLENDMODE where
  | RTGUI_BLENDMODE_NONE
  | RTGUI_BLENDMODE_BLEND
  | RTGUI_BLENDMODE_ADD
  | RTGUI_BLENDMODE_MOD
deriving DecidableEq, Repr

/-- Modelled from the spec: `rtgui_color_t` and the accessors `RTGUI_RGB_R/G/B/A` of
`rtgui/color.h`, which is not part of the sources: a colour is a "packed 32-bit value with
accessor-extracted 8-bit R,G,B,A channels"; the four fields are what the accessors return. -/
structure rtgui_color_t where
  r : Nat
  g : Nat
  b : Nat
  a : Nat
deriving DecidableEq, Repr

/-- What `dc_blend.c` reads from a `struct rtgui_dc *` and its collaborators:
`visible` is `rtgui_dc_get_visible`, `pixel_null` says that the buffer's `pixel` pointer is
`RT_NULL`, `bits_per_pixel` is `hw_driver->bits_per_pixel` (or `rtgui_color_get_bits` of a
buffer), `pixel_format` is `rtgui_dc_get_pixel_format`, `foreground` is
`rtgui_dc_get_gc(dst)->foreground`, and `extent`, `clip` are `owner->extent`, `owner->clip`. -/
structure rtgui_dc where
  type : rtgui_dc_type
  visible : Bool
  pixel_null : Bool
  bits_per_pixel : Nat
  pixel_format : rtgui_pixel_format
  foreground : rtgui_color_t
  extent : rtgui_rect_t
  clip : rtgui_region_t
deriving DecidableEq, Repr

open rtgui_dc_type rtgui_pixel_format RTGUI_BLENDMODE

/-- Function `_dc_get_bits_per_pixel` (lines 55-69). -/
def _dc_get_bits_per_pixel (dc : rtgui_dc) : Nat :=
  if dc.type = RTGUI_DC_HW ∨ dc.type = RTGUI_DC_CLIENT then dc.bits_per_pixel
  else if dc.type = RTGUI_DC_BUFFER then dc.bits_per_pixel
  else 0

/-- Whether `_dc_get_pixel(dc, 0, 0)` (lines 88-110) is `RT_NULL`: never for a hardware or
client context (the frame buffer is asserted non-null), the `pixel` pointer for a buffer, and
always for any other context. -/
def _dc_get_pixel_is_null (dc : rtgui_dc) : Bool :=
  if dc.type = RTGUI_DC_HW ∨ dc.type = RTGUI_DC_CLIENT then false
  else if dc.type = RTGUI_DC_BUFFER then dc.pixel_null
  else true

/-- Result of running a routine: `done v` when it ran to its end or to a `return`; the other
cases are a division by zero inside the clipper, a clipper loop that outlived its iteration
budget, a read of `points[i]` outside the array, and a call through a function pointer that
holds `NULL`. -/
inductive Run (α : Type) where
  | done (v : α)
  | div_by_zero
  | out_of_fuel
  | bad_index (i : Int)
  | null_call
deriving DecidableEq, Repr

/-- Sequencing of `Run`. -/
def Run.bind {α β : Type} (r : Run α) (f : α → Run β) : Run β :=
  match r with
  | Run.done v => f v
  | Run.div_by_zero => Run.div_by_zero
  | Run.out_of_fuel => Run.out_of_fuel
  | Run.bad_index i => Run.bad_index i
  | Run.null_call => Run.null_call

/-- Lines 406-411 (repeated at 455-460, 516-521, 562-567, 1215-1220, 1264-1269, 1332-1337,
1390-1395): add the owner's offset, then `_int_swap` the two `y` and the two `x` values
independently when they are out of order. -/
def translate_and_order (extent : rtgui_rect_t) (x1 y1 x2 y2 : Int) : Int × Int × Int × Int :=
  let x1 := x1 + extent.x1
  let x2 := x2 + extent.x1
  let y1 := y1 + extent.y1
  let y2 := y2 + extent.y1
  let (y1, y2) := if y1 > y2 then (y2, y1) else (y1, y2)
  let (x1, x2) := if x1 > x2 then (x2, x1) else (x1, x2)
  (x1, y1, x2, y2)

/-! ## `rtgui_dc_draw_aa_line`, `rtgui_dc_draw_aa_lines` (lines 359-579) -/

/-- The three functions a `DrawLineFunc` pointer can hold. -/
inductive DrawLineFunc where
  | _dc_draw_line1
  | _dc_draw_line2
  | _dc_draw_line4
deriving DecidableEq, Repr

/-- Function `_dc_calc_draw_line_func` (lines 363-376); `none` is `NULL`. -/
def _dc_calc_draw_line_func (bpp : Nat) : Option DrawLineFunc :=
  match bpp with
  | 1 => some DrawLineFunc._dc_draw_line1
  | 2 => some DrawLineFunc._dc_draw_line2
  | 4 => some DrawLineFunc._dc_draw_line4
  | _ => none

/-- One call `func(dst, x1, y1, x2, y2, color, draw_end)`. -/
structure DrawLineCall where
  func : DrawLineFunc
  x1 : Int
  y1 : Int
  x2 : Int
  y2 : Int
  color : rtgui_color_t
  draw_end : Bool
deriving DecidableEq, Repr

/-- The `for (index ...)` loop of lines 430-445 (and 540-555, 1239-1254): every clip rectangle
in turn, `continue` on a rejected segment, otherwise one call of `func` on the clipped
segment. The list holds the clipped segments `(draw_x1, draw_y1, draw_x2, draw_y2)` of the
calls, in order. -/
def clip_each_rect (fuel : Nat) (x1 y1 x2 y2 : Int) :
    List rtgui_rect_t → Run (List (Int × Int × Int × Int))
  | [] => Run.done []
  | prect :: rest =>
    match _intersect_rect_line fuel prect x1 y1 x2 y2 with
    | ClipResult.rejected => clip_each_rect fuel x1 y1 x2 y2 rest
    | ClipResult.accepted draw_x1 draw_y1 draw_x2 draw_y2 =>
      (clip_each_rect fuel x1 y1 x2 y2 rest).bind fun segs =>
        Run.done ((draw_x1, draw_y1, draw_x2, draw_y2) :: segs)
    | ClipResult.div_by_zero => Run.div_by_zero
    | ClipResult.out_of_fuel => Run.out_of_fuel

/-- Function `rtgui_dc_draw_aa_line` (lines 378-465): the calls of the line function it makes. -/
def rtgui_dc_draw_aa_line (fuel : Nat) (dst : rtgui_dc) (x1 y1 x2 y2 : Int) :
    Run (List DrawLineCall) :=
  if !dst.visible then Run.done []
  else if _dc_get_pixel_is_null dst then Run.done []
  else
    let color := dst.foreground
    let bpp := _dc_get_bits_per_pixel dst
    if bpp < 8 then Run.done []
    else
      match _dc_calc_draw_line_func (bpp / 8) with
      | none => Run.done []
      | some func =>
        if dst.type = RTGUI_DC_CLIENT then
          let (x1, y1, x2, y2) := translate_and_order dst.extent x1 y1 x2 y2
          match dst.clip.data with
          | none =>
            match _intersect_rect_line fuel dst.clip.extents x1 y1 x2 y2 with
            | ClipResult.rejected => Run.done []
            | ClipResult.accepted x1 y1 x2 y2 => Run.done [⟨func, x1, y1, x2, y2, color, false⟩]
            | ClipResult.div_by_zero => Run.div_by_zero
            | ClipResult.out_of_fuel => Run.out_of_fuel
          | some rects =>
            (clip_each_rect fuel x1 y1 x2 y2 rects).bind fun segs =>
              Run.done (segs.map fun s => ⟨func, s.1, s.2.1, s.2.2.1, s.2.2.2, color, false⟩)
        else
          let (x1, y1, x2, y2) :=
            if dst.type = RTGUI_DC_HW then translate_and_order dst.extent x1 y1 x2 y2
            else (x1, y1, x2, y2)
          Run.done [⟨func, x1, y1, x2, y2, color, false⟩]

/-- The read `points[i]` of an array holding the elements of `points`. -/
def read_point (points : List rtgui_point_t) (i : Int) : Run rtgui_point_t :=
  if i < 0 then Run.bad_index i
  else
    match points[i.toNat]? with
    | some p => Run.done p
    | none => Run.bad_index i

/-- What `rtgui_dc_draw_aa_lines` does to the destination: calls of the line function, and
the call `rtgui_dc_draw_point(dst, x, y)` of line 575. -/
inductive DrawEvent where
  | line (c : DrawLineCall)
  | point (x y : Int)
deriving DecidableEq, Repr

/-- One pass through the body of the `for` loop of `rtgui_dc_draw_aa_lines` (lines 506-570)
for the index `i`. The Boolean is `true` when the body executed the `return` of line 531. -/
def draw_aa_lines_body (fuel : Nat) (dst : rtgui_dc) (func : DrawLineFunc)
    (color : rtgui_color_t) (points : List rtgui_point_t) (i : Int) :
    Run (List DrawLineCall × Bool) :=
  (read_point points (i - 1)).bind fun p1 =>
  (read_point points i).bind fun p2 =>
    let x1 := p1.x
    let y1 := p1.y
    let x2 := p2.x
    let y2 := p2.y
    -- Draw the end if it was clipped
    let draw_end : Bool := decide (x2 ≠ p2.x ∨ y2 ≠ p2.y)
    if dst.type = RTGUI_DC_CLIENT then
      let (x1, y1, x2, y2) := translate_and_order dst.extent x1 y1 x2 y2
      match dst.clip.data with
      | none =>
        match _intersect_rect_line fuel dst.clip.extents x1 y1 x2 y2 with
        | ClipResult.rejected => Run.done ([], true)
        | ClipResult.accepted x1 y1 x2 y2 =>
          Run.done ([⟨func, x1, y1, x2, y2, color, draw_end⟩], false)
        | ClipResult.div_by_zero => Run.div_by_zero
        | ClipResult.out_of_fuel => Run.out_of_fuel
      | some rects =>
        (clip_each_rect fuel x1 y1 x2 y2 rects).bind fun segs =>
          Run.done (segs.map (fun s => ⟨func, s.1, s.2.1, s.2.2.1, s.2.2.2, color, draw_end⟩),
            false)
    else
      let (x1, y1, x2, y2) :=
        if dst.type = RTGUI_DC_HW then translate_and_order dst.extent x1 y1 x2 y2
        else (x1, y1, x2, y2)
      Run.done ([⟨func, x1, y1, x2, y2, color, draw_end⟩], false)

/-- The loop `for (i = 1; i < count; ++i)` of line 505: `n` passes starting at index `i`. -/
def draw_aa_lines_loop (fuel : Nat) (dst : rtgui_dc) (func : DrawLineFunc)
    (color : rtgui_color_t) (points : List rtgui_point_t) :
    Nat → Int → Run (List DrawLineCall × Bool)
  | 0, _ => Run.done ([], false)
  | n + 1, i =>
    (draw_aa_lines_body fuel dst func color points i).bind fun r =>
      if r.2 then Run.done (r.1, true)
      else
        (draw_aa_lines_loop fuel dst func color points n (i + 1)).bind fun rest =>
          Run.done (r.1 ++ rest.1, rest.2)

/-- Function `rtgui_dc_draw_aa_lines` (lines 467-579). -/
def rtgui_dc_draw_aa_lines (fuel : Nat) (dst : rtgui_dc) (points : List rtgui_point_t)
    (count : Int) : Run (List DrawEvent) :=
  if !dst.visible then Run.done []
  else if _dc_get_pixel_is_null dst then Run.done []
  else
    let color := dst.foreground
    let bpp := _dc_get_bits_per_pixel dst
    if bpp < 8 then Run.done []
    else
      match _dc_calc_draw_line_func (bpp / 8) with
      | none => Run.done []
      | some func =>
        (draw_aa_lines_loop fuel dst func color points (count - 1).toNat 1).bind fun r =>
          if r.2 then Run.done (r.1.map DrawEvent.line)
          else
            (read_point points 0).bind fun first =>
            (read_point points (count - 1)).bind fun last =>
              if first.x ≠ last.x ∨ first.y ≠ last.y then
                Run.done (r.1.map DrawEvent.line ++ [DrawEvent.point last.x last.y])
              else Run.done (r.1.map DrawEvent.line)

/-! ## The pixels a line function writes -/

/-- The pixels `length` steps of `(dx, dy)` visit from `(x, y)` on: the loop
`while (length--) { op; pixel += step; }`. -/
def pixel_run (x y dx dy : Int) (length : Int) : List (Int × Int) :=
  (List.range length.toNat).map fun (k : Nat) => (x + dx * (k : Int), y + dy * (k : Int))

/-- Modelled from the spec: the macro `HLINE` of `rtgui/dc_draw.h`, which is not among the
sources ("horizontal → single memory fill/blend per pixel along the row", "optionally omitting
the end endpoint (`draw_end=false`)"). It is the horizontal case that `_dc_draw_line1` writes
out in lines 264-277, with the `rt_memset` replaced by a per-pixel loop. -/
def HLINE (x1 y1 x2 _y2 : Int) (draw_end : Bool) : List (Int × Int) :=
  if x1 ≤ x2 then pixel_run x1 y1 1 0 (if draw_end then x2 - x1 + 1 else x2 - x1)
  else pixel_run (if !draw_end then x2 + 1 else x2) y1 1 0
         (if draw_end then x1 - x2 + 1 else x1 - x2)

/-- Modelled from the spec: the macro `VLINE` of `rtgui/dc_draw.h`, which is not among the
sources ("vertical → per-pixel loop down a column at fixed stride", "optionally omitting
the end endpoint (`draw_end=false`)"): the horizontal case of lines 264-277 with the roles of
`x` and `y` exchanged. -/
def VLINE (x1 y1 _x2 y2 : Int) (draw_end : Bool) : List (Int × Int) :=
  if y1 ≤ y2 then pixel_run x1 y1 0 1 (if draw_end then y2 - y1 + 1 else y2 - y1)
  else pixel_run x1 (if !draw_end then y2 + 1 else y2) 0 1
         (if draw_end then y1 - y2 + 1 else y1 - y2)

/-- Modelled from the spec: the macro `DLINE` of `rtgui/dc_draw.h`, which is not among the
sources ("exact diagonal (`|dx|==|dy|`) → per-pixel loop advancing both coordinates together",
"optionally omitting the end endpoint"): the walk goes down the rows, from `(x1,y1)` when
`y1 <= y2` and from `(x2,y2)` otherwise, where the omitted end point is the first one. -/
def DLINE (x1 y1 x2 y2 : Int) (draw_end : Bool) : List (Int × Int) :=
  if y1 ≤ y2 then
    pixel_run x1 y1 (if x1 ≤ x2 then 1 else -1) 1 (if draw_end then y2 - y1 + 1 else y2 - y1)
  else
    let s : Int := if x2 ≤ x1 then 1 else -1
    if draw_end then pixel_run x2 y2 s 1 (y1 - y2 + 1)
    else pixel_run (x2 + s) (y2 + 1) s 1 (y1 - y2)

/-- The plotting loop of integer Bresenham: `n` pixels from `(x, y)` with error term `d`. -/
def BLINE_loop (dinc1 dinc2 xinc1 xinc2 yinc1 yinc2 : Int) :
    Nat → Int → Int → Int → List (Int × Int)
  | 0, _, _, _ => []
  | n + 1, x, y, d =>
    (x, y) ::
      (if d < 0 then BLINE_loop dinc1 dinc2 xinc1 xinc2 yinc1 yinc2 n (x + xinc1) (y + yinc1) (d + dinc1)
       else BLINE_loop dinc1 dinc2 xinc1 xinc2 yinc1 yinc2 n (x + xinc2) (y + yinc2) (d + dinc2))

/-- Modelled from the spec: the macro `BLINE` of `rtgui/dc_draw.h`, which is not among the
sources ("general slope → integer Bresenham", "standard Bresenham error accumulation",
"optionally omitting the end endpoint"): one pixel per step along the longer axis, starting at
`(x1,y1)`, `max(|dx|,|dy|) + 1` pixels, one fewer without `draw_end`. -/
def BLINE (x1 y1 x2 y2 : Int) (draw_end : Bool) : List (Int × Int) :=
  let deltax := |x2 - x1|
  let deltay := |y2 - y1|
  let xs : Int := if x1 > x2 then -1 else 1
  let ys : Int := if y1 > y2 then -1 else 1
  if deltax ≥ deltay then
    let numpixels := if !draw_end then deltax + 1 - 1 else deltax + 1
    BLINE_loop (deltay * 2) ((deltay - deltax) * 2) xs xs 0 ys numpixels.toNat x1 y1
      (2 * deltay - deltax)
  else
    let numpixels := if !draw_end then deltay + 1 - 1 else deltay + 1
    BLINE_loop (deltax * 2) ((deltax - deltay) * 2) 0 xs ys ys numpixels.toNat x1 y1
      (2 * deltax - deltay)

/-- Modelled from the spec: the macro `AALINE` of `rtgui/dc_draw.h`, which is not among the
sources: "line AA in this system degenerates to ordinary Bresenham plotting at the color's own
alpha (no sub-pixel coverage synthesis for straight lines)". -/
def AALINE (x1 y1 x2 y2 : Int) (draw_end : Bool) : List (Int × Int) :=
  BLINE x1 y1 x2 y2 draw_end

/-- Function `_dc_draw_line1` (lines 259-285): the pixels written, in order. The horizontal case is the
`rt_memset` of `length` bytes from the address of the start pixel. -/
def _dc_draw_line1 (x1 y1 x2 y2 : Int) (draw_end : Bool) : List (Int × Int) :=
  if y1 = y2 then
    let pixel : Int := if x1 ≤ x2 then x1 else if !draw_end then x2 + 1 else x2
    let length : Int :=
      if x1 ≤ x2 then (if draw_end then x2 - x1 + 1 else x2 - x1)
      else (if draw_end then x1 - x2 + 1 else x1 - x2)
    pixel_run pixel y1 1 0 length
  else if x1 = x2 then VLINE x1 y1 x2 y2 draw_end
  else if |x1 - x2| = |y1 - y2| then DLINE x1 y1 x2 y2 draw_end
  else BLINE x1 y1 x2 y2 draw_end

/-- Function `_dc_draw_line2` (lines 287-325): the pixels written, in order. -/
def _dc_draw_line2 (format : rtgui_pixel_format) (x1 y1 x2 y2 : Int) (draw_end : Bool) :
    List (Int × Int) :=
  if y1 = y2 then HLINE x1 y1 x2 y2 draw_end
  else if x1 = x2 then VLINE x1 y1 x2 y2 draw_end
  else if |x1 - x2| = |y1 - y2| then DLINE x1 y1 x2 y2 draw_end
  else if format = RTGRAPHIC_PIXEL_FORMAT_RGB565 then AALINE x1 y1 x2 y2 draw_end
  else if format = RTGRAPHIC_PIXEL_FORMAT_BGR565 then AALINE x1 y1 x2 y2 draw_end
  else []

/-- Function `_dc_draw_line4` (lines 327-357): the pixels written, in order. -/
def _dc_draw_line4 (format : rtgui_pixel_format) (x1 y1 x2 y2 : Int) (draw_end : Bool) :
    List (Int × Int) :=
  if y1 = y2 then HLINE x1 y1 x2 y2 draw_end
  else if x1 = x2 then VLINE x1 y1 x2 y2 draw_end
  else if |x1 - x2| = |y1 - y2| then DLINE x1 y1 x2 y2 draw_end
  else if format = RTGRAPHIC_PIXEL_FORMAT_RGB888 then AALINE x1 y1 x2 y2 draw_end
  else if format = RTGRAPHIC_PIXEL_FORMAT_ARGB888 then AALINE x1 y1 x2 y2 draw_end
  else []

/-- The call of the line function for segment `j` of a polyline that is neither translated
nor clipped: from `points[j]` to `points[j+1]`, without the end point. -/
def polyline_call (func : DrawLineFunc) (color : rtgui_color_t) (points : List rtgui_point_t)
    (j : Nat) : DrawLineCall :=
  ⟨func, (points.getD j ⟨0, 0⟩).x, (points.getD j ⟨0, 0⟩).y,
    (points.getD (j + 1) ⟨0, 0⟩).x, (points.getD (j + 1) ⟨0, 0⟩).y, color, false⟩

/-- How often the pixel `(x, y)` occurs in a list of pixel writes. -/
def writes_at (l : List (Int × Int)) (x y : Int) : Nat :=
  (l.filter fun p => decide (p.1 = x ∧ p.2 = y)).length

/-- The pixels written by one recorded call of a line function on `dst`. -/
def DrawLineCall.pixels (dst : rtgui_dc) (c : DrawLineCall) : List (Int × Int) :=
  match c.func with
  | DrawLineFunc._dc_draw_line1 => _dc_draw_line1 c.x1 c.y1 c.x2 c.y2 c.draw_end
  | DrawLineFunc._dc_draw_line2 => _dc_draw_line2 dst.pixel_format c.x1 c.y1 c.x2 c.y2 c.draw_end
  | DrawLineFunc._dc_draw_line4 => _dc_draw_line4 dst.pixel_format c.x1 c.y1 c.x2 c.y2 c.draw_end

/-! ## `rtgui_dc_blend_line` (lines 1158-1274) -/

/-- The four functions a `BlendLineFunc` pointer can hold. -/
inductive BlendLineFunc where
  | _dc_blend_line_rgb565
  | _dc_blend_line_bgr565
  | _dc_blend_line_rgb888
  | _dc_blend_line_argb8888
deriving DecidableEq, Repr

/-- Function `_dc_calc_blend_line_func` (lines 1164-1180); `none` is `NULL`. -/
def _dc_calc_blend_line_func (pixel_format : rtgui_pixel_format) : Option BlendLineFunc :=
  match pixel_format with
  | RTGRAPHIC_PIXEL_FORMAT_RGB565 => some BlendLineFunc._dc_blend_line_rgb565
  | RTGRAPHIC_PIXEL_FORMAT_BGR565 => some BlendLineFunc._dc_blend_line_bgr565
  | RTGRAPHIC_PIXEL_FORMAT_RGB888 => some BlendLineFunc._dc_blend_line_rgb888
  | RTGRAPHIC_PIXEL_FORMAT_ARGB888 => some BlendLineFunc._dc_blend_line_argb8888
  | RTGRAPHIC_PIXEL_FORMAT_OTHER => none

/-- One call `func(dst, x1, y1, x2, y2, blendMode, r, g, b, a, draw_end)`. -/
structure BlendLineCall where
  func : BlendLineFunc
  x1 : Int
  y1 : Int
  x2 : Int
  y2 : Int
  blendMode : RTGUI_BLENDMODE
  r : Nat
  g : Nat
  b : Nat
  a : Nat
  draw_end : Bool
deriving DecidableEq, Repr

/-- Function `rtgui_dc_blend_line` (lines 1182-1274): the calls of the blend-line function it makes. -/
def rtgui_dc_blend_line (fuel : Nat) (dst : rtgui_dc) (x1 y1 x2 y2 : Int)
    (blendMode : RTGUI_BLENDMODE) (color : rtgui_color_t) : Run (List BlendLineCall) :=
  if !dst.visible then Run.done []
  else if _dc_get_pixel_is_null dst then Run.done []
  else
    match _dc_calc_blend_line_func dst.pixel_format with
    | none => Run.done []
    | some func =>
      let r := color.r % 256
      let g := color.g % 256
      let b := color.b % 256
      let a := color.a % 256
      if dst.type = RTGUI_DC_CLIENT then
        let (x1, y1, x2, y2) := translate_and_order dst.extent x1 y1 x2 y2
        match dst.clip.data with
        | none =>
          match _intersect_rect_line fuel dst.clip.extents x1 y1 x2 y2 with
          | ClipResult.rejected => Run.done []
          | ClipResult.accepted x1 y1 x2 y2 =>
            Run.done [⟨func, x1, y1, x2, y2, blendMode, r, g, b, a, true⟩]
          | ClipResult.div_by_zero => Run.div_by_zero
          | ClipResult.out_of_fuel => Run.out_of_fuel
        | some rects =>
          (clip_each_rect fuel x1 y1 x2 y2 rects).bind fun segs =>
            Run.done
              (segs.map fun s => ⟨func, s.1, s.2.1, s.2.2.1, s.2.2.2, blendMode, r, g, b, a, true⟩)
      else
        let (x1, y1, x2, y2) :=
          if dst.type = RTGUI_DC_HW then translate_and_order dst.extent x1 y1 x2 y2
          else (x1, y1, x2, y2)
        Run.done [⟨func, x1, y1, x2, y2, blendMode, r, g, b, a, true⟩]

/-! ## `rtgui_dc_blend_fill_rect` (lines 1497-1599) -/

/-- Modelled from the spec: the macro `DRAW_MUL` of `rtgui/dc_draw.h`, which is not among the
sources. It is the "premultiplication by alpha done by the caller" (alpha "255 = fully
opaque") and the product of the MOD composite, "destination modulated by source
channel/255". -/
def DRAW_MUL (a b : Nat) : Nat := a * b / 255

/-- Modelled from the spec: `rtgui_rect_moveto` of the region module, which is not among the
sources; it moves a rectangle by adding the offset to all four coordinates ("translating
widget-local to surface-absolute coordinates"). -/
def rtgui_rect_moveto (rect : rtgui_rect_t) (x y : Int) : rtgui_rect_t :=
  ⟨rect.x1 + x, rect.y1 + y, rect.x2 + x, rect.y2 + y⟩

/-- Modelled from the spec: `rtgui_rect_intersect(src, dest)` of the region module, which is
not among the sources; `dest` becomes the coordinate-wise max/min intersection of the two
rectangles ("rectangle is pre-intersected with the applicable clip rectangle"). -/
def rtgui_rect_intersect (src dest : rtgui_rect_t) : rtgui_rect_t :=
  ⟨max dest.x1 src.x1, max dest.y1 src.y1, min dest.x2 src.x2, min dest.y2 src.y2⟩

/-- The four functions a `BlendFillFunc` pointer can hold. -/
inductive BlendFillFunc where
  | _dc_blend_fill_rect_rgb565
  | _dc_blend_fill_rect_bgr565
  | _dc_blend_fill_rect_rgb888
  | _dc_blend_fill_rect_argb8888
deriving DecidableEq, Repr

/-- One call `func(dst, &draw_rect, blendMode, r, g, b, a)`. -/
structure BlendFillCall where
  func : BlendFillFunc
  rect : rtgui_rect_t
  blendMode : RTGUI_BLENDMODE
  r : Nat
  g : Nat
  b : Nat
  a : Nat
deriving DecidableEq, Repr

/-- The `switch` of lines 1527-1543 (and 1631-1647); `none` is `RT_NULL`. -/
def blend_fill_rect_func (pixel_format : rtgui_pixel_format) : Option BlendFillFunc :=
  match pixel_format with
  | RTGRAPHIC_PIXEL_FORMAT_RGB565 => some BlendFillFunc._dc_blend_fill_rect_rgb565
  | RTGRAPHIC_PIXEL_FORMAT_BGR565 => some BlendFillFunc._dc_blend_fill_rect_bgr565
  | RTGRAPHIC_PIXEL_FORMAT_RGB888 => some BlendFillFunc._dc_blend_fill_rect_rgb888
  | RTGRAPHIC_PIXEL_FORMAT_ARGB888 => some BlendFillFunc._dc_blend_fill_rect_argb8888
  | RTGRAPHIC_PIXEL_FORMAT_OTHER => none

/-- The test of lines 1569-1570 (and 1587-1588): `true` when the function returns (or
continues) without filling, for the clip rectangle `prect` and the moved `draw_rect`. -/
def fill_rect_skips (prect draw_rect : rtgui_rect_t) : Bool :=
  decide (prect.y1 > draw_rect.y2 ∨ prect.y2 ≤ draw_rect.y1) ||
  decide (prect.x2 ≤ draw_rect.x1 ∨ prect.x1 > draw_rect.x2)

/-- The clip rectangles a client context is drawn through: `extents` alone when
`clip.data == RT_NULL`, otherwise the rectangles of the region in order. -/
def clip_rects (clip : rtgui_region_t) : List rtgui_rect_t :=
  match clip.data with
  | none => [clip.extents]
  | some rects => rects

/-- Lines 1516-1525 for one of the channels `r`, `g`, `b`: the channel `c` of the colour,
premultiplied by the alpha `a` for the modes BLEND and ADD, as it reaches the `rt_uint8_t`
parameter of the per-format function. -/
def fill_channel (blendMode : RTGUI_BLENDMODE) (c a : Nat) : Nat :=
  (if blendMode = RTGUI_BLENDMODE_BLEND ∨ blendMode = RTGUI_BLENDMODE_ADD then DRAW_MUL c a
   else c) % 256

/-- Function `rtgui_dc_blend_fill_rect` (lines 1500-1599): the calls of the per-format fill it makes. -/
def rtgui_dc_blend_fill_rect (dst : rtgui_dc) (rect : rtgui_rect_t)
    (blendMode : RTGUI_BLENDMODE) (color : rtgui_color_t) : List BlendFillCall :=
  if !dst.visible then []
  -- This function doesn't work on surfaces < 8 bpp
  else if _dc_get_bits_per_pixel dst < 8 then []
  else
    let r := fill_channel blendMode color.r color.a
    let g := fill_channel blendMode color.g color.a
    let b := fill_channel blendMode color.b color.a
    let a := color.a % 256
    match blend_fill_rect_func dst.pixel_format with
    | none => []
    | some func =>
      if dst.type = RTGUI_DC_CLIENT then
        match dst.clip.data with
        | none =>
          let prect := dst.clip.extents
          -- convert logic to device
          let draw_rect := rtgui_rect_moveto rect dst.extent.x1 dst.extent.y1
          -- calculate rect intersect
          if fill_rect_skips prect draw_rect then []
          else [⟨func, rtgui_rect_intersect prect draw_rect, blendMode, r, g, b, a⟩]
        | some rects =>
          rects.filterMap fun prect =>
            let draw_rect := rtgui_rect_moveto rect dst.extent.x1 dst.extent.y1
            if fill_rect_skips prect draw_rect then none
            else some ⟨func, rtgui_rect_intersect prect draw_rect, blendMode, r, g, b, a⟩
      else [⟨func, rect, blendMode, r, g, b, a⟩]

/-! ## Pixel compositing and `rtgui_dc_blend_point` (lines 581-721)

The per-pixel macros `DRAW_SETPIXELXY_*` live in `rtgui/dc_draw.h`, which is not among the
sources; they are modelled from section 4.1 of the specification. A pixel is the unsigned
value stored at its address. -/

/-- Modelled from the spec: the bit layouts of the four pixel encodings, which
`rtgui/dc_draw.h` (not among the sources) defines: "repacked into the target's bit layout
(5-6-5, 8-8-8, or 8-8-8-8, with R/B channel order flipped for the BGR variant)". `unpack`
yields the 8-bit channels `(r, g, b, a)` of a pixel, `pack` stores 8-bit channels. -/
structure PixelCodec where
  unpack : Nat → Nat × Nat × Nat × Nat
  pack : Nat → Nat → Nat → Nat → Nat

/-- Modelled from the spec: 16-bit RGB565 (5-6-5, red in the high bits). -/
def codec_rgb565 : PixelCodec where
  unpack pixel :=
    (((pixel >>> 11) &&& 0x1f) <<< 3, ((pixel >>> 5) &&& 0x3f) <<< 2, (pixel &&& 0x1f) <<< 3, 0xff)
  pack r g b _ := ((r >>> 3) <<< 11) ||| ((g >>> 2) <<< 5) ||| (b >>> 3)

/-- Modelled from the spec: 16-bit BGR565 (5-6-5 "with R/B channel order flipped"). -/
def codec_bgr565 : PixelCodec where
  unpack pixel :=
    ((pixel &&& 0x1f) <<< 3, ((pixel >>> 5) &&& 0x3f) <<< 2, ((pixel >>> 11) &&& 0x1f) <<< 3, 0xff)
  pack r g b _ := ((b >>> 3) <<< 11) ||| ((g >>> 2) <<< 5) ||| (r >>> 3)

/-- Modelled from the spec: 24/32-bit RGB888 (8-8-8). -/
def codec_rgb888 : PixelCodec where
  unpack pixel := ((pixel >>> 16) &&& 0xff, (pixel >>> 8) &&& 0xff, pixel &&& 0xff, 0xff)
  pack r g b _ := (r <<< 16) ||| (g <<< 8) ||| b

/-- Modelled from the spec: 32-bit ARGB8888 (8-8-8-8). -/
def codec_argb8888 : PixelCodec where
  unpack pixel :=
    ((pixel >>> 16) &&& 0xff, (pixel >>> 8) &&& 0xff, pixel &&& 0xff, (pixel >>> 24) &&& 0xff)
  pack r g b a := (a <<< 24) ||| (r <<< 16) ||| (g <<< 8) ||| b

/-- Modelled from the spec: one channel of the BLEND composite of `rtgui/dc_draw.h` (not among
the sources): "`dst_channel = (src_channel_premultiplied) + ((dst_channel * (255-alpha)) >> 8)`
clamped to the channel's bit depth"; `inva` is `255 - alpha`. -/
def blend_channel (src dst inva : Nat) : Nat := min 255 (src + ((dst * inva) >>> 8))

/-- Modelled from the spec: one channel of the ADD composite of `rtgui/dc_draw.h` (not among
the sources): "saturating additive composite". -/
def add_channel (src dst : Nat) : Nat := min 255 (dst + src)

/-- Modelled from the spec: one channel of the MOD composite of `rtgui/dc_draw.h` (not among
the sources): "destination modulated by source channel/255, ignoring alpha". -/
def mod_channel (src dst : Nat) : Nat := DRAW_MUL dst src

/-- Modelled from the spec: the macros `DRAW_SETPIXELXY_<format>` ("NONE overwrites"): the new
pixel value. -/
def DRAW_SETPIXEL (codec : PixelCodec) (_pixel r g b a : Nat) : Nat :=
  codec.pack r g b a

/-- Modelled from the spec: the macros `DRAW_SETPIXELXY_BLEND_<format>`: the new pixel value. -/
def DRAW_SETPIXEL_BLEND (codec : PixelCodec) (pixel r g b a inva : Nat) : Nat :=
  let s := codec.unpack pixel
  codec.pack (blend_channel r s.1 inva) (blend_channel g s.2.1 inva)
    (blend_channel b s.2.2.1 inva) (blend_channel a s.2.2.2 inva)

/-- Modelled from the spec: the macros `DRAW_SETPIXELXY_ADD_<format>`: the new pixel value. -/
def DRAW_SETPIXEL_ADD (codec : PixelCodec) (pixel r g b : Nat) : Nat :=
  let s := codec.unpack pixel
  codec.pack (add_channel r s.1) (add_channel g s.2.1) (add_channel b s.2.2.1) s.2.2.2

/-- Modelled from the spec: the macros `DRAW_SETPIXELXY_MOD_<format>`: the new pixel value. -/
def DRAW_SETPIXEL_MOD (codec : PixelCodec) (pixel r g b : Nat) : Nat :=
  let s := codec.unpack pixel
  codec.pack (mod_channel r s.1) (mod_channel g s.2.1) (mod_channel b s.2.2.1) s.2.2.2

/-- The body shared by `_dc_blend_point_rgb565`, `_dc_blend_point_bgr565`,
`_dc_blend_point_rgb888` and `_dc_blend_point_argb8888` (lines 581-671), which differ in the
format suffix of the macros only: the new value of the pixel `pixel`. -/
def _dc_blend_point (codec : PixelCodec) (pixel : Nat) (blendMode : RTGUI_BLENDMODE)
    (r g b a : Nat) : Nat :=
  let inva := 0xff - a
  match blendMode with
  | RTGUI_BLENDMODE_BLEND => DRAW_SETPIXEL_BLEND codec pixel r g b a inva
  | RTGUI_BLENDMODE_ADD => DRAW_SETPIXEL_ADD codec pixel r g b
  | RTGUI_BLENDMODE_MOD => DRAW_SETPIXEL_MOD codec pixel r g b
  | RTGUI_BLENDMODE_NONE => DRAW_SETPIXEL codec pixel r g b a

/-- The contents of the destination: the pixel value stored for each `(x, y)`. -/
abbrev Framebuffer := Int → Int → Nat

/-- Store `v` at `(x, y)`. -/
def Framebuffer.write (fb : Framebuffer) (x y : Int) (v : Nat) : Framebuffer :=
  fun x' y' => if x' = x ∧ y' = y then v else fb x' y'

/-- Modelled from the spec: `rtgui_region_contains_point` of the region module, which is not
among the sources: "`region_contains_point(region, x, y) -> Rect-or-absent` for single-point
hit testing", on rectangles that are "left/top inclusive, right/bottom exclusive". `true` is
`RT_EOK`. -/
def rtgui_region_contains_point (region : rtgui_region_t) (x y : Int) : Bool :=
  (clip_rects region).any fun r => decide (r.x1 ≤ x ∧ x < r.x2 ∧ r.y1 ≤ y ∧ y < r.y2)

/-- The `switch` of lines 705-720: the codec of the `_dc_blend_point_<format>` that is called;
`none` is the `default:` case, which calls nothing. -/
def blend_point_codec (pixel_format : rtgui_pixel_format) : Option PixelCodec :=
  match pixel_format with
  | RTGRAPHIC_PIXEL_FORMAT_RGB565 => some codec_rgb565
  | RTGRAPHIC_PIXEL_FORMAT_BGR565 => some codec_bgr565
  | RTGRAPHIC_PIXEL_FORMAT_RGB888 => some codec_rgb888
  | RTGRAPHIC_PIXEL_FORMAT_ARGB888 => some codec_argb8888
  | RTGRAPHIC_PIXEL_FORMAT_OTHER => none

/-- Function `rtgui_dc_blend_point` (lines 673-721): the destination after the call. The parameters
`r, g, b, a` are `rt_uint8_t`. -/
def rtgui_dc_blend_point (dst : rtgui_dc) (fb : Framebuffer) (x y : Int)
    (blendMode : RTGUI_BLENDMODE) (r g b a : Nat) : Framebuffer :=
  let r := r % 256
  let g := g % 256
  let b := b % 256
  let a := a % 256
  if !dst.visible then fb
  else if _dc_get_pixel_is_null dst then fb
  else
    -- Perform clipping
    let x := if dst.type = RTGUI_DC_CLIENT then x + dst.extent.x1 else x
    let y := if dst.type = RTGUI_DC_CLIENT then y + dst.extent.y1 else y
    if dst.type = RTGUI_DC_CLIENT ∧ rtgui_region_contains_point dst.clip x y = false then fb
    else
      let premul := blendMode = RTGUI_BLENDMODE_BLEND ∨ blendMode = RTGUI_BLENDMODE_ADD
      let r := if premul then DRAW_MUL r a % 256 else r
      let g := if premul then DRAW_MUL g a % 256 else g
      let b := if premul then DRAW_MUL b a % 256 else b
      match blend_point_codec dst.pixel_format with
      | some codec => fb.write x y (_dc_blend_point codec (fb x y) blendMode r g b a)
      | none => fb

/-! ## `rtgui_dc_blend_points` (lines 723-792) -/

/-- The four functions the pointer `func` of `rtgui_dc_blend_points` can hold. -/
inductive BlendPointFunc where
  | _dc_blend_point_rgb565
  | _dc_blend_point_bgr565
  | _dc_blend_point_rgb888
  | _dc_blend_point_argb8888
deriving DecidableEq, Repr

/-- The format suffix of the `DRAW_SETPIXELXY_*` macros in the body of each
`_dc_blend_point_<format>` (lines 581-671). -/
def BlendPointFunc.codec : BlendPointFunc → PixelCodec
  | BlendPointFunc._dc_blend_point_rgb565 => codec_rgb565
  | BlendPointFunc._dc_blend_point_bgr565 => codec_bgr565
  | BlendPointFunc._dc_blend_point_rgb888 => codec_rgb888
  | BlendPointFunc._dc_blend_point_argb8888 => codec_argb8888

/-- The `switch` of lines 745-757, which starts from `func = NULL` (`none`). There is no case
for BGR565. The case ARGB888 has no `break`: control runs on into `default:`, whose body is
a lone `break`. -/
def blend_points_func (pixel_format : rtgui_pixel_format) : Option BlendPointFunc :=
  match pixel_format with
  | RTGRAPHIC_PIXEL_FORMAT_RGB565 => some BlendPointFunc._dc_blend_point_rgb565
  | RTGRAPHIC_PIXEL_FORMAT_RGB888 => some BlendPointFunc._dc_blend_point_rgb888
  | RTGRAPHIC_PIXEL_FORMAT_ARGB888 => some BlendPointFunc._dc_blend_point_argb8888
  | RTGRAPHIC_PIXEL_FORMAT_BGR565 => none
  | RTGRAPHIC_PIXEL_FORMAT_OTHER => none

/-- The call `func(dst, x, y, blendMode, r, g, b, a)` of lines 779 and 789: the destination
after it. The pointer is not tested before the call. -/
def blend_points_call (func : Option BlendPointFunc) (fb : Framebuffer) (x y : Int)
    (blendMode : RTGUI_BLENDMODE) (r g b a : Nat) : Run Framebuffer :=
  match func with
  | none => Run.null_call
  | some f => Run.done (fb.write x y (_dc_blend_point f.codec (fb x y) blendMode r g b a))

/-- The loops `for (i = 0; i < count; ++i)` of lines 767-780 (client contexts) and 784-790
(all other contexts): `n` passes starting at index `i`. -/
def blend_points_loop (dst : rtgui_dc) (func : Option BlendPointFunc)
    (points : List rtgui_point_t) (blendMode : RTGUI_BLENDMODE) (r g b a : Nat) :
    Nat → Int → Framebuffer → Run Framebuffer
  | 0, _, fb => Run.done fb
  | n + 1, i, fb =>
    (read_point points i).bind fun p =>
      let x := p.x
      let y := p.y
      if dst.type = RTGUI_DC_CLIENT then
        -- Perform clipping
        let x := x + dst.extent.x1
        let y := y + dst.extent.y1
        if rtgui_region_contains_point dst.clip x y = false then
          blend_points_loop dst func points blendMode r g b a n (i + 1) fb
        else
          (blend_points_call func fb x y blendMode r g b a).bind fun fb =>
            blend_points_loop dst func points blendMode r g b a n (i + 1) fb
      else
        (blend_points_call func fb x y blendMode r g b a).bind fun fb =>
          blend_points_loop dst func points blendMode r g b a n (i + 1) fb

/-- Function `rtgui_dc_blend_points` (lines 723-792): the destination after the call. The parameters
`r, g, b, a` are `rt_uint8_t`. -/
def rtgui_dc_blend_points (dst : rtgui_dc) (fb : Framebuffer) (points : List rtgui_point_t)
    (count : Int) (blendMode : RTGUI_BLENDMODE) (r g b a : Nat) : Run Framebuffer :=
  let r := r % 256
  let g := g % 256
  let b := b % 256
  let a := a % 256
  if !dst.visible then Run.done fb
  else if _dc_get_pixel_is_null dst then Run.done fb
  else
    let premul := blendMode = RTGUI_BLENDMODE_BLEND ∨ blendMode = RTGUI_BLENDMODE_ADD
    let r := if premul then DRAW_MUL r a % 256 else r
    let g := if premul then DRAW_MUL g a % 256 else g
    let b := if premul then DRAW_MUL b a % 256 else b
    let func := blend_points_func dst.pixel_format
    blend_points_loop dst func points blendMode r g b a count.toNat 0 fb

/-! ## `rtgui_dc_blend_lines` (lines 1276-1407) -/

/-- What `rtgui_dc_blend_lines` does to the destination: calls of the blend-line function, and
the call `rtgui_dc_blend_point(dst, x, y, blendMode, r, g, b, a)` of line 1404. -/
inductive BlendEvent where
  | line (c : BlendLineCall)
  | point (x y : Int) (blendMode : RTGUI_BLENDMODE) (r g b a : Nat)
deriving DecidableEq, Repr

/-- Lines 1373-1382 for one rectangle `prect` of a multi-rectangle clip region: the
coordinates handed to the line function, or `none` when the rectangle is passed over with
`continue`. -/
def blend_lines_clip_rect (prect : rtgui_rect_t) (x1 y1 x2 y2 : Int) :
    Option (Int × Int × Int × Int) :=
  -- calculate vline clip
  if prect.x1 > x1 ∨ prect.x2 ≤ x1 then none
  else if prect.y2 ≤ y1 ∨ prect.y1 > y2 then none
  else
    let draw_y1 := if prect.y1 > y1 then prect.y1 else y1
    let draw_y2 := if prect.y2 < y2 then prect.y2 else y2
    let draw_x1 := if prect.x1 > x1 then prect.x1 else x1
    let draw_x2 := if prect.x2 < x2 then prect.x2 else x2
    some (draw_x1, draw_y1, draw_x2, draw_y2)

/-- One pass through the body of the `for` loop of `rtgui_dc_blend_lines` (lines 1321-1399)
for the index `i`. The Boolean is `true` when the body executed a `return` of lines
1347-1348. -/
def blend_lines_body (dst : rtgui_dc) (func : BlendLineFunc) (blendMode : RTGUI_BLENDMODE)
    (r g b a : Nat) (points : List rtgui_point_t) (i : Int) :
    Run (List BlendLineCall × Bool) :=
  (read_point points (i - 1)).bind fun p1 =>
  (read_point points i).bind fun p2 =>
    let x1 := p1.x
    let y1 := p1.y
    let x2 := p2.x
    let y2 := p2.y
    -- Draw the end if it was clipped
    let draw_end : Bool := decide (x2 ≠ p2.x ∨ y2 ≠ p2.y)
    if dst.type = RTGUI_DC_CLIENT then
      let (x1, y1, x2, y2) := translate_and_order dst.extent x1 y1 x2 y2
      match dst.clip.data with
      | none =>
        let prect := dst.clip.extents
        -- calculate line intersect
        if prect.x1 > x2 ∨ prect.x2 ≤ x1 then Run.done ([], true)
        else if prect.y2 ≤ y1 ∨ prect.y1 > y2 then Run.done ([], true)
        else
          let y1 := if prect.y1 > y1 then prect.y1 else y1
          let y2 := if prect.y2 < y2 then prect.y2 else y2
          let x1 := if prect.x1 > x1 then prect.x1 else x1
          let x2 := if prect.x2 < x2 then prect.x2 else x2
          Run.done ([⟨func, x1, y1, x2, y2, blendMode, r, g, b, a, draw_end⟩], false)
      | some rects =>
        Run.done ((rects.filterMap fun prect => blend_lines_clip_rect prect x1 y1 x2 y2).map
          (fun s => ⟨func, s.1, s.2.1, s.2.2.1, s.2.2.2, blendMode, r, g, b, a, draw_end⟩),
          false)
    else
      let (x1, y1, x2, y2) :=
        if dst.type = RTGUI_DC_HW then translate_and_order dst.extent x1 y1 x2 y2
        else (x1, y1, x2, y2)
      Run.done ([⟨func, x1, y1, x2, y2, blendMode, r, g, b, a, draw_end⟩], false)

/-- The loop `for (i = 1; i < count; ++i)` of line 1319: `n` passes starting at index `i`. -/
def blend_lines_loop (dst : rtgui_dc) (func : BlendLineFunc) (blendMode : RTGUI_BLENDMODE)
    (r g b a : Nat) (points : List rtgui_point_t) :
    Nat → Int → Run (List BlendLineCall × Bool)
  | 0, _ => Run.done ([], false)
  | n + 1, i =>
    (blend_lines_body dst func blendMode r g b a points i).bind fun res =>
      if res.2 then Run.done (res.1, true)
      else
        (blend_lines_loop dst func blendMode r g b a points n (i + 1)).bind fun rest =>
          Run.done (res.1 ++ rest.1, rest.2)

/-- Function `rtgui_dc_blend_lines` (lines 1276-1407). -/
def rtgui_dc_blend_lines (dst : rtgui_dc) (points : List rtgui_point_t) (count : Int)
    (blendMode : RTGUI_BLENDMODE) (color : rtgui_color_t) : Run (List BlendEvent) :=
  if !dst.visible then Run.done []
  else if _dc_get_pixel_is_null dst then Run.done []
  else
    match _dc_calc_blend_line_func dst.pixel_format with
    | none => Run.done []
    | some func =>
      let r := color.r % 256
      let g := color.g % 256
      let b := color.b % 256
      let a := color.a % 256
      (blend_lines_loop dst func blendMode r g b a points (count - 1).toNat 1).bind fun res =>
        if res.2 then Run.done (res.1.map BlendEvent.line)
        else
          (read_point points 0).bind fun first =>
          (read_point points (count - 1)).bind fun last =>
            if first.x ≠ last.x ∨ first.y ≠ last.y then
              Run.done (res.1.map BlendEvent.line ++
                [BlendEvent.point last.x last.y blendMode r g b a])
            else Run.done (res.1.map BlendEvent.line)

/-! ## `rtgui_dc_blend_fill_rects` (lines 1601-1710) and the per-format fills -/

/-- The read `rects[i]` of an array holding the elements of `rects`. -/
def read_rect (rects : List rtgui_rect_t) (i : Int) : Run rtgui_rect_t :=
  if i < 0 then Run.bad_index i
  else
    match rects[i.toNat]? with
    | some r => Run.done r
    | none => Run.bad_index i

/-- One pass through the body of the `for` loop of `rtgui_dc_blend_fill_rects` (lines
1662-1708) for the rectangle `rect`. The Boolean is `true` when the body executed a `return`
of lines 1679-1680. -/
def blend_fill_rects_body (dst : rtgui_dc) (func : BlendFillFunc)
    (blendMode : RTGUI_BLENDMODE) (r g b a : Nat) (rect : rtgui_rect_t) :
    List BlendFillCall × Bool :=
  if dst.type = RTGUI_DC_CLIENT then
    match dst.clip.data with
    | none =>
      let prect := dst.clip.extents
      -- convert logic to device
      let draw_rect := rtgui_rect_moveto rect dst.extent.x1 dst.extent.y1
      -- calculate rect intersect
      if fill_rect_skips prect draw_rect then ([], true)
      else ([⟨func, rtgui_rect_intersect prect draw_rect, blendMode, r, g, b, a⟩], false)
    | some rects =>
      (rects.filterMap fun prect =>
        let draw_rect := rtgui_rect_moveto rect dst.extent.x1 dst.extent.y1
        if fill_rect_skips prect draw_rect then none
        else some ⟨func, rtgui_rect_intersect prect draw_rect, blendMode, r, g, b, a⟩, false)
  else ([⟨func, rect, blendMode, r, g, b, a⟩], false)

/-- The loop `for (i = 0; i < count; ++i)` of line 1660: `n` passes starting at index `i`. -/
def blend_fill_rects_loop (dst : rtgui_dc) (func : BlendFillFunc)
    (blendMode : RTGUI_BLENDMODE) (r g b a : Nat) (rects : List rtgui_rect_t) :
    Nat → Int → Run (List BlendFillCall)
  | 0, _ => Run.done []
  | n + 1, i =>
    (read_rect rects i).bind fun rect =>
      let res := blend_fill_rects_body dst func blendMode r g b a rect
      if res.2 then Run.done res.1
      else
        (blend_fill_rects_loop dst func blendMode r g b a rects n (i + 1)).bind fun rest =>
          Run.done (res.1 ++ rest)

/-- Function `rtgui_dc_blend_fill_rects` (lines 1601-1710): the calls of the per-format fill it
makes. -/
def rtgui_dc_blend_fill_rects (dst : rtgui_dc) (rects : List rtgui_rect_t) (count : Int)
    (blendMode : RTGUI_BLENDMODE) (color : rtgui_color_t) : Run (List BlendFillCall) :=
  if !dst.visible then Run.done []
  -- This function doesn't work on surfaces < 8 bpp
  else if _dc_get_bits_per_pixel dst < 8 then Run.done []
  else
    let r := fill_channel blendMode (color.r % 256) (color.a % 256)
    let g := fill_channel blendMode (color.g % 256) (color.a % 256)
    let b := fill_channel blendMode (color.b % 256) (color.a % 256)
    let a := color.a % 256
    match blend_fill_rect_func dst.pixel_format with
    | none => Run.done []
    | some func => blend_fill_rects_loop dst func blendMode r g b a rects count.toNat 0

/-- The format suffix of the `DRAW_SETPIXEL_*` macros in the body of each
`_dc_blend_fill_rect_<format>` (lines 1409-1495). The body of `_dc_blend_fill_rect_bgr565`
(lines 1437-1450) names the RGB565 macros. -/
def BlendFillFunc.codec : BlendFillFunc → PixelCodec
  | BlendFillFunc._dc_blend_fill_rect_rgb565 => codec_rgb565
  | BlendFillFunc._dc_blend_fill_rect_bgr565 => codec_rgb565
  | BlendFillFunc._dc_blend_fill_rect_rgb888 => codec_rgb888
  | BlendFillFunc._dc_blend_fill_rect_argb8888 => codec_argb8888

/-- Modelled from the spec: the macro `FILLRECT` of `rtgui/dc_draw.h`, which is not among the
sources: it applies the pixel operator `op` to "every pixel of a rectangle", the rectangle
being "left/top inclusive, right/bottom exclusive". -/
def FILLRECT (rect : rtgui_rect_t) (op : Nat → Nat) (fb : Framebuffer) : Framebuffer :=
  fun x y =>
    if rect.x1 ≤ x ∧ x < rect.x2 ∧ rect.y1 ≤ y ∧ y < rect.y2 then op (fb x y) else fb x y

/-- The body shared by the four `_dc_blend_fill_rect_<format>` (lines 1409-1495), with the
codec their macros name: the destination after the call. -/
def _dc_blend_fill_rect (codec : PixelCodec) (fb : Framebuffer) (rect : rtgui_rect_t)
    (blendMode : RTGUI_BLENDMODE) (r g b a : Nat) : Framebuffer :=
  let inva := 0xff - a
  match blendMode with
  | RTGUI_BLENDMODE_BLEND => FILLRECT rect (fun pixel => DRAW_SETPIXEL_BLEND codec pixel r g b a inva) fb
  | RTGUI_BLENDMODE_ADD => FILLRECT rect (fun pixel => DRAW_SETPIXEL_ADD codec pixel r g b) fb
  | RTGUI_BLENDMODE_MOD => FILLRECT rect (fun pixel => DRAW_SETPIXEL_MOD codec pixel r g b) fb
  | RTGUI_BLENDMODE_NONE => FILLRECT rect (fun pixel => DRAW_SETPIXEL codec pixel r g b a) fb

/-- The destination after the recorded call `c` of a per-format fill. -/
def BlendFillCall.run (c : BlendFillCall) (fb : Framebuffer) : Framebuffer :=
  _dc_blend_fill_rect c.func.codec fb c.rect c.blendMode c.r c.g c.b c.a

/-! ## The anti-aliased ellipse (lines 1752-1953) -/

/-- The value an `rt_int16_t` holds after `v` is stored in it. -/
def wrap16 (v : Int) : Int := (v + 32768) % 65536 - 32768

/-- The drawing calls `rtgui_dc_draw_aa_ellipse` makes, with their arguments. -/
inductive EllipseCall where
  | draw_vline (x y1 y2 : Int)
  | draw_hline (x1 x2 y : Int)
  | blend_point (x y : Int) (blendMode : RTGUI_BLENDMODE) (r g b a : Nat)
deriving DecidableEq, Repr

/-- Function `_draw_pixel_weight` (lines 1752-1767): the call of `rtgui_dc_blend_point` it makes. The
parameters `x, y` are `rt_int16_t`, `r, g, b, a` are `rt_uint8_t`, and `weight` and the local
`ax` are `rt_uint32_t`. -/
def _draw_pixel_weight (x y : Int) (r g b a weight : Nat) : EllipseCall :=
  let x := wrap16 x
  let y := wrap16 y
  let r := r % 256
  let g := g % 256
  let b := b % 256
  let a := a % 256
  let weight := weight % 4294967296
  -- Modify Alpha by weight
  let ax := a
  let ax := ((ax * weight) % 4294967296) >>> 8
  let a := if ax > 255 then 255 else ax &&& 0x000000ff
  EllipseCall.blend_point x y RTGUI_BLENDMODE_BLEND r g b a

/-- The results of the floating-point computations of `rtgui_dc_draw_aa_ellipse`, which are
not modelled and enter as given values: `dxt` is the value of the variable `dxt` after line
1814, `dyt` the value of `dyt` after line 1890, and `weight d s` the value
`(rt_uint8_t) (cp * 255)` of lines 1858-1868 for the error terms `d` and `s` (in lines
1918-1928 for `d` and `t`). -/
structure EllipseSteps where
  dxt : Int
  dyt : Int
  weight : Int → Int → Nat

/-- The variables `xp, yp, d, s, t` that the two loops of `rtgui_dc_draw_aa_ellipse` carry
from one pass to the next. -/
structure EllipseState where
  xp : Int
  yp : Int
  d : Int
  s : Int
  t : Int
deriving DecidableEq, Repr

/-- Lines 1833-1855 of the first loop: the step of `xp`, `yp` and of the error terms `d`,
`s`, `t`. The result is the row `ys` together with the variables after the step. -/
def aa_ellipse_step1 (a2 b2 ds dt : Int) (st : EllipseState) : Int × EllipseState :=
  let xp := wrap16 (st.xp - 1)
  let d := st.d + (st.t - b2)
  if d ≥ 0 then
    (wrap16 (st.yp - 1), ⟨xp, st.yp, d, st.s, st.t - dt⟩)
  else if (d - st.s - a2) > 0 then
    if (2 * d - st.s - a2) ≥ 0 then
      (wrap16 (st.yp + 1), ⟨xp, st.yp, d, st.s, st.t - dt⟩)
    else
      (st.yp, ⟨xp, wrap16 (st.yp + 1), d - (st.s + a2), st.s + ds, st.t - dt⟩)
  else
    (wrap16 (wrap16 (st.yp + 1) + 1),
      ⟨xp, wrap16 (st.yp + 1), d - (st.s + a2), st.s + ds, st.t - dt⟩)

/-- Lines 1857-1886 of the first loop: the weights and the eight weighted point draws, for
the row `ys` and the variables `st` after the step. -/
def aa_ellipse_draw1 (steps : EllipseSteps) (xc2 yc2 : Int) (r g b a : Nat) (ys : Int)
    (st : EllipseState) : List EllipseCall :=
  -- Calculate weights
  let weight := steps.weight st.d st.s % 256
  let iweight := (255 - weight) % 256
  -- Upper half
  let xx := wrap16 (xc2 - st.xp)
  let yy1 := wrap16 (yc2 - st.yp)
  let yy2 := wrap16 (yc2 - ys)
  [_draw_pixel_weight st.xp st.yp r g b a iweight,
   _draw_pixel_weight xx st.yp r g b a iweight,
   _draw_pixel_weight st.xp ys r g b a weight,
   _draw_pixel_weight xx ys r g b a weight,
   -- Lower half
   _draw_pixel_weight st.xp yy1 r g b a iweight,
   _draw_pixel_weight xx yy1 r g b a iweight,
   _draw_pixel_weight st.xp yy2 r g b a weight,
   _draw_pixel_weight xx yy2 r g b a weight]

/-- One pass through the body of the first loop (lines 1833-1886): the calls it makes and the
variables after it. -/
def aa_ellipse_body1 (steps : EllipseSteps) (a2 b2 ds dt xc2 yc2 : Int) (r g b a : Nat)
    (st : EllipseState) : List EllipseCall × EllipseState :=
  let res := aa_ellipse_step1 a2 b2 ds dt st
  (aa_ellipse_draw1 steps xc2 yc2 r g b a res.1 res.2, res.2)

/-- Lines 1893-1915 of the second loop: the step of `yp`, `xp` and of the error terms `d`,
`t`, `s`. The result is the column `xs` together with the variables after the step. -/
def aa_ellipse_step2 (a2 b2 ds dt : Int) (st : EllipseState) : Int × EllipseState :=
  let yp := wrap16 (st.yp + 1)
  let d := st.d - (st.s + a2)
  if d ≤ 0 then
    (wrap16 (st.xp + 1), ⟨st.xp, yp, d, st.s + ds, st.t⟩)
  else if (d + st.t - b2) < 0 then
    if (2 * d + st.t - b2) ≤ 0 then
      (wrap16 (st.xp - 1), ⟨st.xp, yp, d, st.s + ds, st.t⟩)
    else
      (st.xp, ⟨wrap16 (st.xp - 1), yp, d + (st.t - b2), st.s + ds, st.t - dt⟩)
  else
    (wrap16 (wrap16 (st.xp - 1) - 1),
      ⟨wrap16 (st.xp - 1), yp, d + (st.t - b2), st.s + ds, st.t - dt⟩)

/-- Lines 1917-1946 of the second loop: the weights and the eight weighted point draws, for
the column `xs` and the variables `st` after the step. -/
def aa_ellipse_draw2 (steps : EllipseSteps) (xc2 yc2 : Int) (r g b a : Nat) (xs : Int)
    (st : EllipseState) : List EllipseCall :=
  -- Calculate weight
  let weight := steps.weight st.d st.t % 256
  let iweight := (255 - weight) % 256
  -- Left half
  let xx1 := wrap16 (xc2 - st.xp)
  let yy := wrap16 (yc2 - st.yp)
  let xx2 := wrap16 (xc2 - xs)
  [_draw_pixel_weight st.xp st.yp r g b a iweight,
   _draw_pixel_weight xx1 st.yp r g b a iweight,
   _draw_pixel_weight st.xp yy r g b a iweight,
   _draw_pixel_weight xx1 yy r g b a iweight,
   -- Right half
   _draw_pixel_weight xs st.yp r g b a weight,
   _draw_pixel_weight xx2 st.yp r g b a weight,
   _draw_pixel_weight xs yy r g b a weight,
   _draw_pixel_weight xx2 yy r g b a weight]

/-- One pass through the body of the second loop (lines 1893-1946): the calls it makes and
the variables after it. -/
def aa_ellipse_body2 (steps : EllipseSteps) (a2 b2 ds dt xc2 yc2 : Int) (r g b a : Nat)
    (st : EllipseState) : List EllipseCall × EllipseState :=
  let res := aa_ellipse_step2 a2 b2 ds dt st
  (aa_ellipse_draw2 steps xc2 yc2 r g b a res.1 res.2, res.2)

/-- A `for` loop of `rtgui_dc_draw_aa_ellipse` with the given body: `n` passes from the
variables `st`. -/
def aa_ellipse_loop (body : EllipseState → List EllipseCall × EllipseState) :
    Nat → EllipseState → List EllipseCall × EllipseState
  | 0, st => ([], st)
  | n + 1, st =>
    let res := body st
    let rest := aa_ellipse_loop body n res.2
    (res.1 ++ rest.1, rest.2)

/-- Function `rtgui_dc_draw_aa_ellipse` (lines 1769-1948): the drawing calls it makes, in order. The
parameters `x, y, rx, ry` are the values of the `rt_int16_t` parameters; the colour is the
foreground colour `RTGUI_DC_FC(dc)`. -/
def rtgui_dc_draw_aa_ellipse (dc : rtgui_dc) (steps : EllipseSteps) (x y rx ry : Int) :
    List EllipseCall :=
  -- Sanity check radii
  if rx < 0 ∨ ry < 0 then []
  -- Special case for rx=0 - draw a vline
  else if rx = 0 then [EllipseCall.draw_vline x (y - ry) (y + ry)]
  -- Special case for ry=0 - draw an hline
  else if ry = 0 then [EllipseCall.draw_hline (x - rx) (x + rx) y]
  else
    -- Variable setup
    let r := dc.foreground.r % 256
    let g := dc.foreground.g % 256
    let b := dc.foreground.b % 256
    let a := dc.foreground.a % 256
    let a2 := rx * rx
    let b2 := ry * ry
    let ds := 2 * a2
    let dt := 2 * b2
    let xc2 := wrap16 (2 * x)
    let yc2 := wrap16 (2 * y)
    let t := 0
    let s := -2 * a2 * ry
    let d := 0
    let xp := x
    let yp := wrap16 (y - ry)
    -- "End points"
    let ends :=
      [EllipseCall.blend_point xp yp RTGUI_BLENDMODE_NONE r g b a,
       EllipseCall.blend_point (xc2 - xp) yp RTGUI_BLENDMODE_NONE r g b a,
       EllipseCall.blend_point xp (yc2 - yp) RTGUI_BLENDMODE_NONE r g b a,
       EllipseCall.blend_point (xc2 - xp) (yc2 - yp) RTGUI_BLENDMODE_NONE r g b a]
    let first := aa_ellipse_loop (aa_ellipse_body1 steps a2 b2 ds dt xc2 yc2 r g b a)
      steps.dxt.toNat ⟨xp, yp, d, s, t⟩
    let second := aa_ellipse_loop (aa_ellipse_body2 steps a2 b2 ds dt xc2 yc2 r g b a)
      steps.dyt.toNat first.2
    ends ++ first.1 ++ second.1

/-- Function `rtgui_dc_draw_aa_circle` (lines 1950-1953). -/
def rtgui_dc_draw_aa_circle (dc : rtgui_dc) (steps : EllipseSteps) (x y r : Int) :
    List EllipseCall :=
  rtgui_dc_draw_aa_ellipse dc steps x y r r

/-! ## Notions used to state the properties -/

/-- The point `(x, y)` lies in the closed clip rectangle
`[rect.x1, rect.x2-1] × [rect.y1, rect.y2-1]`. -/
def in_clip_rect (rect : rtgui_rect_t) (x y : Int) : Prop :=
  rect.x1 ≤ x ∧ x ≤ rect.x2 - 1 ∧ rect.y1 ≤ y ∧ y ≤ rect.y2 - 1

instance (rect : rtgui_rect_t) (x y : Int) : Decidable (in_clip_rect rect x y) := by
  unfold in_clip_rect; infer_instance

/-- Both end points lie strictly outside the same side of the closed clip rectangle. -/
def outside_same_side (rect : rtgui_rect_t) (x1 y1 x2 y2 : Int) : Prop :=
  (x1 < rect.x1 ∧ x2 < rect.x1) ∨ (x1 > rect.x2 - 1 ∧ x2 > rect.x2 - 1) ∨
  (y1 < rect.y1 ∧ y2 < rect.y1) ∨ (y1 > rect.y2 - 1 ∧ y2 > rect.y2 - 1)

instance (rect : rtgui_rect_t) (x1 y1 x2 y2 : Int) :
    Decidable (outside_same_side rect x1 y1 x2 y2) := by
  unfold outside_same_side; infer_instance

/-- The value `v` clamped into `[lo, hi]`. -/
def clamp_to (lo hi v : Int) : Int := max lo (min hi v)

/-- The real (continuous) segment from `(x1,y1)` to `(x2,y2)` has a point in the closed clip
rectangle `[rect.x1, rect.x2-1] × [rect.y1, rect.y2-1]`. -/
def segment_meets_clip_rect (rect : rtgui_rect_t) (x1 y1 x2 y2 : Int) : Prop :=
  ∃ t : ℝ, 0 ≤ t ∧ t ≤ 1 ∧
    (rect.x1 : ℝ) ≤ x1 + t * (x2 - x1) ∧ (x1 : ℝ) + t * (x2 - x1) ≤ rect.x2 - 1 ∧
    (rect.y1 : ℝ) ≤ y1 + t * (y2 - y1) ∧ (y1 : ℝ) + t * (y2 - y1) ≤ rect.y2 - 1

/-- The half-open rectangle `r` is non-empty. -/
def rect_nonempty (r : rtgui_rect_t) : Prop := r.x1 < r.x2 ∧ r.y1 < r.y2

/-- The rectangle `r` lies inside the rectangle `c`. -/
def rect_inside (r c : rtgui_rect_t) : Prop :=
  c.x1 ≤ r.x1 ∧ r.x2 ≤ c.x2 ∧ c.y1 ≤ r.y1 ∧ r.y2 ≤ c.y2

/-- The half-open rectangles `c` and `d` overlap. -/
def rects_overlap (c d : rtgui_rect_t) : Prop :=
  c.x1 < d.x2 ∧ d.x1 < c.x2 ∧ c.y1 < d.y2 ∧ d.y1 < c.y2

/-- The depth of the surface selects a line function, and for 16 and 32 bits the pixel format
is one the general-slope case of that function draws for. -/
def line_surface_ok (dst : rtgui_dc) : Prop :=
  dst.bits_per_pixel / 8 = 1 ∨
  (dst.bits_per_pixel / 8 = 2 ∧ (dst.pixel_format = RTGRAPHIC_PIXEL_FORMAT_RGB565 ∨
    dst.pixel_format = RTGRAPHIC_PIXEL_FORMAT_BGR565)) ∨
  (dst.bits_per_pixel / 8 = 4 ∧ (dst.pixel_format = RTGRAPHIC_PIXEL_FORMAT_RGB888 ∨
    dst.pixel_format = RTGRAPHIC_PIXEL_FORMAT_ARGB888))

/-- A visible off-screen buffer of the given depth and format. -/
def buffer_dc (bits_per_pixel : Nat) (format : rtgui_pixel_format) : rtgui_dc where
  type := RTGUI_DC_BUFFER
  visible := true
  pixel_null := false
  bits_per_pixel := bits_per_pixel
  pixel_format := format
  foreground := ⟨255, 0, 0, 255⟩
  extent := ⟨0, 0, 0, 0⟩
  clip := ⟨⟨0, 0, 0, 0⟩, none⟩

/-- A visible hardware context on a 32-bit RGB888 driver whose owner sits at `extent`. -/
def hw_dc (extent : rtgui_rect_t) : rtgui_dc where
  type := RTGUI_DC_HW
  visible := true
  pixel_null := false
  bits_per_pixel := 32
  pixel_format := RTGRAPHIC_PIXEL_FORMAT_RGB888
  foreground := ⟨255, 0, 0, 255⟩
  extent := extent
  clip := ⟨extent, none⟩

/-- A visible client context on a 32-bit RGB888 driver whose owner sits at `extent` and is
clipped by `clip`. -/
def client_dc (extent : rtgui_rect_t) (clip : rtgui_region_t) : rtgui_dc where
  type := RTGUI_DC_CLIENT
  visible := true
  pixel_null := false
  bits_per_pixel := 32
  pixel_format := RTGRAPHIC_PIXEL_FORMAT_RGB888
  foreground := ⟨255, 0, 0, 255⟩
  extent := extent
  clip := clip

/-- The mirror image of a point draw in the vertical line through the centre `x = cx`; other
calls are left as they are. -/
def EllipseCall.mirror_x (cx : Int) : EllipseCall → EllipseCall
  | EllipseCall.blend_point x y m r g b a => EllipseCall.blend_point (2 * cx - x) y m r g b a
  | c => c

/-- The mirror image of a point draw in the horizontal line through the centre `y = cy`;
other calls are left as they are. -/
def EllipseCall.mirror_y (cy : Int) : EllipseCall → EllipseCall
  | EllipseCall.blend_point x y m r g b a => EllipseCall.blend_point x (2 * cy - y) m r g b a
  | c => c

/-- Every call of the list has both of its mirror images about `(cx, cy)` in the list. -/
def mirror_closed (cx cy : Int) (l : List EllipseCall) : Prop :=
  ∀ c ∈ l, c.mirror_x cx ∈ l ∧ c.mirror_y cy ∈ l

instance (cx cy : Int) (l : List EllipseCall) : Decidable (mirror_closed cx cy l) := by
  unfold mirror_closed; infer_instance

/-- Step counts and a constant coverage weight, used for examples. -/
def example_steps (dxt dyt : Int) (weight : Nat) : EllipseSteps := ⟨dxt, dyt, fun _ _ => weight⟩

/-- One call `rtgui_dc_blend_point(dst, points[i].x, points[i].y, blendMode, r, g, b, a)` for each
point of the list, in order: the destination after them. -/
def blend_point_each (dst : rtgui_dc) (fb : Framebuffer) (points : List rtgui_point_t)
    (blendMode : RTGUI_BLENDMODE) (r g b a : Nat) : Framebuffer :=
  points.foldl (fun fb p => rtgui_dc_blend_point dst fb p.x p.y blendMode r g b a) fb

/-- The destination with the value 0 in every pixel. -/
def blank : Framebuffer := fun _ _ => 0

/-- The variables `xp`, `yp` of the ellipse loops after `k` passes: `xp` has moved left from
the centre column `x` by at most `k`, `yp` down from the top row `y - ry` by at most `k`. -/
def ellipse_state_within (x y ry k : Int) (st : EllipseState) : Prop :=
  x - k ≤ st.xp ∧ st.xp ≤ x ∧ y - ry ≤ st.yp ∧ st.yp ≤ y - ry + k

/-- The coordinates an ellipse of vertical radius `ry` about `(x, y)` computes in `m - 2`
passes of its loops fit in 16 bits. -/
def ellipse_fits16 (x y ry m : Int) : Prop :=
  -32768 ≤ 2 * x ∧ 2 * x ≤ 32767 ∧ -32768 ≤ 2 * y ∧ 2 * y ≤ 32767 ∧
  -32768 ≤ x - m ∧ x + m ≤ 32767 ∧ -32768 ≤ y - ry - m ∧ y + ry + m ≤ 32767

instance (x y ry m : Int) : Decidable (ellipse_fits16 x y ry m) := by
  unfold ellipse_fits16; infer_instance

/-- The loop of `_intersect_rect_line`, entered with the given variables, ends within `k`
passes: for every iteration budget of at least `k` it gives one and the same outcome, which
is `RT_FALSE` or `RT_TRUE` with four coordinates. -/
def clip_settles (rect : rtgui_rect_t) (k : Nat) (x1 y1 x2 y2 : Int) (outcode1 outcode2 : Nat)
    (x y : Int) : Prop :=
  ∃ r : ClipResult, (r = ClipResult.rejected ∨ ∃ a b c d, r = ClipResult.accepted a b c d) ∧
    ∀ fuel, k ≤ fuel → clip_loop rect fuel x1 y1 x2 y2 outcode1 outcode2 x y = r

/-! # Properties

## Auxiliary facts about the clipper -/

/-! ### Real segments against a closed box -/

theorem convex_lt (a b c t : ℝ) (ha : a < c) (hb : b < c) (h0 : 0 ≤ t) (h1 : t ≤ 1) :
    a + t * (b - a) < c := by
  rcases le_total a b with hab | hab
  · have : t * (b - a) ≤ 1 * (b - a) := mul_le_mul_of_nonneg_right h1 (sub_nonneg.mpr hab)
    linarith
  · have : t * (b - a) ≤ 0 := mul_nonpos_of_nonneg_of_nonpos h0 (sub_nonpos.mpr hab)
    linarith

theorem convex_gt (a b c t : ℝ) (ha : c < a) (hb : c < b) (h0 : 0 ≤ t) (h1 : t ≤ 1) :
    c < a + t * (b - a) := by
  have := convex_lt (-a) (-b) (-c) t (by linarith) (by linarith) h0 h1
  linarith

theorem exists_param_in_range (a b lo hi : ℝ) (hlh : lo ≤ hi) (h1 : ¬ (a < lo ∧ b < lo))
    (h2 : ¬ (hi < a ∧ hi < b)) :
    ∃ t : ℝ, 0 ≤ t ∧ t ≤ 1 ∧ lo ≤ a + t * (b - a) ∧ a + t * (b - a) ≤ hi := by
  by_cases ha : lo ≤ a ∧ a ≤ hi
  · exact ⟨0, le_refl _, zero_le_one, by simpa using ha.1, by simpa using ha.2⟩
  by_cases hb : lo ≤ b ∧ b ≤ hi
  · exact ⟨1, zero_le_one, le_refl _, by simpa using hb.1, by simpa using hb.2⟩
  rcases lt_or_le a lo with hal | hal
  · have hbl : lo ≤ b := by
      by_contra h
      exact h1 ⟨hal, not_le.mp h⟩
    have hbh : hi < b := by
      by_contra h
      exact hb ⟨hbl, not_lt.mp h⟩
    have hpos : 0 < b - a := by linarith
    refine ⟨(lo - a) / (b - a), div_nonneg (by linarith) hpos.le,
      (div_le_one hpos).mpr (by linarith), ?_, ?_⟩
    · rw [div_mul_cancel₀ _ hpos.ne']; linarith
    · rw [div_mul_cancel₀ _ hpos.ne']; linarith
  · have hah : hi < a := by
      by_contra h
      exact ha ⟨hal, not_lt.mp h⟩
    have hbh : b ≤ hi := by
      by_contra h
      exact h2 ⟨hah, not_le.mp h⟩
    have hbl : b < lo := by
      by_contra h
      exact hb ⟨not_lt.mp h, hbh⟩
    have hpos : 0 < a - b := by linarith
    refine ⟨(a - hi) / (a - b), div_nonneg (by linarith) hpos.le,
      (div_le_one hpos).mpr (by linarith), ?_, ?_⟩
    · have : (a - hi) / (a - b) * (b - a) = -(a - hi) := by
        field_simp
        ring
      rw [this]; linarith
    · have : (a - hi) / (a - b) * (b - a) = -(a - hi) := by
        field_simp
        ring
      rw [this]; linarith

/-- A segment whose end points are strictly outside the same side of the closed clip
rectangle does not meet it. -/
theorem not_meets_of_outside_same_side (rect : rtgui_rect_t) (x1 y1 x2 y2 : Int)
    (h : outside_same_side rect x1 y1 x2 y2) : ¬ segment_meets_clip_rect rect x1 y1 x2 y2 := by
  rintro ⟨t, h0, h1, hxl, hxh, hyl, hyh⟩
  rcases h with ⟨ha, hb⟩ | ⟨ha, hb⟩ | ⟨ha, hb⟩ | ⟨ha, hb⟩
  · have := convex_lt (x1 : ℝ) x2 rect.x1 t (by exact_mod_cast ha) (by exact_mod_cast hb) h0 h1
    linarith
  · have := convex_gt (x1 : ℝ) x2 (rect.x2 - 1) t (by exact_mod_cast ha) (by exact_mod_cast hb)
      h0 h1
    linarith
  · have := convex_lt (y1 : ℝ) y2 rect.y1 t (by exact_mod_cast ha) (by exact_mod_cast hb) h0 h1
    linarith
  · have := convex_gt (y1 : ℝ) y2 (rect.y2 - 1) t (by exact_mod_cast ha) (by exact_mod_cast hb)
      h0 h1
    linarith

/-- A horizontal or vertical segment whose end points are not strictly outside the same side
of a non-empty clip rectangle meets it. -/
theorem meets_of_axis_aligned (rect : rtgui_rect_t) (x1 y1 x2 y2 : Int)
    (hx : rect.x1 < rect.x2) (hy : rect.y1 < rect.y2) (haxis : y1 = y2 ∨ x1 = x2)
    (h : ¬ outside_same_side rect x1 y1 x2 y2) : segment_meets_clip_rect rect x1 y1 x2 y2 := by
  unfold outside_same_side at h
  push_neg at h
  obtain ⟨hxl, hxh, hyl, hyh⟩ := h
  rcases haxis with rfl | rfl
  · obtain ⟨t, h0, h1, hl, hh⟩ := exists_param_in_range (x1 : ℝ) x2 rect.x1 (rect.x2 - 1)
      (by have : rect.x1 ≤ rect.x2 - 1 := by omega
          exact_mod_cast this)
      (by rintro ⟨ha, hb⟩
          have ha' : x1 < rect.x1 := by exact_mod_cast ha
          have hb' : x2 < rect.x1 := by exact_mod_cast hb
          omega)
      (by rintro ⟨ha, hb⟩
          have ha' : rect.x2 - 1 < x1 := by exact_mod_cast ha
          have hb' : rect.x2 - 1 < x2 := by exact_mod_cast hb
          omega)
    refine ⟨t, h0, h1, hl, hh, ?_, ?_⟩
    · have : rect.y1 ≤ y1 := by omega
      have : (rect.y1 : ℝ) ≤ y1 := by exact_mod_cast this
      simpa using this
    · have : y1 ≤ rect.y2 - 1 := by omega
      have : (y1 : ℝ) ≤ rect.y2 - 1 := by exact_mod_cast this
      simpa using this
  · obtain ⟨t, h0, h1, hl, hh⟩ := exists_param_in_range (y1 : ℝ) y2 rect.y1 (rect.y2 - 1)
      (by have : rect.y1 ≤ rect.y2 - 1 := by omega
          exact_mod_cast this)
      (by rintro ⟨ha, hb⟩
          have ha' : y1 < rect.y1 := by exact_mod_cast ha
          have hb' : y2 < rect.y1 := by exact_mod_cast hb
          omega)
      (by rintro ⟨ha, hb⟩
          have ha' : rect.y2 - 1 < y1 := by exact_mod_cast ha
          have hb' : rect.y2 - 1 < y2 := by exact_mod_cast hb
          omega)
    refine ⟨t, h0, h1, ?_, ?_, hl, hh⟩
    · have : rect.x1 ≤ x1 := by omega
      have : (rect.x1 : ℝ) ≤ x1 := by exact_mod_cast this
      simpa using this
    · have : x1 ≤ rect.x2 - 1 := by omega
      have : (x1 : ℝ) ≤ rect.x2 - 1 := by exact_mod_cast this
      simpa using this

/-- The two quick tests of `_intersect_rect_line` (lines 164-174). -/
theorem intersect_rejected_of_outside_same_side (fuel : Nat) (rect : rtgui_rect_t)
    (x1 y1 x2 y2 : Int) (h : outside_same_side rect x1 y1 x2 y2) :
    _intersect_rect_line fuel rect x1 y1 x2 y2 = ClipResult.rejected := by
  unfold outside_same_side at h
  unfold _intersect_rect_line
  simp only []
  rw [if_neg (by omega), if_pos (by omega)]

theorem intersect_axis_aligned_rejected_iff (fuel : Nat) (rect : rtgui_rect_t)
    (x1 y1 x2 y2 : Int) (haxis : y1 = y2 ∨ x1 = x2) :
    _intersect_rect_line fuel rect x1 y1 x2 y2 = ClipResult.rejected ↔
      outside_same_side rect x1 y1 x2 y2 := by
  constructor
  · intro h
    by_contra hs
    unfold outside_same_side at hs
    unfold _intersect_rect_line at h
    simp only [] at h
    split_ifs at h
    omega
  · exact intersect_rejected_of_outside_same_side fuel rect x1 y1 x2 y2

/-! ### Truncating interpolation stays between the end points -/

theorem tdiv_interp_core (m n d : Int) (hm : 0 ≤ m) (hn : 0 ≤ n) (hnd : n ≤ d) (hd : 0 < d) :
    0 ≤ Int.tdiv (m * n) d ∧ Int.tdiv (m * n) d ≤ m := by
  have hmn : 0 ≤ m * n := mul_nonneg hm hn
  refine ⟨Int.tdiv_nonneg hmn hd.le, ?_⟩
  rw [Int.tdiv_eq_ediv hmn hd.le]
  apply Int.ediv_le_of_le_mul hd
  exact mul_le_mul_of_nonneg_left hnd hm

theorem tdiv_interp_pos (m n d : Int) (hn : 0 ≤ n) (hnd : n ≤ d) (hd : 0 < d) :
    (0 ≤ m → 0 ≤ Int.tdiv (m * n) d ∧ Int.tdiv (m * n) d ≤ m) ∧
    (m ≤ 0 → m ≤ Int.tdiv (m * n) d ∧ Int.tdiv (m * n) d ≤ 0) := by
  constructor
  · intro hm
    exact tdiv_interp_core m n d hm hn hnd hd
  · intro hm
    have h := tdiv_interp_core (-m) n d (by omega) hn hnd hd
    have e : (-m) * n = -(m * n) := by ring
    rw [e, Int.neg_tdiv] at h
    omega

theorem tdiv_interp (m n d : Int) (h : (0 ≤ n ∧ n ≤ d) ∨ (d ≤ n ∧ n ≤ 0)) (hd : d ≠ 0) :
    (0 ≤ m → 0 ≤ Int.tdiv (m * n) d ∧ Int.tdiv (m * n) d ≤ m) ∧
    (m ≤ 0 → m ≤ Int.tdiv (m * n) d ∧ Int.tdiv (m * n) d ≤ 0) := by
  rcases h with ⟨h1, h2⟩ | ⟨h1, h2⟩
  · exact tdiv_interp_pos m n d h1 h2 (by omega)
  · have h := tdiv_interp_pos m (-n) (-d) (by omega) (by omega) (by omega)
    have e : m * (-n) = -(m * n) := by ring
    rw [e, Int.neg_tdiv, Int.tdiv_neg, neg_neg] at h
    exact h

/-- The value `a + ((b - a) * n) / d` of lines 217-243 lies between `a` and `b` when `n / d` is
a fraction in `[0, 1]`. -/
theorem interp_between (a b n d : Int) (h : (0 ≤ n ∧ n ≤ d) ∨ (d ≤ n ∧ n ≤ 0)) (hd : d ≠ 0) :
    min a b ≤ a + Int.tdiv ((b - a) * n) d ∧ a + Int.tdiv ((b - a) * n) d ≤ max a b := by
  have := tdiv_interp (b - a) n d h hd
  rcases le_total a b with hab | hab
  · have := this.1 (by omega)
    omega
  · have := this.2 (by omega)
    omega

theorem clip_loop_done (rect : rtgui_rect_t) (fuel : Nat) (x1 y1 x2 y2 x y : Int) :
    clip_loop rect fuel x1 y1 x2 y2 0 0 x y = ClipResult.accepted x1 y1 x2 y2 := by
  cases fuel <;> simp [clip_loop]

/-! ### Outcodes -/

theorem outcode_top_iff (rect : rtgui_rect_t) (x y : Int) :
    ComputeOutCode rect x y &&& CODE_TOP ≠ 0 ↔ y < rect.y1 := by
  unfold ComputeOutCode CODE_TOP CODE_BOTTOM CODE_LEFT CODE_RIGHT
  simp only []
  split_ifs <;> simp +decide <;> omega

theorem outcode_bottom_iff (rect : rtgui_rect_t) (x y : Int) :
    ComputeOutCode rect x y &&& CODE_BOTTOM ≠ 0 ↔ ¬ y < rect.y1 ∧ y > rect.y2 := by
  unfold ComputeOutCode CODE_TOP CODE_BOTTOM CODE_LEFT CODE_RIGHT
  simp only []
  split_ifs <;> simp +decide <;> omega

theorem outcode_left_iff (rect : rtgui_rect_t) (x y : Int) :
    ComputeOutCode rect x y &&& CODE_LEFT ≠ 0 ↔ x < rect.x1 := by
  unfold ComputeOutCode CODE_TOP CODE_BOTTOM CODE_LEFT CODE_RIGHT
  simp only []
  split_ifs <;> simp +decide <;> omega

theorem outcode_right_iff (rect : rtgui_rect_t) (x y : Int) :
    ComputeOutCode rect x y &&& CODE_RIGHT ≠ 0 ↔ ¬ x < rect.x1 ∧ x > rect.x2 := by
  unfold ComputeOutCode CODE_TOP CODE_BOTTOM CODE_LEFT CODE_RIGHT
  simp only []
  split_ifs <;> simp +decide <;> omega

theorem outcode_eq_zero_iff (rect : rtgui_rect_t) (x y : Int) :
    ComputeOutCode rect x y = 0 ↔
      rect.x1 ≤ x ∧ x ≤ rect.x2 ∧ rect.y1 ≤ y ∧ y ≤ rect.y2 := by
  unfold ComputeOutCode CODE_TOP CODE_BOTTOM CODE_LEFT CODE_RIGHT
  simp only []
  split_ifs <;> simp +decide <;> omega

/-! ### One clipping step -/

theorem clip_edge_top (rect : rtgui_rect_t) (a b c d x1 y1 x2 y2 px py x y : Int)
    (h : py < rect.y1) (hd : y2 - y1 ≠ 0) :
    clip_edge a b c d x1 y1 x2 y2 (ComputeOutCode rect px py) x y =
      some (x1 + Int.tdiv ((x2 - x1) * (b - y1)) (y2 - y1), b) := by
  unfold clip_edge
  rw [if_pos ((outcode_top_iff rect px py).2 h), if_neg hd]

theorem clip_edge_bottom (rect : rtgui_rect_t) (a b c d x1 y1 x2 y2 px py x y : Int)
    (h : py > rect.y2) (h' : ¬ py < rect.y1) (hd : y2 - y1 ≠ 0) :
    clip_edge a b c d x1 y1 x2 y2 (ComputeOutCode rect px py) x y =
      some (x1 + Int.tdiv ((x2 - x1) * (d - y1)) (y2 - y1), d) := by
  unfold clip_edge
  rw [if_neg (fun hh => h' ((outcode_top_iff rect px py).1 hh)),
    if_pos ((outcode_bottom_iff rect px py).2 ⟨h', h⟩), if_neg hd]

theorem clip_edge_left (rect : rtgui_rect_t) (a b c d x1 y1 x2 y2 px py x y : Int)
    (hT : rect.y1 ≤ py) (hB : py ≤ rect.y2) (h : px < rect.x1) (hd : x2 - x1 ≠ 0) :
    clip_edge a b c d x1 y1 x2 y2 (ComputeOutCode rect px py) x y =
      some (a, y1 + Int.tdiv ((y2 - y1) * (a - x1)) (x2 - x1)) := by
  unfold clip_edge
  rw [if_neg (fun hh => by have := (outcode_top_iff rect px py).1 hh; omega),
    if_neg (fun hh => by have := (outcode_bottom_iff rect px py).1 hh; omega),
    if_pos ((outcode_left_iff rect px py).2 h), if_neg hd]

theorem clip_edge_right (rect : rtgui_rect_t) (a b c d x1 y1 x2 y2 px py x y : Int)
    (hT : rect.y1 ≤ py) (hB : py ≤ rect.y2) (h : px > rect.x2) (h' : ¬ px < rect.x1)
    (hd : x2 - x1 ≠ 0) :
    clip_edge a b c d x1 y1 x2 y2 (ComputeOutCode rect px py) x y =
      some (c, y1 + Int.tdiv ((y2 - y1) * (c - x1)) (x2 - x1)) := by
  unfold clip_edge
  rw [if_neg (fun hh => by have := (outcode_top_iff rect px py).1 hh; omega),
    if_neg (fun hh => by have := (outcode_bottom_iff rect px py).1 hh; omega),
    if_neg (fun hh => h' ((outcode_left_iff rect px py).1 hh)),
    if_pos ((outcode_right_iff rect px py).2 ⟨h', h⟩), if_neg hd]

/-- One pass of the loop when the first end point already has outcode 0. -/
theorem clip_loop_step_second (rect : rtgui_rect_t) (fuel : Nat) (x1 y1 x2 y2 x y : Int)
    (oc : Nat) (hoc : oc ≠ 0) :
    clip_loop rect (fuel + 1) x1 y1 x2 y2 0 oc x y =
      match clip_edge rect.x1 rect.y1 (rect.x2 - 1) (rect.y2 - 1) x1 y1 x2 y2 oc x y with
      | none => ClipResult.div_by_zero
      | some (x, y) => clip_loop rect fuel x1 y1 x y 0 (ComputeOutCode rect x y) x y := by
  rw [clip_loop]
  simp [hoc]

/-- One pass of the loop when the first end point has a non-zero outcode that shares no bit
with the second. -/
theorem clip_loop_step_first (rect : rtgui_rect_t) (fuel : Nat) (x1 y1 x2 y2 x y : Int)
    (oc1 oc2 : Nat) (hoc : oc1 ≠ 0) (hsh : oc1 &&& oc2 = 0) :
    clip_loop rect (fuel + 1) x1 y1 x2 y2 oc1 oc2 x y =
      match clip_edge rect.x1 rect.y1 (rect.x2 - 1) (rect.y2 - 1) x1 y1 x2 y2 oc1 x y with
      | none => ClipResult.div_by_zero
      | some (x, y) => clip_loop rect fuel x y x2 y2 (ComputeOutCode rect x y) oc2 x y := by
  rw [clip_loop]
  simp [hoc, hsh]

/-! ### The loop when one end point lies in the closed clip rectangle -/

theorem clip_anchor1_stage2 (rect : rtgui_rect_t) (hx : rect.x1 < rect.x2) (x1 y1 x2 y2 x y : Int)
    (h1 : in_clip_rect rect x1 y1) (hy2l : rect.y1 ≤ y2) (hy2h : y2 ≤ rect.y2) :
    ∃ X Y, ∀ fuel, clip_loop rect (fuel + 1) x1 y1 x2 y2 0 (ComputeOutCode rect x2 y2) x y =
      ClipResult.accepted x1 y1 X Y := by
  unfold in_clip_rect at h1
  by_cases hz : ComputeOutCode rect x2 y2 = 0
  · rw [hz]
    exact ⟨x2, y2, fun fuel => clip_loop_done _ _ _ _ _ _ _ _⟩
  · have hz' : ¬ (rect.x1 ≤ x2 ∧ x2 ≤ rect.x2 ∧ rect.y1 ≤ y2 ∧ y2 ≤ rect.y2) :=
      fun h => hz ((outcode_eq_zero_iff _ _ _).2 h)
    rcases lt_or_le x2 rect.x1 with hl | hl
    · have hb := interp_between y1 y2 (rect.x1 - x1) (x2 - x1) (by omega) (by omega)
      refine ⟨rect.x1, y1 + Int.tdiv ((y2 - y1) * (rect.x1 - x1)) (x2 - x1), fun fuel => ?_⟩
      rw [clip_loop_step_second _ _ _ _ _ _ _ _ _ hz,
        clip_edge_left rect _ _ _ _ x1 y1 x2 y2 x2 y2 x y hy2l hy2h hl (by omega)]
      simp only []
      rw [(outcode_eq_zero_iff _ _ _).2 ⟨by omega, by omega, by omega, by omega⟩]
      exact clip_loop_done _ _ _ _ _ _ _ _
    · have hb := interp_between y1 y2 (rect.x2 - 1 - x1) (x2 - x1) (by omega) (by omega)
      refine ⟨rect.x2 - 1, y1 + Int.tdiv ((y2 - y1) * (rect.x2 - 1 - x1)) (x2 - x1), fun fuel => ?_⟩
      rw [clip_loop_step_second _ _ _ _ _ _ _ _ _ hz,
        clip_edge_right rect _ _ _ _ x1 y1 x2 y2 x2 y2 x y hy2l hy2h (by omega) (by omega)
          (by omega)]
      simp only []
      rw [(outcode_eq_zero_iff _ _ _).2 ⟨by omega, by omega, by omega, by omega⟩]
      exact clip_loop_done _ _ _ _ _ _ _ _

theorem clip_anchor1 (rect : rtgui_rect_t) (hx : rect.x1 < rect.x2)
    (hy : rect.y1 < rect.y2) (x1 y1 x2 y2 x y : Int) (h1 : in_clip_rect rect x1 y1) :
    ∃ X Y, ∀ fuel, clip_loop rect (fuel + 2) x1 y1 x2 y2 0 (ComputeOutCode rect x2 y2) x y =
      ClipResult.accepted x1 y1 X Y := by
  have h1' := h1
  unfold in_clip_rect at h1'
  rcases lt_or_le y2 rect.y1 with ht | ht
  · have hz : ComputeOutCode rect x2 y2 ≠ 0 :=
      fun h => by have := (outcode_eq_zero_iff _ _ _).1 h; omega
    obtain ⟨X, Y, hXY⟩ := clip_anchor1_stage2 rect hx x1 y1
      (x1 + Int.tdiv ((x2 - x1) * (rect.y1 - y1)) (y2 - y1)) rect.y1
      (x1 + Int.tdiv ((x2 - x1) * (rect.y1 - y1)) (y2 - y1)) rect.y1 h1 (by omega) (by omega)
    refine ⟨X, Y, fun fuel => ?_⟩
    rw [clip_loop_step_second _ _ _ _ _ _ _ _ _ hz,
      clip_edge_top rect _ _ _ _ x1 y1 x2 y2 x2 y2 x y ht (by omega)]
    exact hXY fuel
  rcases lt_or_le rect.y2 y2 with hb | hb
  · have hz : ComputeOutCode rect x2 y2 ≠ 0 :=
      fun h => by have := (outcode_eq_zero_iff _ _ _).1 h; omega
    obtain ⟨X, Y, hXY⟩ := clip_anchor1_stage2 rect hx x1 y1
      (x1 + Int.tdiv ((x2 - x1) * (rect.y2 - 1 - y1)) (y2 - y1)) (rect.y2 - 1)
      (x1 + Int.tdiv ((x2 - x1) * (rect.y2 - 1 - y1)) (y2 - y1)) (rect.y2 - 1) h1
      (by omega) (by omega)
    refine ⟨X, Y, fun fuel => ?_⟩
    rw [clip_loop_step_second _ _ _ _ _ _ _ _ _ hz,
      clip_edge_bottom rect _ _ _ _ x1 y1 x2 y2 x2 y2 x y hb (by omega) (by omega)]
    exact hXY fuel
  · obtain ⟨X, Y, hXY⟩ := clip_anchor1_stage2 rect hx x1 y1 x2 y2 x y h1 ht hb
    exact ⟨X, Y, fun fuel => hXY (fuel + 1)⟩

theorem clip_anchor2_stage2 (rect : rtgui_rect_t) (hx : rect.x1 < rect.x2) (x1 y1 x2 y2 x y : Int)
    (h2 : in_clip_rect rect x2 y2) (hy1l : rect.y1 ≤ y1) (hy1h : y1 ≤ rect.y2) :
    ∃ X Y, ∀ fuel, clip_loop rect (fuel + 1) x1 y1 x2 y2 (ComputeOutCode rect x1 y1) 0 x y =
      ClipResult.accepted X Y x2 y2 := by
  unfold in_clip_rect at h2
  by_cases hz : ComputeOutCode rect x1 y1 = 0
  · rw [hz]
    exact ⟨x1, y1, fun fuel => clip_loop_done _ _ _ _ _ _ _ _⟩
  · have hz' : ¬ (rect.x1 ≤ x1 ∧ x1 ≤ rect.x2 ∧ rect.y1 ≤ y1 ∧ y1 ≤ rect.y2) :=
      fun h => hz ((outcode_eq_zero_iff _ _ _).2 h)
    rcases lt_or_le x1 rect.x1 with hl | hl
    · have hb := interp_between y1 y2 (rect.x1 - x1) (x2 - x1) (by omega) (by omega)
      refine ⟨rect.x1, y1 + Int.tdiv ((y2 - y1) * (rect.x1 - x1)) (x2 - x1), fun fuel => ?_⟩
      rw [clip_loop_step_first _ _ _ _ _ _ _ _ _ _ hz (by simp),
        clip_edge_left rect _ _ _ _ x1 y1 x2 y2 x1 y1 x y hy1l hy1h hl (by omega)]
      simp only []
      rw [(outcode_eq_zero_iff _ _ _).2 ⟨by omega, by omega, by omega, by omega⟩]
      exact clip_loop_done _ _ _ _ _ _ _ _
    · have hb := interp_between y1 y2 (rect.x2 - 1 - x1) (x2 - x1) (by omega) (by omega)
      refine ⟨rect.x2 - 1, y1 + Int.tdiv ((y2 - y1) * (rect.x2 - 1 - x1)) (x2 - x1), fun fuel => ?_⟩
      rw [clip_loop_step_first _ _ _ _ _ _ _ _ _ _ hz (by simp),
        clip_edge_right rect _ _ _ _ x1 y1 x2 y2 x1 y1 x y hy1l hy1h (by omega) (by omega)
          (by omega)]
      simp only []
      rw [(outcode_eq_zero_iff _ _ _).2 ⟨by omega, by omega, by omega, by omega⟩]
      exact clip_loop_done _ _ _ _ _ _ _ _

theorem clip_anchor2 (rect : rtgui_rect_t) (hx : rect.x1 < rect.x2)
    (hy : rect.y1 < rect.y2) (x1 y1 x2 y2 x y : Int) (h2 : in_clip_rect rect x2 y2) :
    ∃ X Y, ∀ fuel, clip_loop rect (fuel + 2) x1 y1 x2 y2 (ComputeOutCode rect x1 y1) 0 x y =
      ClipResult.accepted X Y x2 y2 := by
  have h2' := h2
  unfold in_clip_rect at h2'
  rcases lt_or_le y1 rect.y1 with ht | ht
  · have hz : ComputeOutCode rect x1 y1 ≠ 0 :=
      fun h => by have := (outcode_eq_zero_iff _ _ _).1 h; omega
    obtain ⟨X, Y, hXY⟩ := clip_anchor2_stage2 rect hx
      (x1 + Int.tdiv ((x2 - x1) * (rect.y1 - y1)) (y2 - y1)) rect.y1 x2 y2
      (x1 + Int.tdiv ((x2 - x1) * (rect.y1 - y1)) (y2 - y1)) rect.y1 h2 (by omega) (by omega)
    refine ⟨X, Y, fun fuel => ?_⟩
    rw [clip_loop_step_first _ _ _ _ _ _ _ _ _ _ hz (by simp),
      clip_edge_top rect _ _ _ _ x1 y1 x2 y2 x1 y1 x y ht (by omega)]
    exact hXY fuel
  rcases lt_or_le rect.y2 y1 with hb | hb
  · have hz : ComputeOutCode rect x1 y1 ≠ 0 :=
      fun h => by have := (outcode_eq_zero_iff _ _ _).1 h; omega
    obtain ⟨X, Y, hXY⟩ := clip_anchor2_stage2 rect hx
      (x1 + Int.tdiv ((x2 - x1) * (rect.y2 - 1 - y1)) (y2 - y1)) (rect.y2 - 1) x2 y2
      (x1 + Int.tdiv ((x2 - x1) * (rect.y2 - 1 - y1)) (y2 - y1)) (rect.y2 - 1) h2
      (by omega) (by omega)
    refine ⟨X, Y, fun fuel => ?_⟩
    rw [clip_loop_step_first _ _ _ _ _ _ _ _ _ _ hz (by simp),
      clip_edge_bottom rect _ _ _ _ x1 y1 x2 y2 x1 y1 x y hb (by omega) (by omega)]
    exact hXY fuel
  · obtain ⟨X, Y, hXY⟩ := clip_anchor2_stage2 rect hx x1 y1 x2 y2 x y h2 ht hb
    exact ⟨X, Y, fun fuel => hXY (fuel + 1)⟩

/-- A segment with an end point in the closed clip rectangle is accepted. -/
theorem intersect_accepted_of_endpoint_inside (rect : rtgui_rect_t) (hx : rect.x1 < rect.x2)
    (hy : rect.y1 < rect.y2) (x1 y1 x2 y2 : Int)
    (h : in_clip_rect rect x1 y1 ∨ in_clip_rect rect x2 y2) :
    ∃ X1 Y1 X2 Y2, ∀ fuel, 2 ≤ fuel →
      _intersect_rect_line fuel rect x1 y1 x2 y2 = ClipResult.accepted X1 Y1 X2 Y2 := by
  have h' := h
  unfold in_clip_rect at h'
  unfold _intersect_rect_line
  simp only []
  by_cases c1 : x1 ≥ rect.x1 ∧ x1 ≤ rect.x2 - 1 ∧ x2 ≥ rect.x1 ∧ x2 ≤ rect.x2 - 1 ∧
      y1 ≥ rect.y1 ∧ y1 ≤ rect.y2 - 1 ∧ y2 ≥ rect.y1 ∧ y2 ≤ rect.y2 - 1
  · simp only [if_pos c1]
    exact ⟨_, _, _, _, fun _ _ => rfl⟩
  have c2 : ¬ ((x1 < rect.x1 ∧ x2 < rect.x1) ∨ (x1 > rect.x2 - 1 ∧ x2 > rect.x2 - 1) ∨
      (y1 < rect.y1 ∧ y2 < rect.y1) ∨ (y1 > rect.y2 - 1 ∧ y2 > rect.y2 - 1)) := by omega
  simp only [if_neg c1, if_neg c2]
  by_cases c3 : y1 = y2
  · simp only [if_pos c3]
    exact ⟨_, _, _, _, fun _ _ => rfl⟩
  simp only [if_neg c3]
  by_cases c4 : x1 = x2
  · simp only [if_pos c4]
    exact ⟨_, _, _, _, fun _ _ => rfl⟩
  simp only [if_neg c4]
  · rcases h with h | h
    · obtain ⟨X, Y, hXY⟩ := clip_anchor1 rect hx hy x1 y1 x2 y2 0 0 h
      have hz : ComputeOutCode rect x1 y1 = 0 :=
        (outcode_eq_zero_iff _ _ _).2 (by unfold in_clip_rect at h; omega)
      refine ⟨x1, y1, X, Y, fun fuel hf => ?_⟩
      obtain ⟨k, rfl⟩ : ∃ k, fuel = k + 2 := ⟨fuel - 2, by omega⟩
      rw [hz]
      exact hXY k
    · obtain ⟨X, Y, hXY⟩ := clip_anchor2 rect hx hy x1 y1 x2 y2 0 0 h
      have hz : ComputeOutCode rect x2 y2 = 0 :=
        (outcode_eq_zero_iff _ _ _).2 (by unfold in_clip_rect at h; omega)
      refine ⟨X, Y, x2, y2, fun fuel hf => ?_⟩
      obtain ⟨k, rfl⟩ : ∃ k, fuel = k + 2 := ⟨fuel - 2, by omega⟩
      rw [hz]
      exact hXY k

/-! ## Line clipper -/

/-- C1 (fails on the code): `_intersect_rect_line` accepts the segment `(0,0)-(5,1)` against
the rectangle `{0,0,5,5}` unchanged, for every iteration budget, although its end point
`(5,1)` is outside the closed rectangle `[0,4] × [0,4]`: `ComputeOutCode` compares against
`rect->x2`, not `rect->x2 - 1`. -/
theorem intersect_accepts_endpoint_outside_clip_rect (fuel : Nat) :
    _intersect_rect_line fuel ⟨0, 0, 5, 5⟩ 0 0 5 1 = ClipResult.accepted 0 0 5 1 ∧
      ¬ in_clip_rect ⟨0, 0, 5, 5⟩ 5 1 := by
  refine ⟨?_, by decide⟩
  cases fuel <;> rfl

/-- C2 (counterexample): the segment `(-1,3)-(1,6)` is accepted against `{0,0,5,5}` (as the
single point `(0,4)`), but the real segment does not meet `[0,4] × [0,4]`: it crosses `x = 0`
at `y = 4.5`, which the truncating division rounds to `4`. -/
theorem intersect_accepts_segment_missing_clip_rect :
    _intersect_rect_line 8 ⟨0, 0, 5, 5⟩ (-1) 3 1 6 = ClipResult.accepted 0 4 0 4 ∧
      ¬ segment_meets_clip_rect ⟨0, 0, 5, 5⟩ (-1) 3 1 6 := by
  refine ⟨by rfl, ?_⟩
  rintro ⟨t, h0, h1, hxl, hxh, hyl, hyh⟩
  norm_num at hxl hxh hyl hyh
  linarith

/-- C2 (amended): for a non-empty rectangle, (a) a segment whose end points are strictly
outside the same side of the closed clip rectangle is rejected and its real segment misses the
rectangle; (b) for a horizontal or vertical segment, `_intersect_rect_line` returns false
exactly when the real segment misses the closed clip rectangle; (c) a segment with an end
point in the closed clip rectangle (which its real segment therefore meets) is accepted, with
the same result for every iteration budget of at least 2. -/
theorem intersect_reject_vs_real_segment (rect : rtgui_rect_t) (x1 y1 x2 y2 : Int)
    (hx : rect.x1 < rect.x2) (hy : rect.y1 < rect.y2) :
    (outside_same_side rect x1 y1 x2 y2 →
      (∀ fuel, _intersect_rect_line fuel rect x1 y1 x2 y2 = ClipResult.rejected) ∧
        ¬ segment_meets_clip_rect rect x1 y1 x2 y2) ∧
    (y1 = y2 ∨ x1 = x2 →
      ∀ fuel, (_intersect_rect_line fuel rect x1 y1 x2 y2 = ClipResult.rejected ↔
        ¬ segment_meets_clip_rect rect x1 y1 x2 y2)) ∧
    (in_clip_rect rect x1 y1 ∨ in_clip_rect rect x2 y2 →
      segment_meets_clip_rect rect x1 y1 x2 y2 ∧
        ∃ X1 Y1 X2 Y2, ∀ fuel, 2 ≤ fuel →
          _intersect_rect_line fuel rect x1 y1 x2 y2 = ClipResult.accepted X1 Y1 X2 Y2) := by
  refine ⟨fun h => ⟨fun fuel => intersect_rejected_of_outside_same_side fuel rect x1 y1 x2 y2 h,
    not_meets_of_outside_same_side rect x1 y1 x2 y2 h⟩, fun haxis fuel => ?_, fun h => ⟨?_, ?_⟩⟩
  · rw [intersect_axis_aligned_rejected_iff fuel rect x1 y1 x2 y2 haxis]
    constructor
    · exact not_meets_of_outside_same_side rect x1 y1 x2 y2
    · intro hm
      by_contra hs
      exact hm (meets_of_axis_aligned rect x1 y1 x2 y2 hx hy haxis hs)
  · rcases h with h | h
    · obtain ⟨a, b, c, d⟩ := h
      refine ⟨0, le_refl _, zero_le_one, ?_, ?_, ?_, ?_⟩
      · simpa using (by exact_mod_cast a : (rect.x1 : ℝ) ≤ x1)
      · simpa using (by exact_mod_cast b : (x1 : ℝ) ≤ rect.x2 - 1)
      · simpa using (by exact_mod_cast c : (rect.y1 : ℝ) ≤ y1)
      · simpa using (by exact_mod_cast d : (y1 : ℝ) ≤ rect.y2 - 1)
    · obtain ⟨a, b, c, d⟩ := h
      refine ⟨1, zero_le_one, le_refl _, ?_, ?_, ?_, ?_⟩
      · simpa using (by exact_mod_cast a : (rect.x1 : ℝ) ≤ x2)
      · simpa using (by exact_mod_cast b : (x2 : ℝ) ≤ rect.x2 - 1)
      · simpa using (by exact_mod_cast c : (rect.y1 : ℝ) ≤ y2)
      · simpa using (by exact_mod_cast d : (y2 : ℝ) ≤ rect.y2 - 1)
  · exact intersect_accepted_of_endpoint_inside rect hx hy x1 y1 x2 y2 h

/-- Witness for C2 (amended): the rectangle `{0,0,5,5}` and the segment `(2,2)-(9,7)`, whose
first end point lies in the closed clip rectangle. -/
theorem intersect_reject_vs_real_segment_witness :
    segment_meets_clip_rect ⟨0, 0, 5, 5⟩ 2 2 9 7 ∧
      ∃ X1 Y1 X2 Y2,
        _intersect_rect_line 2 ⟨0, 0, 5, 5⟩ 2 2 9 7 = ClipResult.accepted X1 Y1 X2 Y2 :=
  have h := (intersect_reject_vs_real_segment ⟨0, 0, 5, 5⟩ 2 2 9 7 (by decide) (by decide)).2.2
    (Or.inl (by decide))
  ⟨h.1, h.2.imp fun _ h1 => h1.imp fun _ h2 => h2.imp fun _ h3 => h3.imp fun _ h4 =>
    h4 2 (le_refl 2)⟩

/-- C3 (fails on the code): against `{0,0,5,5}` the segment `(3,-2)-(7,2)` is accepted and
returned as `(5,0)-(5,0)`; running `_intersect_rect_line` again on that returned segment
rejects it, because `x = 5` passes `ComputeOutCode` (`x > rect->x2` is false) but fails the
quick test against `rect->x2 - 1`. -/
theorem intersect_twice_rejects_accepted_segment (fuel : Nat) :
    _intersect_rect_line (fuel + 3) ⟨0, 0, 5, 5⟩ 3 (-2) 7 2 = ClipResult.accepted 5 0 5 0 ∧
      _intersect_rect_line fuel ⟨0, 0, 5, 5⟩ 5 0 5 0 = ClipResult.rejected := by
  constructor <;> cases fuel <;> rfl

/-- C4: for a non-empty rectangle, a horizontal or vertical segment that is neither fully
inside the closed clip rectangle nor with both end points strictly outside the same side is
accepted; the constant coordinate is returned unchanged, each varying coordinate is returned
clamped into `[rect.x1, rect.x2-1]` (horizontal) or `[rect.y1, rect.y2-1]` (vertical), and both
returned end points lie in the closed clip rectangle. -/
theorem intersect_axis_aligned_clamps (fuel : Nat) (rect : rtgui_rect_t) (x1 y1 x2 y2 : Int)
    (hx : rect.x1 < rect.x2) (hy : rect.y1 < rect.y2)
    (haxis : y1 = y2 ∨ x1 = x2)
    (hnot_inside : ¬ (in_clip_rect rect x1 y1 ∧ in_clip_rect rect x2 y2))
    (hnot_side : ¬ outside_same_side rect x1 y1 x2 y2) :
    ∃ X1 Y1 X2 Y2,
      _intersect_rect_line fuel rect x1 y1 x2 y2 = ClipResult.accepted X1 Y1 X2 Y2 ∧
      (y1 = y2 → Y1 = y1 ∧ Y2 = y2 ∧
        X1 = clamp_to rect.x1 (rect.x2 - 1) x1 ∧ X2 = clamp_to rect.x1 (rect.x2 - 1) x2) ∧
      (x1 = x2 → X1 = x1 ∧ X2 = x2 ∧
        Y1 = clamp_to rect.y1 (rect.y2 - 1) y1 ∧ Y2 = clamp_to rect.y1 (rect.y2 - 1) y2) ∧
      in_clip_rect rect X1 Y1 ∧ in_clip_rect rect X2 Y2 := by
  unfold in_clip_rect outside_same_side at *
  unfold _intersect_rect_line clamp_to
  simp only []
  rw [if_neg (by omega), if_neg (by omega)]
  by_cases hh : y1 = y2
  · rw [if_pos hh]
    refine ⟨_, _, _, _, rfl, ?_⟩
    split_ifs <;> omega
  · have hv : x1 = x2 := by tauto
    rw [if_neg hh, if_pos hv]
    refine ⟨_, _, _, _, rfl, ?_⟩
    split_ifs <;> omega

/-- Witness for C4: the horizontal segment `(-3,2)-(9,2)` against `{0,0,5,5}`. -/
theorem intersect_axis_aligned_clamps_witness :
    ∃ X1 Y1 X2 Y2,
      _intersect_rect_line 0 ⟨0, 0, 5, 5⟩ (-3) 2 9 2 = ClipResult.accepted X1 Y1 X2 Y2 ∧
      ((2 : Int) = 2 → Y1 = 2 ∧ Y2 = 2 ∧ X1 = clamp_to 0 (5 - 1) (-3) ∧ X2 = clamp_to 0 (5 - 1) 9) ∧
      ((-3 : Int) = 9 → X1 = -3 ∧ X2 = 9 ∧ Y1 = clamp_to 0 (5 - 1) 2 ∧ Y2 = clamp_to 0 (5 - 1) 2) ∧
      in_clip_rect ⟨0, 0, 5, 5⟩ X1 Y1 ∧ in_clip_rect ⟨0, 0, 5, 5⟩ X2 Y2 :=
  intersect_axis_aligned_clamps 0 ⟨0, 0, 5, 5⟩ (-3) 2 9 2 (by decide) (by decide)
    (Or.inl rfl) (by decide) (by decide)

/-! ## Rectangle fill through the clip region -/

/-- C5 (counterexample): on a client surface clipped to `{0,0,5,5}` with zero offset, the
empty input rectangle `{2,2,2,2}` passes the tests of lines 1569-1570 and is handed to the
per-format fill, so not every rectangle handed to the fill is non-empty. -/
theorem blend_fill_rect_hands_empty_rect :
    rtgui_dc_blend_fill_rect (client_dc ⟨0, 0, 100, 100⟩ ⟨⟨0, 0, 5, 5⟩, none⟩) ⟨2, 2, 2, 2⟩
        RTGUI_BLENDMODE_NONE ⟨255, 0, 0, 255⟩ =
      [⟨BlendFillFunc._dc_blend_fill_rect_rgb888, ⟨2, 2, 2, 2⟩, RTGUI_BLENDMODE_NONE,
        255, 0, 0, 255⟩] ∧
      ¬ rect_nonempty ⟨2, 2, 2, 2⟩ := by
  constructor
  · decide
  · unfold rect_nonempty
    decide

/-- The test of lines 1569-1570 lets a rectangle through that only touches the clip rectangle
from the left (or from above): `{-5,0,0,5}` against `{0,0,5,5}` reaches the fill as
`{0,0,0,5}`. -/
theorem blend_fill_rect_touching_left_edge :
    rtgui_dc_blend_fill_rect (client_dc ⟨0, 0, 100, 100⟩ ⟨⟨0, 0, 5, 5⟩, none⟩) ⟨-5, 0, 0, 5⟩
        RTGUI_BLENDMODE_NONE ⟨255, 0, 0, 255⟩ =
      [⟨BlendFillFunc._dc_blend_fill_rect_rgb888, ⟨0, 0, 0, 5⟩, RTGUI_BLENDMODE_NONE,
        255, 0, 0, 255⟩] := by
  decide

theorem fill_rect_skips_eq_false (c d : rtgui_rect_t) :
    fill_rect_skips c d = false ↔ ¬ (c.y1 > d.y2 ∨ c.y2 ≤ d.y1 ∨ c.x2 ≤ d.x1 ∨ c.x1 > d.x2) := by
  unfold fill_rect_skips
  simp only [Bool.or_eq_false_iff, decide_eq_false_iff_not]
  tauto

theorem rect_intersect_inside (c d : rtgui_rect_t) :
    rect_inside (rtgui_rect_intersect c d) c := by
  unfold rect_inside rtgui_rect_intersect
  simp only []
  omega

theorem rect_intersect_nonempty (c d : rtgui_rect_t) (hd : rect_nonempty d)
    (hc : rect_nonempty c) (ho : rects_overlap c d) :
    rect_nonempty (rtgui_rect_intersect c d) := by
  unfold rect_nonempty rects_overlap rtgui_rect_intersect at *
  simp only []
  omega

theorem blend_fill_rect_client_eq (dst : rtgui_dc) (rect : rtgui_rect_t)
    (blendMode : RTGUI_BLENDMODE) (color : rtgui_color_t)
    (hclient : dst.type = RTGUI_DC_CLIENT) :
    ∃ mk : rtgui_rect_t → BlendFillCall, (∀ r, (mk r).rect = r) ∧
      rtgui_dc_blend_fill_rect dst rect blendMode color =
        if dst.visible = true ∧ 8 ≤ dst.bits_per_pixel ∧
            dst.pixel_format ≠ RTGRAPHIC_PIXEL_FORMAT_OTHER then
          (clip_rects dst.clip).filterMap fun c =>
            if fill_rect_skips c (rtgui_rect_moveto rect dst.extent.x1 dst.extent.y1) then none
            else some (mk (rtgui_rect_intersect c
              (rtgui_rect_moveto rect dst.extent.x1 dst.extent.y1)))
        else [] := by
  have hbpp : _dc_get_bits_per_pixel dst = dst.bits_per_pixel := by
    unfold _dc_get_bits_per_pixel
    simp [hclient]
  unfold rtgui_dc_blend_fill_rect
  simp only [hclient, if_true, hbpp]
  cases hfunc : blend_fill_rect_func dst.pixel_format with
  | none =>
    have : dst.pixel_format = RTGRAPHIC_PIXEL_FORMAT_OTHER := by
      unfold blend_fill_rect_func at hfunc
      cases hpf : dst.pixel_format <;> simp_all
    refine ⟨fun r => ⟨BlendFillFunc._dc_blend_fill_rect_rgb565, r, blendMode, 0, 0, 0, 0⟩,
      fun _ => rfl, ?_⟩
    simp [this]
  | some func =>
    have hne : dst.pixel_format ≠ RTGRAPHIC_PIXEL_FORMAT_OTHER := by
      intro h
      rw [h] at hfunc
      simp [blend_fill_rect_func] at hfunc
    refine ⟨fun r => ⟨func, r, blendMode, fill_channel blendMode color.r color.a,
      fill_channel blendMode color.g color.a, fill_channel blendMode color.b color.a,
      color.a % 256⟩, fun _ => rfl, ?_⟩
    by_cases hv : dst.visible = true
    · by_cases hb : dst.bits_per_pixel < 8
      · simp [hv, hb]
      · have h8 : 8 ≤ dst.bits_per_pixel := by omega
        cases hdata : dst.clip.data with
        | none =>
          simp only [hv, hb, hne, clip_rects, hdata]
          by_cases hs : fill_rect_skips dst.clip.extents
              (rtgui_rect_moveto rect dst.extent.x1 dst.extent.y1) = true
          · simp [hs, h8, hne]
          · simp [hs, h8, hne]
        | some rects =>
          simp only [hv, hb, hne, clip_rects, hdata]
          simp [h8, hne]
    · simp [hv]

/-- C5 (amended): for a client surface, with `d` the input rectangle moved by the owner's
offset: every rectangle handed to the per-format fill is the intersection of `d` with one clip
rectangle `c` that the test of lines 1569-1570 lets through, lies inside `c`, and is non-empty
whenever `d` and `c` are non-empty and overlap; when every clip rectangle lies entirely below
or right of `d` (`c.y2 <= d.y1`, `c.x2 <= d.x1`) or above or left of it with a gap
(`c.y1 > d.y2`, `c.x1 > d.x2`) the fill is not invoked; and on a visible surface of at least
8 bits in a supported format the fill is invoked for every clip rectangle that overlaps `d`. -/
theorem blend_fill_rect_client_rects (dst : rtgui_dc) (rect : rtgui_rect_t)
    (blendMode : RTGUI_BLENDMODE) (color : rtgui_color_t)
    (hclient : dst.type = RTGUI_DC_CLIENT) :
    (∀ call ∈ rtgui_dc_blend_fill_rect dst rect blendMode color,
      ∃ c ∈ clip_rects dst.clip,
        ¬ (c.y1 > (rtgui_rect_moveto rect dst.extent.x1 dst.extent.y1).y2 ∨
           c.y2 ≤ (rtgui_rect_moveto rect dst.extent.x1 dst.extent.y1).y1 ∨
           c.x2 ≤ (rtgui_rect_moveto rect dst.extent.x1 dst.extent.y1).x1 ∨
           c.x1 > (rtgui_rect_moveto rect dst.extent.x1 dst.extent.y1).x2) ∧
        call.rect = rtgui_rect_intersect c (rtgui_rect_moveto rect dst.extent.x1 dst.extent.y1) ∧
        rect_inside call.rect c ∧
        (rect_nonempty (rtgui_rect_moveto rect dst.extent.x1 dst.extent.y1) → rect_nonempty c →
          rects_overlap c (rtgui_rect_moveto rect dst.extent.x1 dst.extent.y1) →
          rect_nonempty call.rect)) ∧
    ((∀ c ∈ clip_rects dst.clip,
        c.y1 > (rtgui_rect_moveto rect dst.extent.x1 dst.extent.y1).y2 ∨
        c.y2 ≤ (rtgui_rect_moveto rect dst.extent.x1 dst.extent.y1).y1 ∨
        c.x2 ≤ (rtgui_rect_moveto rect dst.extent.x1 dst.extent.y1).x1 ∨
        c.x1 > (rtgui_rect_moveto rect dst.extent.x1 dst.extent.y1).x2) →
      rtgui_dc_blend_fill_rect dst rect blendMode color = []) ∧
    (dst.visible = true → 8 ≤ dst.bits_per_pixel →
      dst.pixel_format ≠ RTGRAPHIC_PIXEL_FORMAT_OTHER →
      ∀ c ∈ clip_rects dst.clip,
        rects_overlap c (rtgui_rect_moveto rect dst.extent.x1 dst.extent.y1) →
        ∃ call ∈ rtgui_dc_blend_fill_rect dst rect blendMode color,
          call.rect =
            rtgui_rect_intersect c (rtgui_rect_moveto rect dst.extent.x1 dst.extent.y1)) := by
  obtain ⟨mk, hmk, heq⟩ := blend_fill_rect_client_eq dst rect blendMode color hclient
  rw [heq]
  generalize rtgui_rect_moveto rect dst.extent.x1 dst.extent.y1 = d
  refine ⟨?_, ?_, ?_⟩
  · intro call hcall
    split_ifs at hcall with hg
    · obtain ⟨c, hc, hcc⟩ := List.mem_filterMap.1 hcall
      split_ifs at hcc with hskip
      simp only [Option.some.injEq] at hcc
      have hr : call.rect = rtgui_rect_intersect c d := by rw [← hcc, hmk]
      refine ⟨c, hc, (fill_rect_skips_eq_false _ _).1 (by simpa using hskip), hr, ?_, ?_⟩
      · rw [hr]; exact rect_intersect_inside _ _
      · intro a b c'; rw [hr]; exact rect_intersect_nonempty _ _ a b c'
    · simp at hcall
  · intro hall
    split_ifs with hg
    · rw [List.filterMap_eq_nil_iff]
      intro c hc
      have hs : fill_rect_skips c d = true := by
        by_contra hh
        exact (fill_rect_skips_eq_false _ _).1 (by simpa using hh) (hall c hc)
      simp [hs]
    · rfl
  · intro hvis hbits hfmt c hc ho
    have hs : fill_rect_skips c d = false := by
      rw [fill_rect_skips_eq_false]
      unfold rects_overlap at ho
      omega
    rw [if_pos ⟨hvis, hbits, hfmt⟩]
    exact ⟨_, List.mem_filterMap.2 ⟨c, hc, by simp only [hs]; rfl⟩, hmk _⟩

/-- Witness for C5 (amended), with the example of the claim: `{2,2,10,10}` against the clip
`{0,0,5,5}` with zero offset reaches the fill as `{2,2,5,5}`. -/
theorem blend_fill_rect_client_rects_witness :
    rtgui_dc_blend_fill_rect (client_dc ⟨0, 0, 100, 100⟩ ⟨⟨0, 0, 5, 5⟩, none⟩) ⟨2, 2, 10, 10⟩
        RTGUI_BLENDMODE_NONE ⟨255, 0, 0, 255⟩ =
      [⟨BlendFillFunc._dc_blend_fill_rect_rgb888, ⟨2, 2, 5, 5⟩, RTGUI_BLENDMODE_NONE,
        255, 0, 0, 255⟩] ∧
    ∀ call ∈ rtgui_dc_blend_fill_rect (client_dc ⟨0, 0, 100, 100⟩ ⟨⟨0, 0, 5, 5⟩, none⟩)
        ⟨2, 2, 10, 10⟩ RTGUI_BLENDMODE_NONE ⟨255, 0, 0, 255⟩,
      ∃ c ∈ clip_rects (client_dc ⟨0, 0, 100, 100⟩ ⟨⟨0, 0, 5, 5⟩, none⟩).clip,
        rect_inside call.rect c :=
  ⟨by decide, fun call hcall =>
    let ⟨c, hc, _, _, hin, _⟩ :=
      (blend_fill_rect_client_rects (client_dc ⟨0, 0, 100, 100⟩ ⟨⟨0, 0, 5, 5⟩, none⟩)
        ⟨2, 2, 10, 10⟩ RTGUI_BLENDMODE_NONE ⟨255, 0, 0, 255⟩ rfl).1 call hcall
    ⟨c, hc, hin⟩⟩

/-! ## Point compositing -/

theorem blend_channel_alpha255 (c d : Nat) (hc : c ≤ 255) : blend_channel c d (0xff - 255) = c := by
  unfold blend_channel
  simp
  exact hc

theorem DRAW_MUL_alpha255 (c : Nat) : DRAW_MUL (c % 256) (255 % 256) % 256 = c % 256 := by
  unfold DRAW_MUL
  omega

theorem _dc_blend_point_alpha255 (codec : PixelCodec) (pixel r g b : Nat)
    (hr : r ≤ 255) (hg : g ≤ 255) (hb : b ≤ 255) :
    _dc_blend_point codec pixel RTGUI_BLENDMODE_BLEND r g b 255 =
      _dc_blend_point codec pixel RTGUI_BLENDMODE_NONE r g b 255 := by
  unfold _dc_blend_point DRAW_SETPIXEL_BLEND DRAW_SETPIXEL
  simp only []
  rw [blend_channel_alpha255 r _ hr, blend_channel_alpha255 g _ hg, blend_channel_alpha255 b _ hb,
    blend_channel_alpha255 255 _ (le_refl _)]

/-- C6: for every pixel format, destination contents and colour `(r,g,b)`,
`rtgui_dc_blend_point` with alpha 255 in mode BLEND leaves the destination exactly as mode NONE
(overwrite) leaves it for the same colour. -/
theorem blend_point_alpha255_eq_overwrite (dst : rtgui_dc) (fb : Framebuffer) (x y : Int)
    (r g b : Nat) :
    rtgui_dc_blend_point dst fb x y RTGUI_BLENDMODE_BLEND r g b 255 =
      rtgui_dc_blend_point dst fb x y RTGUI_BLENDMODE_NONE r g b 255 := by
  unfold rtgui_dc_blend_point
  simp only [true_or, if_true, reduceCtorEq, or_self, if_false, DRAW_MUL_alpha255]
  have h255 : (255 : Nat) % 256 = 255 := rfl
  split_ifs <;> try rfl
  all_goals
    cases blend_point_codec dst.pixel_format with
    | none => rfl
    | some codec =>
      simp only [h255]
      rw [_dc_blend_point_alpha255 codec _ _ _ _ (by omega) (by omega) (by omega)]

/-! ## Auxiliary facts about the rasterizer -/

theorem mem_pixel_run (x y dx dy len px py : Int) :
    (px, py) ∈ pixel_run x y dx dy len ↔
      ∃ k : Nat, (k : Int) < len ∧ px = x + dx * k ∧ py = y + dy * k := by
  unfold pixel_run
  simp only [List.mem_map, List.mem_range, Prod.mk.injEq]
  constructor
  · rintro ⟨k, hk, h1, h2⟩
    exact ⟨k, by omega, h1.symm, h2.symm⟩
  · rintro ⟨k, hk, h1, h2⟩
    exact ⟨k, by omega, h1.symm, h2.symm⟩

theorem nodup_pixel_run (x y dx dy len : Int) (h : dx ≠ 0 ∨ dy ≠ 0) :
    (pixel_run x y dx dy len).Nodup := by
  unfold pixel_run
  apply List.Nodup.map _ (List.nodup_range _)
  intro a b hab
  simp only [Prod.mk.injEq] at hab
  rcases h with h | h
  · have e : dx * (a : Int) = dx * (b : Int) := by linarith [hab.1]
    exact_mod_cast mul_left_cancel₀ h e
  · have e : dy * (a : Int) = dy * (b : Int) := by linarith [hab.2]
    exact_mod_cast mul_left_cancel₀ h e

theorem writes_at_eq_zero (l : List (Int × Int)) (x y : Int) (h : (x, y) ∉ l) :
    writes_at l x y = 0 := by
  unfold writes_at
  rw [List.length_eq_zero, List.filter_eq_nil_iff]
  intro p hp hd
  simp only [decide_eq_true_eq] at hd
  apply h
  obtain ⟨a, b⟩ := p
  simp only at hd
  rw [← hd.1, ← hd.2]
  exact hp

theorem writes_at_cons_self (l : List (Int × Int)) (x y : Int) :
    writes_at ((x, y) :: l) x y = writes_at l x y + 1 := by
  unfold writes_at
  simp

theorem writes_at_cons_ne (l : List (Int × Int)) (p : Int × Int) (x y : Int) (h : p ≠ (x, y)) :
    writes_at (p :: l) x y = writes_at l x y := by
  unfold writes_at
  obtain ⟨a, b⟩ := p
  have : ¬ (a = x ∧ b = y) := fun hh => h (by rw [hh.1, hh.2])
  simp [this]

theorem writes_at_append (l1 l2 : List (Int × Int)) (x y : Int) :
    writes_at (l1 ++ l2) x y = writes_at l1 x y + writes_at l2 x y := by
  unfold writes_at
  rw [List.filter_append, List.length_append]

theorem writes_at_eq_one (l : List (Int × Int)) (x y : Int) (hn : l.Nodup) (hm : (x, y) ∈ l) :
    writes_at l x y = 1 := by
  induction l with
  | nil => simp at hm
  | cons p l ih =>
    rw [List.nodup_cons] at hn
    rcases List.mem_cons.1 hm with h | h
    · rw [← h, writes_at_cons_self, writes_at_eq_zero l x y (by rw [h]; exact hn.1)]
    · have hne : p ≠ (x, y) := by
        rintro rfl
        exact hn.1 h
      rw [writes_at_cons_ne l p x y hne, ih hn.2 h]

theorem count_pixel_run (x y dx dy len px py : Int) (h : dx ≠ 0 ∨ dy ≠ 0)
    (hm : (px, py) ∈ pixel_run x y dx dy len) :
    writes_at (pixel_run x y dx dy len) px py = 1 :=
  writes_at_eq_one _ _ _ (nodup_pixel_run x y dx dy len h) hm

theorem HLINE_end_not_mem (x1 y1 x2 y2 : Int) : (x2, y2) ∉ HLINE x1 y1 x2 y2 false := by
  unfold HLINE
  simp only [Bool.false_eq_true, if_false, Bool.not_false, if_true]
  split_ifs <;> simp only [mem_pixel_run] <;> rintro ⟨k, hk, h1, _⟩ <;> omega

theorem HLINE_start_count (x1 y1 x2 y2 : Int) (hx : x1 ≠ x2) :
    writes_at (HLINE x1 y1 x2 y2 false) x1 y1 = 1 := by
  unfold HLINE
  simp only [Bool.false_eq_true, if_false, Bool.not_false, if_true]
  split_ifs with h
  · apply count_pixel_run _ _ _ _ _ _ _ (Or.inl one_ne_zero)
    rw [mem_pixel_run]
    exact ⟨0, by simp; omega, by simp, by simp⟩
  · apply count_pixel_run _ _ _ _ _ _ _ (Or.inl one_ne_zero)
    rw [mem_pixel_run]
    refine ⟨(x1 - x2 - 1).toNat, ?_, ?_, by simp⟩
    · simp; omega
    · simp; omega

theorem VLINE_end_not_mem (x1 y1 x2 y2 : Int) :
    (x2, y2) ∉ VLINE x1 y1 x2 y2 false := by
  unfold VLINE
  simp only [Bool.false_eq_true, if_false, Bool.not_false, if_true]
  split_ifs <;> simp only [mem_pixel_run] <;> rintro ⟨k, hk, _, h1⟩ <;> omega

theorem VLINE_start_count (x1 y1 x2 y2 : Int) (hy : y1 ≠ y2) :
    writes_at (VLINE x1 y1 x2 y2 false) x1 y1 = 1 := by
  unfold VLINE
  simp only [Bool.false_eq_true, if_false, Bool.not_false, if_true]
  split_ifs with h
  · apply count_pixel_run _ _ _ _ _ _ _ (Or.inr one_ne_zero)
    rw [mem_pixel_run]
    exact ⟨0, by simp; omega, by simp, by simp⟩
  · apply count_pixel_run _ _ _ _ _ _ _ (Or.inr one_ne_zero)
    rw [mem_pixel_run]
    refine ⟨(y1 - y2 - 1).toNat, ?_, by simp, ?_⟩
    · simp; omega
    · simp; omega

theorem DLINE_end_not_mem (x1 y1 x2 y2 : Int) : (x2, y2) ∉ DLINE x1 y1 x2 y2 false := by
  unfold DLINE
  simp only [Bool.false_eq_true, if_false, Bool.not_false, if_true]
  split_ifs <;> simp only [mem_pixel_run] <;> rintro ⟨k, hk, _, h1⟩ <;> omega

theorem DLINE_start_count (x1 y1 x2 y2 : Int) (hy : y1 ≠ y2) (hd : |x1 - x2| = |y1 - y2|) :
    writes_at (DLINE x1 y1 x2 y2 false) x1 y1 = 1 := by
  have hd' := abs_eq_abs.1 hd
  unfold DLINE
  simp only [Bool.false_eq_true, if_false, Bool.not_false, if_true]
  split_ifs with h h2 h2
  · apply count_pixel_run _ _ _ _ _ _ _ (Or.inr one_ne_zero)
    rw [mem_pixel_run]
    exact ⟨0, by simp; omega, by simp, by simp⟩
  · apply count_pixel_run _ _ _ _ _ _ _ (Or.inr one_ne_zero)
    rw [mem_pixel_run]
    exact ⟨0, by simp; omega, by simp, by simp⟩
  · apply count_pixel_run _ _ _ _ _ _ _ (Or.inr one_ne_zero)
    rw [mem_pixel_run]
    refine ⟨(y1 - y2 - 1).toNat, ?_, ?_, ?_⟩
    · simp; omega
    · simp; omega
    · simp; omega
  · apply count_pixel_run _ _ _ _ _ _ _ (Or.inr one_ne_zero)
    rw [mem_pixel_run]
    refine ⟨(y1 - y2 - 1).toNat, ?_, ?_, ?_⟩
    · simp; omega
    · simp; omega
    · simp; omega

theorem mem_BLINE_loop_x (d1 d2 s yi1 yi2 : Int) :
    ∀ (n : Nat) (x y d : Int) (p : Int × Int),
      p ∈ BLINE_loop d1 d2 s s yi1 yi2 n x y d → ∃ k : Nat, k < n ∧ p.1 = x + s * k := by
  intro n
  induction n with
  | zero => intro x y d p hp; simp [BLINE_loop] at hp
  | succ n ih =>
    intro x y d p hp
    unfold BLINE_loop at hp
    rcases List.mem_cons.1 hp with rfl | hp
    · exact ⟨0, by omega, by simp⟩
    · split_ifs at hp
      all_goals
        obtain ⟨k, hk, hk'⟩ := ih _ _ _ _ hp
        exact ⟨k + 1, by omega, by rw [hk']; push_cast; ring⟩

theorem mem_BLINE_loop_y (d1 d2 s xi1 xi2 : Int) :
    ∀ (n : Nat) (x y d : Int) (p : Int × Int),
      p ∈ BLINE_loop d1 d2 xi1 xi2 s s n x y d → ∃ k : Nat, k < n ∧ p.2 = y + s * k := by
  intro n
  induction n with
  | zero => intro x y d p hp; simp [BLINE_loop] at hp
  | succ n ih =>
    intro x y d p hp
    unfold BLINE_loop at hp
    rcases List.mem_cons.1 hp with rfl | hp
    · exact ⟨0, by omega, by simp⟩
    · split_ifs at hp
      all_goals
        obtain ⟨k, hk, hk'⟩ := ih _ _ _ _ hp
        exact ⟨k + 1, by omega, by rw [hk']; push_cast; ring⟩

theorem count_BLINE_loop_x (d1 d2 s yi1 yi2 : Int) (hs : s = 1 ∨ s = -1) (n : Nat)
    (x y d : Int) :
    writes_at (BLINE_loop d1 d2 s s yi1 yi2 (n + 1) x y d) x y = 1 := by
  unfold BLINE_loop
  rw [writes_at_cons_self]
  have : ∀ l : List (Int × Int), (∀ p ∈ l, ∃ k : Nat, k < n ∧ p.1 = (x + s) + s * k) →
      writes_at l x y = 0 := by
    intro l hl
    apply writes_at_eq_zero
    intro hm
    obtain ⟨k, _, hk⟩ := hl _ hm
    simp only at hk
    rcases hs with rfl | rfl <;> omega
  split_ifs
  · rw [this _ (fun p hp => mem_BLINE_loop_x d1 d2 s yi1 yi2 n _ _ _ p hp)]
  · rw [this _ (fun p hp => mem_BLINE_loop_x d1 d2 s yi1 yi2 n _ _ _ p hp)]

theorem count_BLINE_loop_y (d1 d2 s xi1 xi2 : Int) (hs : s = 1 ∨ s = -1) (n : Nat)
    (x y d : Int) :
    writes_at (BLINE_loop d1 d2 xi1 xi2 s s (n + 1) x y d) x y = 1 := by
  unfold BLINE_loop
  rw [writes_at_cons_self]
  have : ∀ l : List (Int × Int), (∀ p ∈ l, ∃ k : Nat, k < n ∧ p.2 = (y + s) + s * k) →
      writes_at l x y = 0 := by
    intro l hl
    apply writes_at_eq_zero
    intro hm
    obtain ⟨k, _, hk⟩ := hl _ hm
    simp only at hk
    rcases hs with rfl | rfl <;> omega
  split_ifs
  · rw [this _ (fun p hp => mem_BLINE_loop_y d1 d2 s xi1 xi2 n _ _ _ p hp)]
  · rw [this _ (fun p hp => mem_BLINE_loop_y d1 d2 s xi1 xi2 n _ _ _ p hp)]

theorem BLINE_end_not_mem (x1 y1 x2 y2 : Int) : (x2, y2) ∉ BLINE x1 y1 x2 y2 false := by
  unfold BLINE
  simp only [Bool.false_eq_true, if_false, Bool.not_false, if_true]
  rcases abs_cases (x2 - x1) with ⟨hax, hsx⟩ | ⟨hax, hsx⟩ <;>
  rcases abs_cases (y2 - y1) with ⟨hay, hsy⟩ | ⟨hay, hsy⟩ <;>
  rw [hax, hay] <;>
  split_ifs <;>
  intro hm <;>
  first
    | (obtain ⟨k, hk, hk'⟩ := mem_BLINE_loop_x _ _ _ _ _ _ _ _ _ _ hm
       simp only at hk'
       simp at hk
       omega)
    | (obtain ⟨k, hk, hk'⟩ := mem_BLINE_loop_y _ _ _ _ _ _ _ _ _ _ hm
       simp only at hk'
       simp at hk
       omega)

theorem BLINE_start_count (x1 y1 x2 y2 : Int) (hy : y1 ≠ y2) :
    writes_at (BLINE x1 y1 x2 y2 false) x1 y1 = 1 := by
  unfold BLINE
  simp only [Bool.false_eq_true, if_false, Bool.not_false, if_true]
  rcases abs_cases (x2 - x1) with ⟨hax, hsx⟩ | ⟨hax, hsx⟩ <;>
  rcases abs_cases (y2 - y1) with ⟨hay, hsy⟩ | ⟨hay, hsy⟩ <;>
  rw [hax, hay] <;>
  split_ifs with h1 h2 h3 <;>
  first
    | (obtain ⟨n, hn⟩ : ∃ n : Nat, (x2 - x1 + 1 - 1).toNat = n + 1 :=
         ⟨(x2 - x1 + 1 - 1).toNat - 1, by omega⟩
       rw [hn]
       first
         | exact count_BLINE_loop_x _ _ _ _ _ (Or.inl rfl) _ _ _ _
         | exact count_BLINE_loop_x _ _ _ _ _ (Or.inr rfl) _ _ _ _)
    | (obtain ⟨n, hn⟩ : ∃ n : Nat, (-(x2 - x1) + 1 - 1).toNat = n + 1 :=
         ⟨(-(x2 - x1) + 1 - 1).toNat - 1, by omega⟩
       rw [hn]
       first
         | exact count_BLINE_loop_x _ _ _ _ _ (Or.inl rfl) _ _ _ _
         | exact count_BLINE_loop_x _ _ _ _ _ (Or.inr rfl) _ _ _ _)
    | (obtain ⟨n, hn⟩ : ∃ n : Nat, (y2 - y1 + 1 - 1).toNat = n + 1 :=
         ⟨(y2 - y1 + 1 - 1).toNat - 1, by omega⟩
       rw [hn]
       first
         | exact count_BLINE_loop_y _ _ _ _ _ (Or.inl rfl) _ _ _ _
         | exact count_BLINE_loop_y _ _ _ _ _ (Or.inr rfl) _ _ _ _)
    | (obtain ⟨n, hn⟩ : ∃ n : Nat, (-(y2 - y1) + 1 - 1).toNat = n + 1 :=
         ⟨(-(y2 - y1) + 1 - 1).toNat - 1, by omega⟩
       rw [hn]
       first
         | exact count_BLINE_loop_y _ _ _ _ _ (Or.inl rfl) _ _ _ _
         | exact count_BLINE_loop_y _ _ _ _ _ (Or.inr rfl) _ _ _ _)

theorem read_point_eq (points : List rtgui_point_t) (i : Int) (k : Nat) (hik : i = k)
    (hk : k < points.length) : read_point points i = Run.done (points.getD k ⟨0, 0⟩) := by
  subst hik
  unfold read_point
  rw [if_neg (by omega)]
  simp [hk, List.getD_eq_getElem?_getD]

theorem draw_aa_lines_body_buffer (fuel : Nat) (dst : rtgui_dc) (func : DrawLineFunc)
    (color : rtgui_color_t) (points : List rtgui_point_t) (j : Nat)
    (hbuf : dst.type = RTGUI_DC_BUFFER) (hj : j + 1 < points.length) :
    draw_aa_lines_body fuel dst func color points ((j : Int) + 1) =
      Run.done ([polyline_call func color points j], false) := by
  unfold draw_aa_lines_body
  rw [read_point_eq points ((j : Int) + 1 - 1) j (by omega) (by omega),
    read_point_eq points ((j : Int) + 1) (j + 1) (by push_cast; ring) hj]
  simp [Run.bind, hbuf, polyline_call]

theorem draw_aa_lines_loop_buffer (fuel : Nat) (dst : rtgui_dc) (func : DrawLineFunc)
    (color : rtgui_color_t) (points : List rtgui_point_t)
    (hbuf : dst.type = RTGUI_DC_BUFFER) :
    ∀ (n j : Nat), j + n < points.length →
      draw_aa_lines_loop fuel dst func color points n ((j : Int) + 1) =
        Run.done ((List.range n).map (fun k => polyline_call func color points (j + k)), false) := by
  intro n
  induction n with
  | zero => intro j _; rfl
  | succ n ih =>
    intro j hj
    unfold draw_aa_lines_loop
    rw [draw_aa_lines_body_buffer fuel dst func color points j hbuf (by omega)]
    have e : ((j : Int) + 1 + 1) = ((j + 1 : Nat) : Int) + 1 := by push_cast; ring
    simp only [Run.bind, Bool.false_eq_true, if_false]
    rw [e, ih (j + 1) (by omega)]
    simp only [List.range_succ_eq_map, List.map_cons, List.map_map, List.singleton_append,
      Nat.add_zero]
    congr 3
    apply List.map_congr_left
    intro k _
    simp only [Function.comp]
    congr 1
    omega

/-- On a visible buffer whose depth selects the line function `func`, `rtgui_dc_draw_aa_lines`
calls `func` once for every segment of the polyline, in order and with `draw_end` false, and
then draws the last point if it differs from the first. -/
theorem draw_aa_lines_buffer (fuel : Nat) (dst : rtgui_dc) (points : List rtgui_point_t)
    (func : DrawLineFunc) (hvis : dst.visible = true) (hbuf : dst.type = RTGUI_DC_BUFFER)
    (hpix : dst.pixel_null = false)
    (hfunc : _dc_calc_draw_line_func (dst.bits_per_pixel / 8) = some func)
    (hlen : 1 ≤ points.length) :
    rtgui_dc_draw_aa_lines fuel dst points points.length =
      Run.done (((List.range (points.length - 1)).map
          (polyline_call func dst.foreground points)).map DrawEvent.line ++
        (if (points.getD 0 ⟨0, 0⟩).x ≠ (points.getD (points.length - 1) ⟨0, 0⟩).x ∨
            (points.getD 0 ⟨0, 0⟩).y ≠ (points.getD (points.length - 1) ⟨0, 0⟩).y then
          [DrawEvent.point (points.getD (points.length - 1) ⟨0, 0⟩).x
            (points.getD (points.length - 1) ⟨0, 0⟩).y]
        else [])) := by
  have hbits : _dc_get_bits_per_pixel dst = dst.bits_per_pixel := by
    unfold _dc_get_bits_per_pixel
    simp [hbuf]
  have hnull : _dc_get_pixel_is_null dst = false := by
    unfold _dc_get_pixel_is_null
    simp [hbuf, hpix]
  have h8 : ¬ dst.bits_per_pixel < 8 := by
    intro h
    have : dst.bits_per_pixel / 8 = 0 := by omega
    rw [this] at hfunc
    simp [_dc_calc_draw_line_func] at hfunc
  unfold rtgui_dc_draw_aa_lines
  simp only [hvis, hnull, hbits, hfunc, h8, Bool.not_true, Bool.false_eq_true, if_false]
  have hn : ((points.length : Int) - 1).toNat = points.length - 1 := by omega
  have hloop := draw_aa_lines_loop_buffer fuel dst func dst.foreground points hbuf
    (points.length - 1) 0 (by omega)
  simp only [Nat.cast_zero, zero_add] at hloop
  rw [hn, hloop]
  simp only [Run.bind, Bool.false_eq_true, if_false, Nat.zero_add]
  rw [read_point_eq points 0 0 rfl (by omega),
    read_point_eq points ((points.length : Int) - 1) (points.length - 1) (by omega) (by omega)]
  simp only []
  split_ifs
  · rfl
  · rw [List.append_nil]

theorem call_pixels_end_not_mem (dst : rtgui_dc) (c : DrawLineCall) (hde : c.draw_end = false) :
    (c.x2, c.y2) ∉ c.pixels dst := by
  have h1 : (c.x2, c.y2) ∉ _dc_draw_line1 c.x1 c.y1 c.x2 c.y2 false := by
    have e : _dc_draw_line1 c.x1 c.y1 c.x2 c.y2 false =
        if c.y1 = c.y2 then HLINE c.x1 c.y1 c.x2 c.y2 false
        else if c.x1 = c.x2 then VLINE c.x1 c.y1 c.x2 c.y2 false
        else if |c.x1 - c.x2| = |c.y1 - c.y2| then DLINE c.x1 c.y1 c.x2 c.y2 false
        else BLINE c.x1 c.y1 c.x2 c.y2 false := by
      unfold _dc_draw_line1 HLINE
      simp only [Bool.false_eq_true, if_false, Bool.not_false, if_true]
      split_ifs <;> rfl
    rw [e]
    split_ifs
    · exact HLINE_end_not_mem _ _ _ _
    · exact VLINE_end_not_mem _ _ _ _
    · exact DLINE_end_not_mem _ _ _ _
    · exact BLINE_end_not_mem _ _ _ _
  unfold DrawLineCall.pixels
  rw [hde]
  cases c.func with
  | _dc_draw_line1 => exact h1
  | _dc_draw_line2 =>
    simp only [_dc_draw_line2, AALINE]
    split_ifs
    · exact HLINE_end_not_mem _ _ _ _
    · exact VLINE_end_not_mem _ _ _ _
    · exact DLINE_end_not_mem _ _ _ _
    · exact BLINE_end_not_mem _ _ _ _
    · exact BLINE_end_not_mem _ _ _ _
    · simp
  | _dc_draw_line4 =>
    simp only [_dc_draw_line4, AALINE]
    split_ifs
    · exact HLINE_end_not_mem _ _ _ _
    · exact VLINE_end_not_mem _ _ _ _
    · exact DLINE_end_not_mem _ _ _ _
    · exact BLINE_end_not_mem _ _ _ _
    · exact BLINE_end_not_mem _ _ _ _
    · simp

theorem call_pixels_start_once (dst : rtgui_dc) (c : DrawLineCall) (hde : c.draw_end = false)
    (hne : c.x1 ≠ c.x2 ∨ c.y1 ≠ c.y2)
    (hok : c.func = DrawLineFunc._dc_draw_line1 ∨
      (c.func = DrawLineFunc._dc_draw_line2 ∧
        (dst.pixel_format = RTGRAPHIC_PIXEL_FORMAT_RGB565 ∨
          dst.pixel_format = RTGRAPHIC_PIXEL_FORMAT_BGR565)) ∨
      (c.func = DrawLineFunc._dc_draw_line4 ∧
        (dst.pixel_format = RTGRAPHIC_PIXEL_FORMAT_RGB888 ∨
          dst.pixel_format = RTGRAPHIC_PIXEL_FORMAT_ARGB888))) :
    writes_at (c.pixels dst) c.x1 c.y1 = 1 := by
  have key : writes_at (if c.y1 = c.y2 then HLINE c.x1 c.y1 c.x2 c.y2 false
        else if c.x1 = c.x2 then VLINE c.x1 c.y1 c.x2 c.y2 false
        else if |c.x1 - c.x2| = |c.y1 - c.y2| then DLINE c.x1 c.y1 c.x2 c.y2 false
        else BLINE c.x1 c.y1 c.x2 c.y2 false) c.x1 c.y1 = 1 := by
    split_ifs with a b d
    · exact HLINE_start_count _ _ _ _ (by omega)
    · exact VLINE_start_count _ _ _ _ a
    · exact DLINE_start_count _ _ _ _ a d
    · exact BLINE_start_count _ _ _ _ a
  have e1 : _dc_draw_line1 c.x1 c.y1 c.x2 c.y2 false =
      if c.y1 = c.y2 then HLINE c.x1 c.y1 c.x2 c.y2 false
      else if c.x1 = c.x2 then VLINE c.x1 c.y1 c.x2 c.y2 false
      else if |c.x1 - c.x2| = |c.y1 - c.y2| then DLINE c.x1 c.y1 c.x2 c.y2 false
      else BLINE c.x1 c.y1 c.x2 c.y2 false := by
    unfold _dc_draw_line1 HLINE
    simp only [Bool.false_eq_true, if_false, Bool.not_false, if_true]
    split_ifs <;> rfl
  unfold DrawLineCall.pixels
  rw [hde]
  rcases hok with h | ⟨h, hf⟩ | ⟨h, hf⟩
  · rw [h]
    simp only [e1]
    exact key
  · rw [h]
    have e2 : _dc_draw_line2 dst.pixel_format c.x1 c.y1 c.x2 c.y2 false =
        if c.y1 = c.y2 then HLINE c.x1 c.y1 c.x2 c.y2 false
        else if c.x1 = c.x2 then VLINE c.x1 c.y1 c.x2 c.y2 false
        else if |c.x1 - c.x2| = |c.y1 - c.y2| then DLINE c.x1 c.y1 c.x2 c.y2 false
        else BLINE c.x1 c.y1 c.x2 c.y2 false := by
      unfold _dc_draw_line2 AALINE
      rcases hf with hf | hf <;> rw [hf] <;> simp
    simp only [e2]
    exact key
  · rw [h]
    have e4 : _dc_draw_line4 dst.pixel_format c.x1 c.y1 c.x2 c.y2 false =
        if c.y1 = c.y2 then HLINE c.x1 c.y1 c.x2 c.y2 false
        else if c.x1 = c.x2 then VLINE c.x1 c.y1 c.x2 c.y2 false
        else if |c.x1 - c.x2| = |c.y1 - c.y2| then DLINE c.x1 c.y1 c.x2 c.y2 false
        else BLINE c.x1 c.y1 c.x2 c.y2 false := by
      unfold _dc_draw_line4 AALINE
      rcases hf with hf | hf <;> rw [hf] <;> simp
    simp only [e4]
    exact key

/-! ## Lines and polylines -/

/-- C8 (counterexample): for the polyline `[(0,0),(5,0),(5,0)]` on a visible 8-bit buffer, the
segment `(0,0)-(5,0)` writes `x = 0..4` and the zero-length segment `(5,0)-(5,0)` writes
nothing, so the vertex `(5,0)` shared by these two segments is written by neither of them. -/
theorem aa_lines_zero_length_segment_leaves_vertex :
    rtgui_dc_draw_aa_lines 0 (buffer_dc 8 RTGRAPHIC_PIXEL_FORMAT_OTHER)
        [⟨0, 0⟩, ⟨5, 0⟩, ⟨5, 0⟩] 3 =
      Run.done
        [DrawEvent.line ⟨DrawLineFunc._dc_draw_line1, 0, 0, 5, 0, ⟨255, 0, 0, 255⟩, false⟩,
         DrawEvent.line ⟨DrawLineFunc._dc_draw_line1, 5, 0, 5, 0, ⟨255, 0, 0, 255⟩, false⟩,
         DrawEvent.point 5 0] ∧
    writes_at
      ((DrawLineCall.mk DrawLineFunc._dc_draw_line1 0 0 5 0 ⟨255, 0, 0, 255⟩ false).pixels
          (buffer_dc 8 RTGRAPHIC_PIXEL_FORMAT_OTHER) ++
        (DrawLineCall.mk DrawLineFunc._dc_draw_line1 5 0 5 0 ⟨255, 0, 0, 255⟩ false).pixels
          (buffer_dc 8 RTGRAPHIC_PIXEL_FORMAT_OTHER)) 5 0 = 0 := by
  constructor <;> decide

/-- C8 (amended): on a visible buffer surface whose depth and format select a line routine,
`rtgui_dc_draw_aa_lines` (nothing translated, nothing clipped) calls the line function once per
segment, and for two consecutive segments `points[i] - points[i+1]` and
`points[i+1] - points[i+2]` whose second is not of zero length, the shared vertex
`points[i+1]` is written exactly once by the two: never by the earlier segment, which omits
its end point, and once by the later one. -/
theorem aa_lines_shared_vertex_written_once (fuel : Nat) (dst : rtgui_dc)
    (points : List rtgui_point_t) (i : Nat)
    (hvis : dst.visible = true) (hbuf : dst.type = RTGUI_DC_BUFFER)
    (hpix : dst.pixel_null = false) (hok : line_surface_ok dst)
    (hi : i + 2 < points.length)
    (hne : points.getD (i + 1) ⟨0, 0⟩ ≠ points.getD (i + 2) ⟨0, 0⟩) :
    ∃ (calls : List DrawLineCall) (rest : List DrawEvent) (c1 c2 : DrawLineCall),
      rtgui_dc_draw_aa_lines fuel dst points points.length =
        Run.done (calls.map DrawEvent.line ++ rest) ∧
      (∀ e ∈ rest, ∃ x y, e = DrawEvent.point x y) ∧
      calls.length = points.length - 1 ∧
      calls[i]? = some c1 ∧ calls[i + 1]? = some c2 ∧
      (c1.x1 = (points.getD i ⟨0, 0⟩).x ∧ c1.y1 = (points.getD i ⟨0, 0⟩).y ∧
        c1.x2 = (points.getD (i + 1) ⟨0, 0⟩).x ∧ c1.y2 = (points.getD (i + 1) ⟨0, 0⟩).y) ∧
      (c2.x1 = (points.getD (i + 1) ⟨0, 0⟩).x ∧ c2.y1 = (points.getD (i + 1) ⟨0, 0⟩).y ∧
        c2.x2 = (points.getD (i + 2) ⟨0, 0⟩).x ∧ c2.y2 = (points.getD (i + 2) ⟨0, 0⟩).y) ∧
      writes_at (c1.pixels dst) (points.getD (i + 1) ⟨0, 0⟩).x (points.getD (i + 1) ⟨0, 0⟩).y = 0 ∧
      writes_at (c2.pixels dst) (points.getD (i + 1) ⟨0, 0⟩).x (points.getD (i + 1) ⟨0, 0⟩).y = 1 ∧
      writes_at (c1.pixels dst ++ c2.pixels dst)
        (points.getD (i + 1) ⟨0, 0⟩).x (points.getD (i + 1) ⟨0, 0⟩).y = 1 := by
  obtain ⟨func, hfunc, hfok⟩ : ∃ func,
      _dc_calc_draw_line_func (dst.bits_per_pixel / 8) = some func ∧
      (func = DrawLineFunc._dc_draw_line1 ∨
        (func = DrawLineFunc._dc_draw_line2 ∧
          (dst.pixel_format = RTGRAPHIC_PIXEL_FORMAT_RGB565 ∨
            dst.pixel_format = RTGRAPHIC_PIXEL_FORMAT_BGR565)) ∨
        (func = DrawLineFunc._dc_draw_line4 ∧
          (dst.pixel_format = RTGRAPHIC_PIXEL_FORMAT_RGB888 ∨
            dst.pixel_format = RTGRAPHIC_PIXEL_FORMAT_ARGB888))) := by
    rcases hok with h | ⟨h, hf⟩ | ⟨h, hf⟩
    · exact ⟨_, by rw [h]; rfl, Or.inl rfl⟩
    · exact ⟨_, by rw [h]; rfl, Or.inr (Or.inl ⟨rfl, hf⟩)⟩
    · exact ⟨_, by rw [h]; rfl, Or.inr (Or.inr ⟨rfl, hf⟩)⟩
  have hne' : (polyline_call func dst.foreground points (i + 1)).x1 ≠
        (polyline_call func dst.foreground points (i + 1)).x2 ∨
      (polyline_call func dst.foreground points (i + 1)).y1 ≠
        (polyline_call func dst.foreground points (i + 1)).y2 := by
    simp only [polyline_call]
    by_contra hc
    push_neg at hc
    apply hne
    cases hp : points.getD (i + 1) ⟨0, 0⟩
    cases hq : points.getD (i + 1 + 1) ⟨0, 0⟩
    rw [hp, hq] at hc
    simp only at hc
    rw [hc.1, hc.2]
  have h0 := writes_at_eq_zero _ _ _
    (call_pixels_end_not_mem dst (polyline_call func dst.foreground points i) rfl)
  have h1 := call_pixels_start_once dst (polyline_call func dst.foreground points (i + 1)) rfl
    hne' hfok
  refine ⟨(List.range (points.length - 1)).map (polyline_call func dst.foreground points), _,
    polyline_call func dst.foreground points i,
    polyline_call func dst.foreground points (i + 1),
    draw_aa_lines_buffer fuel dst points func hvis hbuf hpix hfunc (by omega), ?_, ?_, ?_, ?_,
    ⟨rfl, rfl, rfl, rfl⟩, ⟨rfl, rfl, rfl, rfl⟩, h0, h1, ?_⟩
  · intro e he
    split_ifs at he
    · rw [List.mem_singleton] at he
      exact ⟨_, _, he⟩
    · simp at he
  · simp
  · rw [List.getElem?_map, List.getElem?_range (by omega)]
    rfl
  · rw [List.getElem?_map, List.getElem?_range (by omega)]
    rfl
  · rw [writes_at_append]
    have h0' : writes_at ((polyline_call func dst.foreground points i).pixels dst)
        (points.getD (i + 1) ⟨0, 0⟩).x (points.getD (i + 1) ⟨0, 0⟩).y = 0 := h0
    have h1' : writes_at ((polyline_call func dst.foreground points (i + 1)).pixels dst)
        (points.getD (i + 1) ⟨0, 0⟩).x (points.getD (i + 1) ⟨0, 0⟩).y = 1 := h1
    rw [h0', h1']

/-- Witness for C8 (amended), with the example of the claim: in the polyline
`[(0,0),(5,0),(5,5)]` on a visible 8-bit buffer, the vertex `(5,0)` is written once by the two
segments. -/
theorem aa_lines_shared_vertex_written_once_witness :
    ∃ (calls : List DrawLineCall) (rest : List DrawEvent) (c1 c2 : DrawLineCall),
      rtgui_dc_draw_aa_lines 0 (buffer_dc 8 RTGRAPHIC_PIXEL_FORMAT_OTHER)
          [⟨0, 0⟩, ⟨5, 0⟩, ⟨5, 5⟩] 3 = Run.done (calls.map DrawEvent.line ++ rest) ∧
      calls[0]? = some c1 ∧ calls[1]? = some c2 ∧
      writes_at (c1.pixels (buffer_dc 8 RTGRAPHIC_PIXEL_FORMAT_OTHER) ++
        c2.pixels (buffer_dc 8 RTGRAPHIC_PIXEL_FORMAT_OTHER)) 5 0 = 1 :=
  let ⟨calls, rest, c1, c2, h, _, _, hc1, hc2, _, _, _, _, hw⟩ :=
    aa_lines_shared_vertex_written_once 0 (buffer_dc 8 RTGRAPHIC_PIXEL_FORMAT_OTHER)
      [⟨0, 0⟩, ⟨5, 0⟩, ⟨5, 5⟩] 0 rfl rfl rfl (Or.inl rfl) (by decide) (by decide)
  ⟨calls, rest, c1, c2, h, hc1, hc2, hw⟩

/-- C9 (fails on the code): on a visible 8-bit buffer `rtgui_dc_draw_aa_line` from `(0,0)` to
`(5,0)` calls `_dc_draw_line1` with `draw_end` false, which writes the pixels `x = 0..4` of
row 0 and leaves the end point `(5,0)` unwritten. -/
theorem draw_aa_line_leaves_end_point :
    rtgui_dc_draw_aa_line 0 (buffer_dc 8 RTGRAPHIC_PIXEL_FORMAT_OTHER) 0 0 5 0 =
      Run.done [⟨DrawLineFunc._dc_draw_line1, 0, 0, 5, 0, ⟨255, 0, 0, 255⟩, false⟩] ∧
    (DrawLineCall.mk DrawLineFunc._dc_draw_line1 0 0 5 0 ⟨255, 0, 0, 255⟩ false).pixels
        (buffer_dc 8 RTGRAPHIC_PIXEL_FORMAT_OTHER) =
      [(0, 0), (1, 0), (2, 0), (3, 0), (4, 0)] := by
  constructor <;> decide

/-- On every visible 8-bit buffer, `rtgui_dc_draw_aa_line` from `(x1,y)` to `(x2,y)` with
`x1 <= x2` writes exactly the pixels `(x,y)` with `x1 <= x < x2`. -/
theorem draw_aa_line_horizontal_pixels (fuel : Nat) (dst : rtgui_dc) (x1 x2 y : Int)
    (hvis : dst.visible = true) (hbuf : dst.type = RTGUI_DC_BUFFER)
    (hpix : dst.pixel_null = false) (hbpp : dst.bits_per_pixel / 8 = 1) (hle : x1 ≤ x2) :
    ∃ c, rtgui_dc_draw_aa_line fuel dst x1 y x2 y = Run.done [c] ∧
      ∀ px py, (px, py) ∈ c.pixels dst ↔ (py = y ∧ x1 ≤ px ∧ px < x2) := by
  have hbits : _dc_get_bits_per_pixel dst = dst.bits_per_pixel := by
    unfold _dc_get_bits_per_pixel
    simp [hbuf]
  have hnull : _dc_get_pixel_is_null dst = false := by
    unfold _dc_get_pixel_is_null
    simp [hbuf, hpix]
  refine ⟨⟨DrawLineFunc._dc_draw_line1, x1, y, x2, y, dst.foreground, false⟩, ?_, ?_⟩
  · unfold rtgui_dc_draw_aa_line
    simp only [hvis, hnull, hbits, hbpp, hbuf, Bool.not_true, Bool.false_eq_true, if_false]
    rw [if_neg (by omega)]
    simp [_dc_calc_draw_line_func]
  · intro px py
    simp only [DrawLineCall.pixels, _dc_draw_line1, if_true, if_pos hle, Bool.false_eq_true,
      if_false, mem_pixel_run]
    constructor
    · rintro ⟨k, hk, h1, h2⟩
      omega
    · rintro ⟨h1, h2, h3⟩
      exact ⟨(px - x1).toNat, by omega, by omega, by omega⟩

/-- C10 (fails on the code): on a hardware surface whose owner sits at `(10,20)` the segment
`(0,5)-(5,0)`, whose translation is `(10,25)-(15,20)`, reaches the line function of
`rtgui_dc_draw_aa_line` and of `rtgui_dc_blend_line` as `(10,20)-(15,25)`: lines 459-460 (and
1268-1269) swap the two `y` values without the two `x` values. The same lines 410-411 run
before the clipper on a client surface. -/
theorem line_translation_mirrors_segment :
    rtgui_dc_draw_aa_line 0 (hw_dc ⟨10, 20, 110, 120⟩) 0 5 5 0 =
      Run.done [⟨DrawLineFunc._dc_draw_line4, 10, 20, 15, 25, ⟨255, 0, 0, 255⟩, false⟩] ∧
    rtgui_dc_blend_line 0 (hw_dc ⟨10, 20, 110, 120⟩) 0 5 5 0 RTGUI_BLENDMODE_NONE
        ⟨255, 0, 0, 255⟩ =
      Run.done [⟨BlendLineFunc._dc_blend_line_rgb888, 10, 20, 15, 25, RTGUI_BLENDMODE_NONE,
        255, 0, 0, 255, true⟩] ∧
    translate_and_order ⟨10, 20, 110, 120⟩ 0 5 5 0 = (10, 20, 15, 25) ∧
    ((10 : Int), (20 : Int)) ≠ (0 + 10, 5 + 20) ∧ ((10 : Int), (20 : Int)) ≠ (5 + 10, 0 + 20) := by
  refine ⟨by decide, by decide, by decide, by decide, by decide⟩

/-- What lines 406-411 hand on is the bounding box of the translated segment: its smaller `x`
and smaller `y` first, its larger `x` and larger `y` second. -/
theorem translate_and_order_eq (extent : rtgui_rect_t) (x1 y1 x2 y2 : Int) :
    translate_and_order extent x1 y1 x2 y2 =
      (min (x1 + extent.x1) (x2 + extent.x1), min (y1 + extent.y1) (y2 + extent.y1),
        max (x1 + extent.x1) (x2 + extent.x1), max (y1 + extent.y1) (y2 + extent.y1)) := by
  unfold translate_and_order
  simp only []
  split_ifs <;> simp only [Prod.mk.injEq] <;> omega

/-! ## Entry points on a destination of an unsupported pixel format -/

/-- C11: on a visible buffer of an unsupported pixel format, `rtgui_dc_blend_points` with a list
of one or more points does not return normally: `func` is still `NULL` when line 789 calls
through it. The other five entry points do return without a call or a write on every
destination of an unsupported format: `rtgui_dc_blend_point`, `rtgui_dc_blend_line`, `rtgui_dc_blend_lines`,
`rtgui_dc_blend_fill_rect` and `rtgui_dc_blend_fill_rects`. -/
theorem blend_points_unsupported_format_null_call :
    (∀ (bpp : Nat) (fb : Framebuffer) (p : rtgui_point_t) (ps : List rtgui_point_t) (n : Nat)
        (blendMode : RTGUI_BLENDMODE) (r g b a : Nat),
      rtgui_dc_blend_points (buffer_dc bpp RTGRAPHIC_PIXEL_FORMAT_OTHER) fb (p :: ps)
        ((n : Int) + 1) blendMode r g b a = Run.null_call) ∧
    (∀ (dst : rtgui_dc) (fb : Framebuffer) (x y : Int) (blendMode : RTGUI_BLENDMODE)
        (r g b a : Nat),
      rtgui_dc_blend_point { dst with pixel_format := RTGRAPHIC_PIXEL_FORMAT_OTHER } fb x y
        blendMode r g b a = fb) ∧
    (∀ (fuel : Nat) (dst : rtgui_dc) (x1 y1 x2 y2 : Int) (blendMode : RTGUI_BLENDMODE)
        (color : rtgui_color_t),
      rtgui_dc_blend_line fuel { dst with pixel_format := RTGRAPHIC_PIXEL_FORMAT_OTHER }
        x1 y1 x2 y2 blendMode color = Run.done []) ∧
    (∀ (dst : rtgui_dc) (points : List rtgui_point_t) (count : Int)
        (blendMode : RTGUI_BLENDMODE) (color : rtgui_color_t),
      rtgui_dc_blend_lines { dst with pixel_format := RTGRAPHIC_PIXEL_FORMAT_OTHER }
        points count blendMode color = Run.done []) ∧
    (∀ (dst : rtgui_dc) (rect : rtgui_rect_t) (blendMode : RTGUI_BLENDMODE)
        (color : rtgui_color_t),
      rtgui_dc_blend_fill_rect { dst with pixel_format := RTGRAPHIC_PIXEL_FORMAT_OTHER }
        rect blendMode color = []) ∧
    (∀ (dst : rtgui_dc) (rects : List rtgui_rect_t) (count : Int)
        (blendMode : RTGUI_BLENDMODE) (color : rtgui_color_t),
      rtgui_dc_blend_fill_rects { dst with pixel_format := RTGRAPHIC_PIXEL_FORMAT_OTHER }
        rects count blendMode color = Run.done []) := by
  refine ⟨?_, ?_, ?_, ?_, ?_, ?_⟩
  · intro bpp fb p ps n blendMode r g b a
    have hn : ((n : Int) + 1).toNat = n + 1 := by omega
    simp [rtgui_dc_blend_points, buffer_dc, _dc_get_pixel_is_null, blend_points_func, hn,
      blend_points_loop, read_point, Run.bind, blend_points_call]
  · intro dst fb x y blendMode r g b a
    simp only [rtgui_dc_blend_point, blend_point_codec]
    split_ifs <;> rfl
  · intro fuel dst x1 y1 x2 y2 blendMode color
    simp only [rtgui_dc_blend_line, _dc_calc_blend_line_func]
    split_ifs <;> rfl
  · intro dst points count blendMode color
    simp only [rtgui_dc_blend_lines, _dc_calc_blend_line_func]
    split_ifs <;> rfl
  · intro dst rect blendMode color
    simp only [rtgui_dc_blend_fill_rect, blend_fill_rect_func]
    split_ifs <;> rfl
  · intro dst rects count blendMode color
    simp only [rtgui_dc_blend_fill_rects, blend_fill_rect_func]
    split_ifs <;> rfl

/-! ## The anti-aliased ellipse -/

/-- C12: with `rx = 0` and `ry ≥ 0`, `rtgui_dc_draw_aa_ellipse` makes the single call
`rtgui_dc_draw_vline(dc, x, y - ry, y + ry)` and no other drawing call. -/
theorem aa_ellipse_rx_zero_is_vline (dc : rtgui_dc) (steps : EllipseSteps) (x y ry : Int)
    (hry : 0 ≤ ry) :
    rtgui_dc_draw_aa_ellipse dc steps x y 0 ry = [EllipseCall.draw_vline x (y - ry) (y + ry)] := by
  unfold rtgui_dc_draw_aa_ellipse
  rw [if_neg (by omega), if_pos rfl]

/-- Witness for C12: the centre `(10, 20)` and `ry = 5`. -/
theorem aa_ellipse_rx_zero_is_vline_witness :
    rtgui_dc_draw_aa_ellipse (buffer_dc 16 RTGRAPHIC_PIXEL_FORMAT_RGB565) (example_steps 3 3 128)
      10 20 0 5 = [EllipseCall.draw_vline 10 (20 - 5) (20 + 5)] :=
  aa_ellipse_rx_zero_is_vline _ _ 10 20 5 (by decide)

/-- C13: `rtgui_dc_draw_aa_ellipse` makes no drawing call when `rx < 0` or `ry < 0`, whatever the
other radius is (0 included), and `rtgui_dc_draw_aa_circle` makes none when its radius `rad` is
negative. -/
theorem aa_ellipse_negative_radius_draws_nothing (dc : rtgui_dc) (steps : EllipseSteps)
    (x y rx ry rad : Int) (h : rx < 0 ∨ ry < 0) (hrad : rad < 0) :
    rtgui_dc_draw_aa_ellipse dc steps x y rx ry = [] ∧
    rtgui_dc_draw_aa_circle dc steps x y rad = [] := by
  constructor
  · unfold rtgui_dc_draw_aa_ellipse
    rw [if_pos h]
  · unfold rtgui_dc_draw_aa_circle rtgui_dc_draw_aa_ellipse
    rw [if_pos (Or.inl hrad)]

/-- Witness for C13: the ellipse with `rx = 0`, `ry = -1` and the circle of radius `-4`. -/
theorem aa_ellipse_negative_radius_draws_nothing_witness :
    rtgui_dc_draw_aa_ellipse (buffer_dc 16 RTGRAPHIC_PIXEL_FORMAT_RGB565) (example_steps 3 3 128)
      10 20 0 (-1) = [] ∧
    rtgui_dc_draw_aa_circle (buffer_dc 16 RTGRAPHIC_PIXEL_FORMAT_RGB565) (example_steps 3 3 128)
      10 20 (-4) = [] :=
  aa_ellipse_negative_radius_draws_nothing _ _ 10 20 0 (-1) (-4) (Or.inr (by decide))
    (by decide)

/-! ### Mirror symmetry of the ellipse -/

theorem wrap16_eq (v : Int) (h1 : -32768 ≤ v) (h2 : v ≤ 32767) : wrap16 v = v := by
  unfold wrap16; omega

theorem mirror_closed_append (cx cy : Int) (l1 l2 : List EllipseCall)
    (h1 : mirror_closed cx cy l1) (h2 : mirror_closed cx cy l2) :
    mirror_closed cx cy (l1 ++ l2) := by
  intro c hc
  rcases List.mem_append.mp hc with h | h
  · exact ⟨List.mem_append_left _ (h1 c h).1, List.mem_append_left _ (h1 c h).2⟩
  · exact ⟨List.mem_append_right _ (h2 c h).1, List.mem_append_right _ (h2 c h).2⟩

theorem mirror_closed_congr (cx cy : Int) (l l2 : List EllipseCall)
    (h : ∀ c, c ∈ l ↔ c ∈ l2) (h2 : mirror_closed cx cy l2) : mirror_closed cx cy l := by
  intro c hc
  exact ⟨(h _).mpr (h2 c ((h c).mp hc)).1, (h _).mpr (h2 c ((h c).mp hc)).2⟩

theorem mirror_x_draw_pixel_weight (cx px py : Int) (r g b a w : Nat)
    (h1 : -32768 ≤ px ∧ px ≤ 32767) (h2 : -32768 ≤ 2 * cx - px ∧ 2 * cx - px ≤ 32767) :
    (_draw_pixel_weight px py r g b a w).mirror_x cx =
      _draw_pixel_weight (2 * cx - px) py r g b a w := by
  unfold _draw_pixel_weight
  simp only [EllipseCall.mirror_x, wrap16_eq px h1.1 h1.2, wrap16_eq (2 * cx - px) h2.1 h2.2]

theorem mirror_y_draw_pixel_weight (cy px py : Int) (r g b a w : Nat)
    (h1 : -32768 ≤ py ∧ py ≤ 32767) (h2 : -32768 ≤ 2 * cy - py ∧ 2 * cy - py ≤ 32767) :
    (_draw_pixel_weight px py r g b a w).mirror_y cy =
      _draw_pixel_weight px (2 * cy - py) r g b a w := by
  unfold _draw_pixel_weight
  simp only [EllipseCall.mirror_y, wrap16_eq py h1.1 h1.2, wrap16_eq (2 * cy - py) h2.1 h2.2]

theorem mirror_closed_quad (cx cy px py : Int) (r g b a w : Nat)
    (hx1 : -32768 ≤ px ∧ px ≤ 32767) (hx2 : -32768 ≤ 2 * cx - px ∧ 2 * cx - px ≤ 32767)
    (hy1 : -32768 ≤ py ∧ py ≤ 32767) (hy2 : -32768 ≤ 2 * cy - py ∧ 2 * cy - py ≤ 32767) :
    mirror_closed cx cy
      [_draw_pixel_weight px py r g b a w, _draw_pixel_weight (2 * cx - px) py r g b a w,
       _draw_pixel_weight px (2 * cy - py) r g b a w,
       _draw_pixel_weight (2 * cx - px) (2 * cy - py) r g b a w] := by
  have ex : 2 * cx - (2 * cx - px) = px := by ring
  have ey : 2 * cy - (2 * cy - py) = py := by ring
  have hx3 : -32768 ≤ 2 * cx - (2 * cx - px) ∧ 2 * cx - (2 * cx - px) ≤ 32767 := by
    rw [ex]; exact hx1
  have hy3 : -32768 ≤ 2 * cy - (2 * cy - py) ∧ 2 * cy - (2 * cy - py) ≤ 32767 := by
    rw [ey]; exact hy1
  intro c hc
  simp only [List.mem_cons, List.mem_singleton, List.not_mem_nil, or_false] at hc
  rcases hc with rfl | rfl | rfl | rfl
  · rw [mirror_x_draw_pixel_weight cx px py r g b a w hx1 hx2,
      mirror_y_draw_pixel_weight cy px py r g b a w hy1 hy2]
    simp
  · rw [mirror_x_draw_pixel_weight cx _ py r g b a w hx2 hx3,
      mirror_y_draw_pixel_weight cy _ py r g b a w hy1 hy2, ex]
    simp
  · rw [mirror_x_draw_pixel_weight cx px _ r g b a w hx1 hx2,
      mirror_y_draw_pixel_weight cy px _ r g b a w hy2 hy3, ey]
    simp
  · rw [mirror_x_draw_pixel_weight cx _ _ r g b a w hx2 hx3,
      mirror_y_draw_pixel_weight cy _ _ r g b a w hy2 hy3, ex, ey]
    simp

theorem mirror_closed_octet1 (cx cy px py qy : Int) (r g b a iw w : Nat)
    (hx1 : -32768 ≤ px ∧ px ≤ 32767) (hx2 : -32768 ≤ 2 * cx - px ∧ 2 * cx - px ≤ 32767)
    (hy1 : -32768 ≤ py ∧ py ≤ 32767) (hy2 : -32768 ≤ 2 * cy - py ∧ 2 * cy - py ≤ 32767)
    (hq1 : -32768 ≤ qy ∧ qy ≤ 32767) (hq2 : -32768 ≤ 2 * cy - qy ∧ 2 * cy - qy ≤ 32767) :
    mirror_closed cx cy
      [_draw_pixel_weight px py r g b a iw, _draw_pixel_weight (2 * cx - px) py r g b a iw,
       _draw_pixel_weight px qy r g b a w, _draw_pixel_weight (2 * cx - px) qy r g b a w,
       _draw_pixel_weight px (2 * cy - py) r g b a iw,
       _draw_pixel_weight (2 * cx - px) (2 * cy - py) r g b a iw,
       _draw_pixel_weight px (2 * cy - qy) r g b a w,
       _draw_pixel_weight (2 * cx - px) (2 * cy - qy) r g b a w] := by
  refine mirror_closed_congr cx cy _ _ ?_
    (mirror_closed_append cx cy _ _
      (mirror_closed_quad cx cy px py r g b a iw hx1 hx2 hy1 hy2)
      (mirror_closed_quad cx cy px qy r g b a w hx1 hx2 hq1 hq2))
  intro c
  simp only [List.mem_cons, List.mem_append, List.mem_singleton, List.not_mem_nil, or_false]
  tauto

theorem mirror_closed_octet2 (cx cy px py qx : Int) (r g b a iw w : Nat)
    (hx1 : -32768 ≤ px ∧ px ≤ 32767) (hx2 : -32768 ≤ 2 * cx - px ∧ 2 * cx - px ≤ 32767)
    (hy1 : -32768 ≤ py ∧ py ≤ 32767) (hy2 : -32768 ≤ 2 * cy - py ∧ 2 * cy - py ≤ 32767)
    (hq1 : -32768 ≤ qx ∧ qx ≤ 32767) (hq2 : -32768 ≤ 2 * cx - qx ∧ 2 * cx - qx ≤ 32767) :
    mirror_closed cx cy
      [_draw_pixel_weight px py r g b a iw, _draw_pixel_weight (2 * cx - px) py r g b a iw,
       _draw_pixel_weight px (2 * cy - py) r g b a iw,
       _draw_pixel_weight (2 * cx - px) (2 * cy - py) r g b a iw,
       _draw_pixel_weight qx py r g b a w, _draw_pixel_weight (2 * cx - qx) py r g b a w,
       _draw_pixel_weight qx (2 * cy - py) r g b a w,
       _draw_pixel_weight (2 * cx - qx) (2 * cy - py) r g b a w] :=
  mirror_closed_append cx cy _ _
    (mirror_closed_quad cx cy px py r g b a iw hx1 hx2 hy1 hy2)
    (mirror_closed_quad cx cy qx py r g b a w hq1 hq2 hy1 hy2)

theorem aa_ellipse_step1_within (a2 b2 ds dt : Int) (x y ry m k : Int) (st : EllipseState)
    (hfit : ellipse_fits16 x y ry m) (hry : 0 ≤ ry) (hkm : k + 2 ≤ m)
    (hst : ellipse_state_within x y ry k st) :
    ellipse_state_within x y ry (k + 1) (aa_ellipse_step1 a2 b2 ds dt st).2 ∧
    y - ry - 1 ≤ (aa_ellipse_step1 a2 b2 ds dt st).1 ∧
    (aa_ellipse_step1 a2 b2 ds dt st).1 ≤ y - ry + k + 2 := by
  obtain ⟨-, -, -, -, f5, f6, f7, f8⟩ := hfit
  obtain ⟨s1, s2, s3, s4⟩ := hst
  have wxp : wrap16 (st.xp - 1) = st.xp - 1 := wrap16_eq _ (by omega) (by omega)
  have wym : wrap16 (st.yp - 1) = st.yp - 1 := wrap16_eq _ (by omega) (by omega)
  have wyp : wrap16 (st.yp + 1) = st.yp + 1 := wrap16_eq _ (by omega) (by omega)
  have wyq : wrap16 (st.yp + 1 + 1) = st.yp + 1 + 1 := wrap16_eq _ (by omega) (by omega)
  unfold aa_ellipse_step1 ellipse_state_within
  simp only [wxp, wym, wyp, wyq]
  clear wxp wym wyp wyq f5 f6 f7 f8
  split_ifs <;> dsimp only <;> omega

theorem aa_ellipse_draw1_closed (steps : EllipseSteps) (r g b a : Nat) (x y ry m k ys : Int)
    (st : EllipseState) (hfit : ellipse_fits16 x y ry m) (hry : 0 ≤ ry) (hkm : k + 1 ≤ m)
    (hst : ellipse_state_within x y ry k st)
    (hys : y - ry - 1 ≤ ys ∧ ys ≤ y - ry + k + 1) :
    mirror_closed x y (aa_ellipse_draw1 steps (2 * x) (2 * y) r g b a ys st) := by
  obtain ⟨f1, f2, f3, f4, f5, f6, f7, f8⟩ := hfit
  obtain ⟨s1, s2, s3, s4⟩ := hst
  have hx1 : -32768 ≤ st.xp ∧ st.xp ≤ 32767 := by omega
  have hx2 : -32768 ≤ 2 * x - st.xp ∧ 2 * x - st.xp ≤ 32767 := by omega
  have hy1 : -32768 ≤ st.yp ∧ st.yp ≤ 32767 := by omega
  have hy2 : -32768 ≤ 2 * y - st.yp ∧ 2 * y - st.yp ≤ 32767 := by omega
  have hq1 : -32768 ≤ ys ∧ ys ≤ 32767 := by omega
  have hq2 : -32768 ≤ 2 * y - ys ∧ 2 * y - ys ≤ 32767 := by omega
  unfold aa_ellipse_draw1
  simp only [wrap16_eq _ hx2.1 hx2.2, wrap16_eq _ hy2.1 hy2.2, wrap16_eq _ hq2.1 hq2.2]
  exact mirror_closed_octet1 x y st.xp st.yp ys r g b a _ _ hx1 hx2 hy1 hy2 hq1 hq2

theorem aa_ellipse_body1_closed (steps : EllipseSteps) (a2 b2 ds dt : Int) (r g b a : Nat)
    (x y ry m k : Int) (st : EllipseState) (hfit : ellipse_fits16 x y ry m) (hry : 0 ≤ ry)
    (hkm : k + 2 ≤ m) (hst : ellipse_state_within x y ry k st) :
    mirror_closed x y (aa_ellipse_body1 steps a2 b2 ds dt (2 * x) (2 * y) r g b a st).1 ∧
    ellipse_state_within x y ry (k + 1)
      (aa_ellipse_body1 steps a2 b2 ds dt (2 * x) (2 * y) r g b a st).2 := by
  have h := aa_ellipse_step1_within a2 b2 ds dt x y ry m k st hfit hry hkm hst
  unfold aa_ellipse_body1
  exact ⟨aa_ellipse_draw1_closed steps r g b a x y ry m (k + 1) _ _ hfit hry (by omega) h.1
    ⟨h.2.1, by omega⟩, h.1⟩

theorem aa_ellipse_step2_within (a2 b2 ds dt : Int) (x y ry m k : Int) (st : EllipseState)
    (hfit : ellipse_fits16 x y ry m) (hry : 0 ≤ ry) (hkm : k + 2 ≤ m)
    (hst : ellipse_state_within x y ry k st) :
    ellipse_state_within x y ry (k + 1) (aa_ellipse_step2 a2 b2 ds dt st).2 ∧
    x - k - 2 ≤ (aa_ellipse_step2 a2 b2 ds dt st).1 ∧
    (aa_ellipse_step2 a2 b2 ds dt st).1 ≤ x + 1 := by
  obtain ⟨-, -, -, -, f5, f6, f7, f8⟩ := hfit
  obtain ⟨s1, s2, s3, s4⟩ := hst
  have wyp : wrap16 (st.yp + 1) = st.yp + 1 := wrap16_eq _ (by omega) (by omega)
  have wxm : wrap16 (st.xp - 1) = st.xp - 1 := wrap16_eq _ (by omega) (by omega)
  have wxp : wrap16 (st.xp + 1) = st.xp + 1 := wrap16_eq _ (by omega) (by omega)
  have wxq : wrap16 (st.xp - 1 - 1) = st.xp - 1 - 1 := wrap16_eq _ (by omega) (by omega)
  unfold aa_ellipse_step2 ellipse_state_within
  simp only [wyp, wxm, wxp, wxq]
  clear wyp wxm wxp wxq f5 f6 f7 f8
  split_ifs <;> dsimp only <;> omega

theorem aa_ellipse_draw2_closed (steps : EllipseSteps) (r g b a : Nat) (x y ry m k xs : Int)
    (st : EllipseState) (hfit : ellipse_fits16 x y ry m) (hry : 0 ≤ ry) (hkm : k + 1 ≤ m)
    (hst : ellipse_state_within x y ry k st)
    (hxs : x - k - 1 ≤ xs ∧ xs ≤ x + 1) :
    mirror_closed x y (aa_ellipse_draw2 steps (2 * x) (2 * y) r g b a xs st) := by
  obtain ⟨f1, f2, f3, f4, f5, f6, f7, f8⟩ := hfit
  obtain ⟨s1, s2, s3, s4⟩ := hst
  have hx1 : -32768 ≤ st.xp ∧ st.xp ≤ 32767 := by omega
  have hx2 : -32768 ≤ 2 * x - st.xp ∧ 2 * x - st.xp ≤ 32767 := by omega
  have hy1 : -32768 ≤ st.yp ∧ st.yp ≤ 32767 := by omega
  have hy2 : -32768 ≤ 2 * y - st.yp ∧ 2 * y - st.yp ≤ 32767 := by omega
  have hq1 : -32768 ≤ xs ∧ xs ≤ 32767 := by omega
  have hq2 : -32768 ≤ 2 * x - xs ∧ 2 * x - xs ≤ 32767 := by omega
  unfold aa_ellipse_draw2
  simp only [wrap16_eq _ hx2.1 hx2.2, wrap16_eq _ hy2.1 hy2.2, wrap16_eq _ hq2.1 hq2.2]
  exact mirror_closed_octet2 x y st.xp st.yp xs r g b a _ _ hx1 hx2 hy1 hy2 hq1 hq2

theorem aa_ellipse_body2_closed (steps : EllipseSteps) (a2 b2 ds dt : Int) (r g b a : Nat)
    (x y ry m k : Int) (st : EllipseState) (hfit : ellipse_fits16 x y ry m) (hry : 0 ≤ ry)
    (hkm : k + 2 ≤ m) (hst : ellipse_state_within x y ry k st) :
    mirror_closed x y (aa_ellipse_body2 steps a2 b2 ds dt (2 * x) (2 * y) r g b a st).1 ∧
    ellipse_state_within x y ry (k + 1)
      (aa_ellipse_body2 steps a2 b2 ds dt (2 * x) (2 * y) r g b a st).2 := by
  have h := aa_ellipse_step2_within a2 b2 ds dt x y ry m k st hfit hry hkm hst
  unfold aa_ellipse_body2
  exact ⟨aa_ellipse_draw2_closed steps r g b a x y ry m (k + 1) _ _ hfit hry (by omega) h.1
    ⟨by omega, h.2.2⟩, h.1⟩

theorem aa_ellipse_loop_closed (body : EllipseState → List EllipseCall × EllipseState)
    (x y ry m : Int)
    (hbody : ∀ (k : Int) (st : EllipseState), 0 ≤ k → k + 2 ≤ m →
      ellipse_state_within x y ry k st →
      mirror_closed x y (body st).1 ∧ ellipse_state_within x y ry (k + 1) (body st).2) :
    ∀ (n : Nat) (k : Int) (st : EllipseState), 0 ≤ k → k + n + 1 ≤ m →
      ellipse_state_within x y ry k st →
      mirror_closed x y (aa_ellipse_loop body n st).1 ∧
      ellipse_state_within x y ry (k + n) (aa_ellipse_loop body n st).2 := by
  intro n
  induction n with
  | zero =>
    intro k st _ _ hst
    simp only [aa_ellipse_loop, Nat.cast_zero, add_zero]
    exact ⟨fun c hc => absurd hc (List.not_mem_nil c), hst⟩
  | succ n ih =>
    intro k st hk hkm hst
    have h1 := hbody k st hk (by push_cast at hkm; omega) hst
    have h2 := ih (k + 1) (body st).2 (by omega) (by push_cast at hkm; omega) h1.2
    simp only [aa_ellipse_loop]
    refine ⟨mirror_closed_append x y _ _ h1.1 h2.1, ?_⟩
    have e : k + ((n + 1 : Nat) : Int) = k + 1 + n := by push_cast; ring
    rw [e]
    exact h2.2

/-- With both radii positive and all computed coordinates within 16 bits, the calls of
`rtgui_dc_draw_aa_ellipse` are closed under both reflections about the centre. -/
theorem aa_ellipse_mirror_closed (dc : rtgui_dc) (steps : EllipseSteps) (x y rx ry : Int)
    (hrx : 0 < rx) (hry : 0 < ry)
    (hfit : ellipse_fits16 x y ry (steps.dxt.toNat + steps.dyt.toNat + 2)) :
    mirror_closed x y (rtgui_dc_draw_aa_ellipse dc steps x y rx ry) := by
  have hfit2 := hfit
  obtain ⟨f1, f2, f3, f4, f5, f6, f7, f8⟩ := hfit2
  unfold rtgui_dc_draw_aa_ellipse
  rw [if_neg (by omega), if_neg (by omega), if_neg (by omega)]
  dsimp only
  have wx : wrap16 (2 * x) = 2 * x := wrap16_eq _ f1 f2
  have wy : wrap16 (2 * y) = 2 * y := wrap16_eq _ f3 f4
  have wyp : wrap16 (y - ry) = y - ry := wrap16_eq _ (by omega) (by omega)
  rw [wx, wy, wyp]
  have hst0 : ellipse_state_within x y ry 0 ⟨x, y - ry, 0, -2 * (rx * rx) * ry, 0⟩ := by
    unfold ellipse_state_within
    dsimp only
    omega
  have h1 := aa_ellipse_loop_closed
    (aa_ellipse_body1 steps (rx * rx) (ry * ry) (2 * (rx * rx)) (2 * (ry * ry)) (2 * x) (2 * y)
      (dc.foreground.r % 256) (dc.foreground.g % 256) (dc.foreground.b % 256)
      (dc.foreground.a % 256))
    x y ry (steps.dxt.toNat + steps.dyt.toNat + 2)
    (fun k st hk hkm hst => aa_ellipse_body1_closed steps _ _ _ _ _ _ _ _ x y ry _ k st hfit
      (by omega) hkm hst)
    steps.dxt.toNat 0 _ (le_refl 0) (by omega) hst0
  have h2 := aa_ellipse_loop_closed
    (aa_ellipse_body2 steps (rx * rx) (ry * ry) (2 * (rx * rx)) (2 * (ry * ry)) (2 * x) (2 * y)
      (dc.foreground.r % 256) (dc.foreground.g % 256) (dc.foreground.b % 256)
      (dc.foreground.a % 256))
    x y ry (steps.dxt.toNat + steps.dyt.toNat + 2)
    (fun k st hk hkm hst => aa_ellipse_body2_closed steps _ _ _ _ _ _ _ _ x y ry _ k st hfit
      (by omega) hkm hst)
    steps.dyt.toNat (0 + steps.dxt.toNat) _ (by omega) (by omega) h1.2
  refine mirror_closed_append x y _ _ (mirror_closed_append x y _ _ ?_ h1.1) h2.1
  intro c hc
  simp only [List.mem_cons, List.mem_singleton, List.not_mem_nil, or_false] at hc
  have e1 : 2 * x - x = x := by ring
  have e2 : 2 * y - (2 * y - (y - ry)) = y - ry := by ring
  rcases hc with rfl | rfl | rfl | rfl <;>
    simp [EllipseCall.mirror_x, EllipseCall.mirror_y, e1, e2]

/-- C14 (counterexample): for the centre `(0, -16384)`, whose doubled coordinates 0 and
-32768 fit in 16 bits, and the radii `rx = 1`, `ry = 20000`, the row `y - ry = -36384`
wraps to 29152 in the `rt_int16_t` variable `yp`. The first pass of the first loop, here
with the coverage weight 255, draws the pixel `(-1, 29154)`, and no call draws its mirror
image `(-1, 2 * (-16384) - 29154)`. -/
theorem aa_ellipse_wrapped_row_not_mirrored :
    EllipseCall.blend_point (-1) 29154 RTGUI_BLENDMODE_BLEND 255 0 0 254 ∈
      rtgui_dc_draw_aa_ellipse (buffer_dc 16 RTGRAPHIC_PIXEL_FORMAT_RGB565)
        (example_steps 1 0 255) 0 (-16384) 1 20000 ∧
    ∀ (m : RTGUI_BLENDMODE) (r g b a : Nat),
      EllipseCall.blend_point (-1) (2 * (-16384) - 29154) m r g b a ∉
        rtgui_dc_draw_aa_ellipse (buffer_dc 16 RTGRAPHIC_PIXEL_FORMAT_RGB565)
          (example_steps 1 0 255) 0 (-16384) 1 20000 := by
  have hl : rtgui_dc_draw_aa_ellipse (buffer_dc 16 RTGRAPHIC_PIXEL_FORMAT_RGB565)
      (example_steps 1 0 255) 0 (-16384) 1 20000 =
      [EllipseCall.blend_point 0 29152 RTGUI_BLENDMODE_NONE 255 0 0 255,
       EllipseCall.blend_point 0 29152 RTGUI_BLENDMODE_NONE 255 0 0 255,
       EllipseCall.blend_point 0 (-61920) RTGUI_BLENDMODE_NONE 255 0 0 255,
       EllipseCall.blend_point 0 (-61920) RTGUI_BLENDMODE_NONE 255 0 0 255,
       EllipseCall.blend_point (-1) 29153 RTGUI_BLENDMODE_BLEND 255 0 0 0,
       EllipseCall.blend_point 1 29153 RTGUI_BLENDMODE_BLEND 255 0 0 0,
       EllipseCall.blend_point (-1) 29154 RTGUI_BLENDMODE_BLEND 255 0 0 254,
       EllipseCall.blend_point 1 29154 RTGUI_BLENDMODE_BLEND 255 0 0 254,
       EllipseCall.blend_point (-1) 3615 RTGUI_BLENDMODE_BLEND 255 0 0 0,
       EllipseCall.blend_point 1 3615 RTGUI_BLENDMODE_BLEND 255 0 0 0,
       EllipseCall.blend_point (-1) 3614 RTGUI_BLENDMODE_BLEND 255 0 0 254,
       EllipseCall.blend_point 1 3614 RTGUI_BLENDMODE_BLEND 255 0 0 254] := by
    decide
  rw [hl]
  refine ⟨by decide, ?_⟩
  intro m r g b a
  simp

/-- C14 (amended): with both radii positive and the coordinates small enough that `2*x`,
`2*y`, `x ± (n+2)` and `y ± (ry+n+2)` fit in 16 bits, `n` being the number of passes of the
two loops together, every point draw of `rtgui_dc_draw_aa_ellipse` has its three mirror images
about the centre drawn with the same mode, colour and alpha, for any step counts and
coverage values. -/
theorem aa_ellipse_point_draws_mirrored (dc : rtgui_dc) (steps : EllipseSteps)
    (x y rx ry : Int) (hrx : 0 < rx) (hry : 0 < ry)
    (hfit : ellipse_fits16 x y ry (steps.dxt.toNat + steps.dyt.toNat + 2))
    (px py : Int) (m : RTGUI_BLENDMODE) (r g b a : Nat)
    (hdraw : EllipseCall.blend_point px py m r g b a ∈
      rtgui_dc_draw_aa_ellipse dc steps x y rx ry) :
    EllipseCall.blend_point (2 * x - px) py m r g b a ∈
      rtgui_dc_draw_aa_ellipse dc steps x y rx ry ∧
    EllipseCall.blend_point px (2 * y - py) m r g b a ∈
      rtgui_dc_draw_aa_ellipse dc steps x y rx ry ∧
    EllipseCall.blend_point (2 * x - px) (2 * y - py) m r g b a ∈
      rtgui_dc_draw_aa_ellipse dc steps x y rx ry := by
  have hc := aa_ellipse_mirror_closed dc steps x y rx ry hrx hry hfit
  have h1 := hc _ hdraw
  have h2 := hc _ h1.1
  exact ⟨h1.1, h1.2, h2.2⟩

/-- Witness for C14 (amended): the ellipse about `(10, 10)` with the radii 3 and 2, three
passes of the first loop and two of the second, and its point draw at `(9, 8)`. -/
theorem aa_ellipse_point_draws_mirrored_witness :
    EllipseCall.blend_point (2 * 10 - 9) 8 RTGUI_BLENDMODE_BLEND 255 0 0 126 ∈
      rtgui_dc_draw_aa_ellipse (buffer_dc 16 RTGRAPHIC_PIXEL_FORMAT_RGB565) (example_steps 3 2 128)
        10 10 3 2 ∧
    EllipseCall.blend_point 9 (2 * 10 - 8) RTGUI_BLENDMODE_BLEND 255 0 0 126 ∈
      rtgui_dc_draw_aa_ellipse (buffer_dc 16 RTGRAPHIC_PIXEL_FORMAT_RGB565) (example_steps 3 2 128)
        10 10 3 2 ∧
    EllipseCall.blend_point (2 * 10 - 9) (2 * 10 - 8) RTGUI_BLENDMODE_BLEND 255 0 0 126 ∈
      rtgui_dc_draw_aa_ellipse (buffer_dc 16 RTGRAPHIC_PIXEL_FORMAT_RGB565) (example_steps 3 2 128)
        10 10 3 2 :=
  aa_ellipse_point_draws_mirrored _ _ 10 10 3 2 (by decide) (by decide) (by decide)
    9 8 RTGUI_BLENDMODE_BLEND 255 0 0 126 (by decide)

/-- C15 (counterexample): for the alpha 2 and the weight `2^31` the product `ax * weight`
wraps to 0 in the `rt_uint32_t` variable `ax`, so `_draw_pixel_weight` passes the alpha 0,
while `(2 * 2^31) >> 8` clamped to 255 is 255. -/
theorem draw_pixel_weight_product_wraps :
    _draw_pixel_weight 0 0 10 20 30 2 2147483648 =
      EllipseCall.blend_point 0 0 RTGUI_BLENDMODE_BLEND 10 20 30 0 ∧
    min 255 ((2 * 2147483648) >>> 8) = 255 := by
  decide

/-- C15 (amended): for 16-bit coordinates, 8-bit `r, g, b, a` and a weight `w` whose product
`a * w` fits in 32 bits, `_draw_pixel_weight` calls `rtgui_dc_blend_point` in mode BLEND at the same
coordinates with the same `r, g, b` and the alpha `(a * w) >> 8` clamped to 255; for an
8-bit weight that alpha does not exceed `a`. -/
theorem draw_pixel_weight_alpha (x y : Int) (r g b a w : Nat)
    (hx : -32768 ≤ x ∧ x ≤ 32767) (hy : -32768 ≤ y ∧ y ≤ 32767)
    (hr : r < 256) (hg : g < 256) (hb : b < 256) (ha : a < 256)
    (hw : w < 4294967296) (haw : a * w < 4294967296) :
    _draw_pixel_weight x y r g b a w =
      EllipseCall.blend_point x y RTGUI_BLENDMODE_BLEND r g b (min 255 ((a * w) >>> 8)) ∧
    (w ≤ 255 → min 255 ((a * w) >>> 8) ≤ a) := by
  constructor
  · unfold _draw_pixel_weight wrap16
    simp only [Nat.mod_eq_of_lt hr, Nat.mod_eq_of_lt hg, Nat.mod_eq_of_lt hb,
      Nat.mod_eq_of_lt ha, Nat.mod_eq_of_lt hw, Nat.mod_eq_of_lt haw]
    have e1 : (x + 32768) % 65536 - 32768 = x := by omega
    have e2 : (y + 32768) % 65536 - 32768 = y := by omega
    rw [e1, e2]
    congr 1
    split_ifs with h
    · omega
    · have h2 : (a * w) >>> 8 < 256 := by omega
      have : (a * w) >>> 8 &&& 255 = (a * w) >>> 8 := by
        have := Nat.and_pow_two_sub_one_eq_mod ((a * w) >>> 8) 8
        simp at this
        rw [this]
        exact Nat.mod_eq_of_lt h2
      rw [this]
      omega
  · intro hw255
    rw [Nat.shiftRight_eq_div_pow]
    have : a * w ≤ a * 255 := Nat.mul_le_mul_left a hw255
    have : a * w / 2 ^ 8 ≤ a := by
      apply Nat.div_le_of_le_mul
      omega
    omega

/-- Witness for C15 (amended): the alpha 200 and the weight 128. -/
theorem draw_pixel_weight_alpha_witness :
    _draw_pixel_weight 3 4 10 20 30 200 128 =
      EllipseCall.blend_point 3 4 RTGUI_BLENDMODE_BLEND 10 20 30 (min 255 ((200 * 128) >>> 8)) ∧
    (128 ≤ 255 → min 255 ((200 * 128) >>> 8) ≤ 200) :=
  draw_pixel_weight_alpha 3 4 10 20 30 200 128 (by decide) (by decide) (by decide) (by decide)
    (by decide) (by decide) (by decide) (by decide)

/-! ## `rtgui_dc_blend_points` against `rtgui_dc_blend_point` -/

/-- With a non-null `func` that is the function `rtgui_dc_blend_point` calls for the format, `n`
passes of the loop of `rtgui_dc_blend_points` from the index `i` compose the points
`points[i..i+n-1]` as one `rtgui_dc_blend_point` each does. -/
theorem blend_points_loop_eq (dst : rtgui_dc) (f : BlendPointFunc)
    (points : List rtgui_point_t) (blendMode : RTGUI_BLENDMODE) (r g b a : Nat)
    (hvis : dst.visible = true) (hpix : _dc_get_pixel_is_null dst = false)
    (hcodec : blend_point_codec dst.pixel_format = some f.codec) :
    ∀ (n i : Nat) (fb : Framebuffer), i + n ≤ points.length →
      blend_points_loop dst (some f) points blendMode
        (if blendMode = RTGUI_BLENDMODE_BLEND ∨ blendMode = RTGUI_BLENDMODE_ADD
          then DRAW_MUL (r % 256) (a % 256) % 256 else r % 256)
        (if blendMode = RTGUI_BLENDMODE_BLEND ∨ blendMode = RTGUI_BLENDMODE_ADD
          then DRAW_MUL (g % 256) (a % 256) % 256 else g % 256)
        (if blendMode = RTGUI_BLENDMODE_BLEND ∨ blendMode = RTGUI_BLENDMODE_ADD
          then DRAW_MUL (b % 256) (a % 256) % 256 else b % 256)
        (a % 256) n i fb =
      Run.done (blend_point_each dst fb ((points.drop i).take n) blendMode r g b a) := by
  intro n
  induction n with
  | zero =>
    intro i fb _
    simp [blend_points_loop, blend_point_each]
  | succ n ih =>
    intro i fb hi
    have hlt : i < points.length := by omega
    unfold blend_points_loop
    rw [read_point_eq points i i rfl hlt]
    have hdrop : points.drop i = points[i] :: points.drop (i + 1) :=
      List.drop_eq_getElem_cons hlt
    have hget : points.getD i ⟨0, 0⟩ = points[i] := by
      simp [List.getD_eq_getElem?_getD, hlt]
    rw [hdrop, List.take_succ_cons]
    have hnext := ih (i + 1) 
    simp only [Run.bind, hget, blend_point_each, List.foldl_cons]
    simp only [blend_point_each] at hnext
    by_cases hc : dst.type = RTGUI_DC_CLIENT
    · simp only [hc, if_true]
      by_cases hin : rtgui_region_contains_point dst.clip (points[i].x + dst.extent.x1)
          (points[i].y + dst.extent.y1) = false
      · rw [if_pos hin]
        have hstep : rtgui_dc_blend_point dst fb points[i].x points[i].y blendMode r g b a = fb := by
          simp [rtgui_dc_blend_point, hvis, hpix, hc, hin]
        rw [hstep]
        have := hnext fb (by omega)
        simpa using this
      · rw [if_neg hin]
        simp only [blend_points_call, Run.bind]
        have hstep : rtgui_dc_blend_point dst fb points[i].x points[i].y blendMode r g b a =
            fb.write (points[i].x + dst.extent.x1) (points[i].y + dst.extent.y1)
              (_dc_blend_point f.codec (fb (points[i].x + dst.extent.x1)
                (points[i].y + dst.extent.y1)) blendMode
                (if blendMode = RTGUI_BLENDMODE_BLEND ∨ blendMode = RTGUI_BLENDMODE_ADD
                  then DRAW_MUL (r % 256) (a % 256) % 256 else r % 256)
                (if blendMode = RTGUI_BLENDMODE_BLEND ∨ blendMode = RTGUI_BLENDMODE_ADD
                  then DRAW_MUL (g % 256) (a % 256) % 256 else g % 256)
                (if blendMode = RTGUI_BLENDMODE_BLEND ∨ blendMode = RTGUI_BLENDMODE_ADD
                  then DRAW_MUL (b % 256) (a % 256) % 256 else b % 256)
                (a % 256)) := by
          simp [rtgui_dc_blend_point, hvis, hpix, hc, hin, hcodec]
        rw [hstep]
        have := hnext (fb.write (points[i].x + dst.extent.x1) (points[i].y + dst.extent.y1)
              (_dc_blend_point f.codec (fb (points[i].x + dst.extent.x1)
                (points[i].y + dst.extent.y1)) blendMode
                (if blendMode = RTGUI_BLENDMODE_BLEND ∨ blendMode = RTGUI_BLENDMODE_ADD
                  then DRAW_MUL (r % 256) (a % 256) % 256 else r % 256)
                (if blendMode = RTGUI_BLENDMODE_BLEND ∨ blendMode = RTGUI_BLENDMODE_ADD
                  then DRAW_MUL (g % 256) (a % 256) % 256 else g % 256)
                (if blendMode = RTGUI_BLENDMODE_BLEND ∨ blendMode = RTGUI_BLENDMODE_ADD
                  then DRAW_MUL (b % 256) (a % 256) % 256 else b % 256)
                (a % 256))) (by omega)
        simpa using this
    · simp only [hc, if_false]
      simp only [blend_points_call, Run.bind]
      have hstep : rtgui_dc_blend_point dst fb points[i].x points[i].y blendMode r g b a =
          fb.write points[i].x points[i].y
            (_dc_blend_point f.codec (fb points[i].x points[i].y) blendMode
              (if blendMode = RTGUI_BLENDMODE_BLEND ∨ blendMode = RTGUI_BLENDMODE_ADD
                then DRAW_MUL (r % 256) (a % 256) % 256 else r % 256)
              (if blendMode = RTGUI_BLENDMODE_BLEND ∨ blendMode = RTGUI_BLENDMODE_ADD
                then DRAW_MUL (g % 256) (a % 256) % 256 else g % 256)
              (if blendMode = RTGUI_BLENDMODE_BLEND ∨ blendMode = RTGUI_BLENDMODE_ADD
                then DRAW_MUL (b % 256) (a % 256) % 256 else b % 256)
              (a % 256)) := by
        simp [rtgui_dc_blend_point, hvis, hpix, hc, hcodec]
      rw [hstep]
      have := hnext (fb.write points[i].x points[i].y
            (_dc_blend_point f.codec (fb points[i].x points[i].y) blendMode
              (if blendMode = RTGUI_BLENDMODE_BLEND ∨ blendMode = RTGUI_BLENDMODE_ADD
                then DRAW_MUL (r % 256) (a % 256) % 256 else r % 256)
              (if blendMode = RTGUI_BLENDMODE_BLEND ∨ blendMode = RTGUI_BLENDMODE_ADD
                then DRAW_MUL (g % 256) (a % 256) % 256 else g % 256)
              (if blendMode = RTGUI_BLENDMODE_BLEND ∨ blendMode = RTGUI_BLENDMODE_ADD
                then DRAW_MUL (b % 256) (a % 256) % 256 else b % 256)
              (a % 256))) (by omega)
      simpa using this

/-- On a destination whose format has a case in the `switch` of `rtgui_dc_blend_points`, the
points `points[0..count-1]` are composed as by one `rtgui_dc_blend_point` each. -/
theorem blend_points_eq_each (dst : rtgui_dc) (f : BlendPointFunc) (fb : Framebuffer)
    (points : List rtgui_point_t) (count : Int) (blendMode : RTGUI_BLENDMODE) (r g b a : Nat)
    (hfunc : blend_points_func dst.pixel_format = some f)
    (hcodec : blend_point_codec dst.pixel_format = some f.codec)
    (hcount : count ≤ points.length) :
    rtgui_dc_blend_points dst fb points count blendMode r g b a =
      Run.done (blend_point_each dst fb (points.take count.toNat) blendMode r g b a) := by
  unfold rtgui_dc_blend_points
  by_cases hvis : dst.visible = true
  swap
  · have hv : dst.visible = false := by simpa using hvis
    have hid : ∀ l : List rtgui_point_t, blend_point_each dst fb l blendMode r g b a = fb := by
      intro l
      induction l with
      | nil => rfl
      | cons p ps ih =>
        simp only [blend_point_each, List.foldl_cons] at ih ⊢
        have : rtgui_dc_blend_point dst fb p.x p.y blendMode r g b a = fb := by
          simp [rtgui_dc_blend_point, hv]
        rw [this]; exact ih
    simp [hv, hid]
  by_cases hpix : _dc_get_pixel_is_null dst = true
  · have hid : ∀ l : List rtgui_point_t, blend_point_each dst fb l blendMode r g b a = fb := by
      intro l
      induction l with
      | nil => rfl
      | cons p ps ih =>
        simp only [blend_point_each, List.foldl_cons] at ih ⊢
        have : rtgui_dc_blend_point dst fb p.x p.y blendMode r g b a = fb := by
          simp [rtgui_dc_blend_point, hvis, hpix]
        rw [this]; exact ih
    simp [hvis, hpix, hid]
  have hp : _dc_get_pixel_is_null dst = false := by simpa using hpix
  simp only [hvis, hp, Bool.not_true, Bool.false_eq_true, if_false, hfunc]
  have := blend_points_loop_eq dst f points blendMode r g b a hvis hp hcodec count.toNat 0 fb
    (by omega)
  simpa using this

/-- C16: on an ARGB888 destination the `switch` of `rtgui_dc_blend_points` leaves `func` at
`_dc_blend_point_argb8888` (the missing `break` runs into `default: break;`), and the call
composes every point of `points[0..count-1]` as `rtgui_dc_blend_point` does, which on this format
is by `_dc_blend_point_argb8888`: no point is dropped and no call goes through `NULL`. -/
theorem blend_points_argb888_composes (dst : rtgui_dc) (fb : Framebuffer)
    (points : List rtgui_point_t) (count : Int) (blendMode : RTGUI_BLENDMODE) (r g b a : Nat)
    (hfmt : dst.pixel_format = RTGRAPHIC_PIXEL_FORMAT_ARGB888)
    (hcount : count ≤ points.length) :
    blend_points_func dst.pixel_format = some BlendPointFunc._dc_blend_point_argb8888 ∧
    blend_point_codec dst.pixel_format =
      some BlendPointFunc._dc_blend_point_argb8888.codec ∧
    rtgui_dc_blend_points dst fb points count blendMode r g b a =
      Run.done (blend_point_each dst fb (points.take count.toNat) blendMode r g b a) := by
  have h1 : blend_points_func dst.pixel_format =
      some BlendPointFunc._dc_blend_point_argb8888 := by rw [hfmt]; rfl
  have h2 : blend_point_codec dst.pixel_format =
      some BlendPointFunc._dc_blend_point_argb8888.codec := by rw [hfmt]; rfl
  exact ⟨h1, h2, blend_points_eq_each dst _ fb points count blendMode r g b a h1 h2 hcount⟩

/-- Witness for C16: two points on a visible 32-bit ARGB888 buffer. -/
theorem blend_points_argb888_composes_witness :
    blend_points_func (buffer_dc 32 RTGRAPHIC_PIXEL_FORMAT_ARGB888).pixel_format =
      some BlendPointFunc._dc_blend_point_argb8888 ∧
    blend_point_codec (buffer_dc 32 RTGRAPHIC_PIXEL_FORMAT_ARGB888).pixel_format =
      some BlendPointFunc._dc_blend_point_argb8888.codec ∧
    rtgui_dc_blend_points (buffer_dc 32 RTGRAPHIC_PIXEL_FORMAT_ARGB888) blank
        [⟨1, 2⟩, ⟨3, 4⟩] 2 RTGUI_BLENDMODE_NONE 255 0 0 255 =
      Run.done (blend_point_each (buffer_dc 32 RTGRAPHIC_PIXEL_FORMAT_ARGB888) blank
        (List.take (2 : Int).toNat [⟨1, 2⟩, ⟨3, 4⟩]) RTGUI_BLENDMODE_NONE 255 0 0 255) :=
  blend_points_argb888_composes (buffer_dc 32 RTGRAPHIC_PIXEL_FORMAT_ARGB888) blank
    [⟨1, 2⟩, ⟨3, 4⟩] 2 RTGUI_BLENDMODE_NONE 255 0 0 255 rfl (by decide)

/-! ## Outcodes against the clip rectangle -/

/-- C17: for the rectangle `(0,0,5,5)` the point `(5, 0)` has `x > rect.x2 - 1` and the point
`(0, 5)` has `y > rect.y2 - 1`, yet `ComputeOutCode` sets neither the RIGHT nor the BOTTOM
bit: both outcodes are 0 although neither point lies in the closed clip rectangle
`[0,4] × [0,4]`. The bits the code sets are: TOP iff `y < rect.y1`, BOTTOM iff
`rect.y1 ≤ y` and `y > rect.y2`, LEFT iff `x < rect.x1`, RIGHT iff `rect.x1 ≤ x` and
`x > rect.x2`. -/
theorem outcode_zero_outside_clip_rect :
    ComputeOutCode ⟨0, 0, 5, 5⟩ 5 0 = 0 ∧ ¬ in_clip_rect ⟨0, 0, 5, 5⟩ 5 0 ∧
    ComputeOutCode ⟨0, 0, 5, 5⟩ 0 5 = 0 ∧ ¬ in_clip_rect ⟨0, 0, 5, 5⟩ 0 5 ∧
    (∀ (rect : rtgui_rect_t) (x y : Int),
      (ComputeOutCode rect x y &&& CODE_TOP ≠ 0 ↔ y < rect.y1) ∧
      (ComputeOutCode rect x y &&& CODE_BOTTOM ≠ 0 ↔ ¬ y < rect.y1 ∧ y > rect.y2) ∧
      (ComputeOutCode rect x y &&& CODE_LEFT ≠ 0 ↔ x < rect.x1) ∧
      (ComputeOutCode rect x y &&& CODE_RIGHT ≠ 0 ↔ ¬ x < rect.x1 ∧ x > rect.x2)) := by
  refine ⟨by decide, by decide, by decide, by decide, fun rect x y => ?_⟩
  exact ⟨outcode_top_iff rect x y, outcode_bottom_iff rect x y, outcode_left_iff rect x y,
    outcode_right_iff rect x y⟩

/-- C18: on a BGR565 buffer `rtgui_dc_blend_points` with one or more points calls through
`func = NULL`, its `switch` having no case for BGR565, where `rtgui_dc_blend_point` on the point
`(0, 0)` stores red in the BGR565 layout. On the formats RGB565, RGB888 and ARGB888 the
whole list is composed as by one `rtgui_dc_blend_point` for each point in order. -/
theorem blend_points_bgr565_null_call :
    (∀ (bpp : Nat) (fb : Framebuffer) (p : rtgui_point_t) (ps : List rtgui_point_t) (n : Nat)
        (blendMode : RTGUI_BLENDMODE) (r g b a : Nat),
      rtgui_dc_blend_points (buffer_dc bpp RTGRAPHIC_PIXEL_FORMAT_BGR565) fb (p :: ps)
        ((n : Int) + 1) blendMode r g b a = Run.null_call) ∧
    blend_point_each (buffer_dc 16 RTGRAPHIC_PIXEL_FORMAT_BGR565) blank [⟨0, 0⟩]
      RTGUI_BLENDMODE_NONE 255 0 0 255 0 0 = 0x001F ∧
    (∀ (dst : rtgui_dc) (fb : Framebuffer) (points : List rtgui_point_t)
        (blendMode : RTGUI_BLENDMODE) (r g b a : Nat),
      rtgui_dc_blend_points { dst with pixel_format := RTGRAPHIC_PIXEL_FORMAT_RGB565 } fb points
          points.length blendMode r g b a =
        Run.done (blend_point_each { dst with pixel_format := RTGRAPHIC_PIXEL_FORMAT_RGB565 }
          fb points blendMode r g b a) ∧
      rtgui_dc_blend_points { dst with pixel_format := RTGRAPHIC_PIXEL_FORMAT_RGB888 } fb points
          points.length blendMode r g b a =
        Run.done (blend_point_each { dst with pixel_format := RTGRAPHIC_PIXEL_FORMAT_RGB888 }
          fb points blendMode r g b a) ∧
      rtgui_dc_blend_points { dst with pixel_format := RTGRAPHIC_PIXEL_FORMAT_ARGB888 } fb points
          points.length blendMode r g b a =
        Run.done (blend_point_each { dst with pixel_format := RTGRAPHIC_PIXEL_FORMAT_ARGB888 }
          fb points blendMode r g b a)) := by
  refine ⟨?_, by decide, ?_⟩
  · intro bpp fb p ps n blendMode r g b a
    have hn : ((n : Int) + 1).toNat = n + 1 := by omega
    simp [rtgui_dc_blend_points, buffer_dc, _dc_get_pixel_is_null, blend_points_func, hn,
      blend_points_loop, read_point, Run.bind, blend_points_call]
  · intro dst fb points blendMode r g b a
    have e : List.take (points.length : Int).toNat points = points := by simp
    refine ⟨?_, ?_, ?_⟩
    · have := blend_points_eq_each { dst with pixel_format := RTGRAPHIC_PIXEL_FORMAT_RGB565 }
        BlendPointFunc._dc_blend_point_rgb565 fb points points.length blendMode r g b a rfl rfl
        (le_refl _)
      rw [e] at this; exact this
    · have := blend_points_eq_each { dst with pixel_format := RTGRAPHIC_PIXEL_FORMAT_RGB888 }
        BlendPointFunc._dc_blend_point_rgb888 fb points points.length blendMode r g b a rfl rfl
        (le_refl _)
      rw [e] at this; exact this
    · have := blend_points_eq_each { dst with pixel_format := RTGRAPHIC_PIXEL_FORMAT_ARGB888 }
        BlendPointFunc._dc_blend_point_argb8888 fb points points.length blendMode r g b a
        rfl rfl (le_refl _)
      rw [e] at this; exact this

/-! ## Rectangle fill on a BGR565 destination -/

/-- C19: on a BGR565 buffer `rtgui_dc_blend_fill_rect` calls `_dc_blend_fill_rect_bgr565`, whose body
names the RGB565 macros: filling the pixel `(0, 0)` with red in mode NONE stores `0xF800`,
red in the RGB565 layout, where `rtgui_dc_blend_point` on the same buffer stores `0x001F`, red in
the BGR565 layout. In every blend mode the fill by `_dc_blend_fill_rect_bgr565` is the fill
by `_dc_blend_fill_rect_rgb565`. -/
theorem fill_rect_bgr565_uses_rgb565_layout :
    rtgui_dc_blend_fill_rect (buffer_dc 16 RTGRAPHIC_PIXEL_FORMAT_BGR565) ⟨0, 0, 1, 1⟩
        RTGUI_BLENDMODE_NONE ⟨255, 0, 0, 255⟩ =
      [⟨BlendFillFunc._dc_blend_fill_rect_bgr565, ⟨0, 0, 1, 1⟩, RTGUI_BLENDMODE_NONE,
        255, 0, 0, 255⟩] ∧
    (BlendFillCall.mk BlendFillFunc._dc_blend_fill_rect_bgr565 ⟨0, 0, 1, 1⟩
        RTGUI_BLENDMODE_NONE 255 0 0 255).run blank 0 0 = 0xF800 ∧
    rtgui_dc_blend_point (buffer_dc 16 RTGRAPHIC_PIXEL_FORMAT_BGR565) blank 0 0
        RTGUI_BLENDMODE_NONE 255 0 0 255 0 0 = 0x001F ∧
    (∀ (fb : Framebuffer) (rect : rtgui_rect_t) (blendMode : RTGUI_BLENDMODE) (r g b a : Nat),
      (BlendFillCall.mk BlendFillFunc._dc_blend_fill_rect_bgr565 rect blendMode r g b a).run fb =
      (BlendFillCall.mk BlendFillFunc._dc_blend_fill_rect_rgb565 rect blendMode r g b a).run
        fb) := by
  refine ⟨by decide, by decide, by decide, fun _ _ _ _ _ _ _ => rfl⟩

/-! ## Polyline blending through the clip region -/

/-- C20: on a client surface at the origin whose clip region is the rectangle `(0,0,5,5)`,
given as the extents alone or as the one rectangle of a region with data, `rtgui_dc_blend_lines`
for the points `(0,0)`, `(9,0)` hands the segment `(0,0)-(5,0)` to the line function: its
end `(5,0)` is not in `[0,4] × [0,4]`. -/
theorem blend_lines_segment_end_outside_clip_rect :
    rtgui_dc_blend_lines (client_dc ⟨0, 0, 10, 10⟩ ⟨⟨0, 0, 5, 5⟩, none⟩) [⟨0, 0⟩, ⟨9, 0⟩] 2
        RTGUI_BLENDMODE_NONE ⟨255, 0, 0, 255⟩ =
      Run.done [BlendEvent.line ⟨BlendLineFunc._dc_blend_line_rgb888, 0, 0, 5, 0,
          RTGUI_BLENDMODE_NONE, 255, 0, 0, 255, false⟩,
        BlendEvent.point 9 0 RTGUI_BLENDMODE_NONE 255 0 0 255] ∧
    rtgui_dc_blend_lines (client_dc ⟨0, 0, 10, 10⟩ ⟨⟨0, 0, 5, 5⟩, some [⟨0, 0, 5, 5⟩]⟩)
        [⟨0, 0⟩, ⟨9, 0⟩] 2 RTGUI_BLENDMODE_NONE ⟨255, 0, 0, 255⟩ =
      Run.done [BlendEvent.line ⟨BlendLineFunc._dc_blend_line_rgb888, 0, 0, 5, 0,
          RTGUI_BLENDMODE_NONE, 255, 0, 0, 255, false⟩,
        BlendEvent.point 9 0 RTGUI_BLENDMODE_NONE 255 0 0 255] ∧
    ¬ in_clip_rect ⟨0, 0, 5, 5⟩ 5 0 := by
  refine ⟨by decide, by decide, by decide⟩

/-! ## Polylines and rectangle lists: early returns and the end flag -/

/-- C21: on a client surface clipped by the extents `(0,0,5,5)` alone, the polyline
`(7,1), (9,1), (2,1), (3,1)` has its first segment rejected by the clipper, and
`rtgui_dc_draw_aa_lines` then draws nothing at all: the `return` of line 531 leaves the function,
so the two later segments and the final point are not drawn. With the same rectangle as the
one rectangle of a region with data, the rejected segment is passed over by the `continue`
of line 551 and the segments `(2,1)-(4,1)`, `(2,1)-(3,1)` and the final point `(3,1)` are
drawn. -/
theorem aa_lines_clipped_segment_ends_polyline :
    rtgui_dc_draw_aa_lines 5 (client_dc ⟨0, 0, 10, 10⟩ ⟨⟨0, 0, 5, 5⟩, none⟩)
        [⟨7, 1⟩, ⟨9, 1⟩, ⟨2, 1⟩, ⟨3, 1⟩] 4 = Run.done [] ∧
    rtgui_dc_draw_aa_lines 5 (client_dc ⟨0, 0, 10, 10⟩ ⟨⟨0, 0, 5, 5⟩, some [⟨0, 0, 5, 5⟩]⟩)
        [⟨7, 1⟩, ⟨9, 1⟩, ⟨2, 1⟩, ⟨3, 1⟩] 4 =
      Run.done [DrawEvent.line ⟨DrawLineFunc._dc_draw_line4, 2, 1, 4, 1, ⟨255, 0, 0, 255⟩, false⟩,
        DrawEvent.line ⟨DrawLineFunc._dc_draw_line4, 2, 1, 3, 1, ⟨255, 0, 0, 255⟩, false⟩,
        DrawEvent.point 3 1] := by
  refine ⟨by decide, by decide⟩

/-- C22: on a client surface clipped by the extents `(0,0,5,5)`, the segment `(0,0)-(9,0)` is
cut to `(0,0)-(4,0)` by `rtgui_dc_draw_aa_lines` and to `(0,0)-(5,0)` by `rtgui_dc_blend_lines`, so the
end point has moved away from `points[1] = (9,0)`, and both pass `draw_end = RT_FALSE`: the
flag is computed in lines 512 and 1327 from `x2`, `y2` as just read from `points[i]`, before
any clipping. -/
theorem lines_draw_end_false_for_clipped_end :
    rtgui_dc_draw_aa_lines 5 (client_dc ⟨0, 0, 10, 10⟩ ⟨⟨0, 0, 5, 5⟩, none⟩)
        [⟨0, 0⟩, ⟨9, 0⟩] 2 =
      Run.done [DrawEvent.line ⟨DrawLineFunc._dc_draw_line4, 0, 0, 4, 0, ⟨255, 0, 0, 255⟩, false⟩,
        DrawEvent.point 9 0] ∧
    rtgui_dc_blend_lines (client_dc ⟨0, 0, 10, 10⟩ ⟨⟨0, 0, 5, 5⟩, none⟩) [⟨0, 0⟩, ⟨9, 0⟩] 2
        RTGUI_BLENDMODE_NONE ⟨255, 0, 0, 255⟩ =
      Run.done [BlendEvent.line ⟨BlendLineFunc._dc_blend_line_rgb888, 0, 0, 5, 0,
          RTGUI_BLENDMODE_NONE, 255, 0, 0, 255, false⟩,
        BlendEvent.point 9 0 RTGUI_BLENDMODE_NONE 255 0 0 255] := by
  refine ⟨by decide, by decide⟩

/-- C23: on a client surface clipped by the extents `(0,0,5,5)` alone, `rtgui_dc_blend_fill_rects`
for the list `(10,10,12,12), (1,1,3,3)` makes no fill call: the first rectangle lies outside
the clip and the `return` of line 1679 leaves the function, where `rtgui_dc_blend_fill_rect` on
each rectangle in turn fills `(1,1,3,3)`. With the same rectangle as the one rectangle of a
region with data, the list is filled as the single rectangles are. -/
theorem fill_rects_outside_rect_ends_list :
    rtgui_dc_blend_fill_rects (client_dc ⟨0, 0, 10, 10⟩ ⟨⟨0, 0, 5, 5⟩, none⟩)
        [⟨10, 10, 12, 12⟩, ⟨1, 1, 3, 3⟩] 2 RTGUI_BLENDMODE_NONE ⟨255, 0, 0, 255⟩ = Run.done [] ∧
    rtgui_dc_blend_fill_rect (client_dc ⟨0, 0, 10, 10⟩ ⟨⟨0, 0, 5, 5⟩, none⟩) ⟨10, 10, 12, 12⟩
        RTGUI_BLENDMODE_NONE ⟨255, 0, 0, 255⟩ ++
      rtgui_dc_blend_fill_rect (client_dc ⟨0, 0, 10, 10⟩ ⟨⟨0, 0, 5, 5⟩, none⟩) ⟨1, 1, 3, 3⟩
        RTGUI_BLENDMODE_NONE ⟨255, 0, 0, 255⟩ =
      [⟨BlendFillFunc._dc_blend_fill_rect_rgb888, ⟨1, 1, 3, 3⟩, RTGUI_BLENDMODE_NONE,
        255, 0, 0, 255⟩] ∧
    rtgui_dc_blend_fill_rects (client_dc ⟨0, 0, 10, 10⟩ ⟨⟨0, 0, 5, 5⟩, some [⟨0, 0, 5, 5⟩]⟩)
        [⟨10, 10, 12, 12⟩, ⟨1, 1, 3, 3⟩] 2 RTGUI_BLENDMODE_NONE ⟨255, 0, 0, 255⟩ =
      Run.done [⟨BlendFillFunc._dc_blend_fill_rect_rgb888, ⟨1, 1, 3, 3⟩, RTGUI_BLENDMODE_NONE,
        255, 0, 0, 255⟩] := by
  refine ⟨by decide, by decide, by decide⟩

/-! ### The end flag of the polyline functions -/

theorem draw_aa_lines_body_draw_end (fuel : Nat) (dst : rtgui_dc) (func : DrawLineFunc)
    (color : rtgui_color_t) (points : List rtgui_point_t) (i : Int)
    (res : List DrawLineCall × Bool)
    (h : draw_aa_lines_body fuel dst func color points i = Run.done res) :
    ∀ c ∈ res.1, c.draw_end = false := by
  unfold draw_aa_lines_body at h
  simp only [Run.bind, ne_eq, not_true_eq_false, or_self, decide_False] at h
  intro c hc
  repeat' split at h
  all_goals first
    | (simp only [Run.done.injEq] at h
       subst h
       simp only [List.mem_singleton, List.mem_map, List.not_mem_nil] at hc <;>
         first
           | (subst hc; rfl)
           | (obtain ⟨s, -, rfl⟩ := hc; rfl))
    | simp at h

theorem blend_lines_body_draw_end (dst : rtgui_dc) (func : BlendLineFunc)
    (blendMode : RTGUI_BLENDMODE) (r g b a : Nat) (points : List rtgui_point_t) (i : Int)
    (res : List BlendLineCall × Bool)
    (h : blend_lines_body dst func blendMode r g b a points i = Run.done res) :
    ∀ c ∈ res.1, c.draw_end = false := by
  unfold blend_lines_body at h
  simp only [Run.bind, ne_eq, not_true_eq_false, or_self, decide_False] at h
  intro c hc
  repeat' split at h
  all_goals first
    | (simp only [Run.done.injEq] at h
       subst h
       simp only [List.mem_singleton, List.mem_map, List.not_mem_nil] at hc <;>
         first
           | (subst hc; rfl)
           | (obtain ⟨s, -, rfl⟩ := hc; rfl))
    | simp at h

theorem draw_aa_lines_loop_draw_end (fuel : Nat) (dst : rtgui_dc) (func : DrawLineFunc)
    (color : rtgui_color_t) (points : List rtgui_point_t) :
    ∀ (n : Nat) (i : Int) (res : List DrawLineCall × Bool),
      draw_aa_lines_loop fuel dst func color points n i = Run.done res →
      ∀ c ∈ res.1, c.draw_end = false := by
  intro n
  induction n with
  | zero =>
    intro i res h c hc
    simp only [draw_aa_lines_loop, Run.done.injEq] at h
    subst h
    simp at hc
  | succ n ih =>
    intro i res h c hc
    rw [draw_aa_lines_loop] at h
    cases hb : draw_aa_lines_body fuel dst func color points i with
    | done r =>
      rw [hb] at h
      simp only [Run.bind] at h
      have hbody := draw_aa_lines_body_draw_end fuel dst func color points i r hb
      by_cases hr : r.2 = true
      · rw [if_pos hr] at h
        simp only [Run.done.injEq] at h
        subst h
        exact hbody c hc
      · rw [if_neg hr] at h
        cases hl : draw_aa_lines_loop fuel dst func color points n (i + 1) with
        | done rest =>
          rw [hl] at h
          simp only [Run.done.injEq] at h
          subst h
          rcases List.mem_append.mp hc with hc | hc
          · exact hbody c hc
          · exact ih (i + 1) rest hl c hc
        | div_by_zero => rw [hl] at h; simp at h
        | out_of_fuel => rw [hl] at h; simp at h
        | bad_index k => rw [hl] at h; simp at h
        | null_call => rw [hl] at h; simp at h
    | div_by_zero => rw [hb] at h; simp [Run.bind] at h
    | out_of_fuel => rw [hb] at h; simp [Run.bind] at h
    | bad_index k => rw [hb] at h; simp [Run.bind] at h
    | null_call => rw [hb] at h; simp [Run.bind] at h

theorem blend_lines_loop_draw_end (dst : rtgui_dc) (func : BlendLineFunc)
    (blendMode : RTGUI_BLENDMODE) (r g b a : Nat) (points : List rtgui_point_t) :
    ∀ (n : Nat) (i : Int) (res : List BlendLineCall × Bool),
      blend_lines_loop dst func blendMode r g b a points n i = Run.done res →
      ∀ c ∈ res.1, c.draw_end = false := by
  intro n
  induction n with
  | zero =>
    intro i res h c hc
    simp only [blend_lines_loop, Run.done.injEq] at h
    subst h
    simp at hc
  | succ n ih =>
    intro i res h c hc
    rw [blend_lines_loop] at h
    cases hb : blend_lines_body dst func blendMode r g b a points i with
    | done r0 =>
      rw [hb] at h
      simp only [Run.bind] at h
      have hbody := blend_lines_body_draw_end dst func blendMode r g b a points i r0 hb
      by_cases hr : r0.2 = true
      · rw [if_pos hr] at h
        simp only [Run.done.injEq] at h
        subst h
        exact hbody c hc
      · rw [if_neg hr] at h
        cases hl : blend_lines_loop dst func blendMode r g b a points n (i + 1) with
        | done rest =>
          rw [hl] at h
          simp only [Run.done.injEq] at h
          subst h
          rcases List.mem_append.mp hc with hc | hc
          · exact hbody c hc
          · exact ih (i + 1) rest hl c hc
        | div_by_zero => rw [hl] at h; simp at h
        | out_of_fuel => rw [hl] at h; simp at h
        | bad_index k => rw [hl] at h; simp at h
        | null_call => rw [hl] at h; simp at h
    | div_by_zero => rw [hb] at h; simp [Run.bind] at h
    | out_of_fuel => rw [hb] at h; simp [Run.bind] at h
    | bad_index k => rw [hb] at h; simp [Run.bind] at h
    | null_call => rw [hb] at h; simp [Run.bind] at h

/-- Every call of the line function that `rtgui_dc_draw_aa_lines` makes has `draw_end = RT_FALSE`. -/
theorem draw_aa_lines_draw_end_false (fuel : Nat) (dst : rtgui_dc)
    (points : List rtgui_point_t) (count : Int) (evs : List DrawEvent)
    (h : rtgui_dc_draw_aa_lines fuel dst points count = Run.done evs) :
    ∀ c, DrawEvent.line c ∈ evs → c.draw_end = false := by
  unfold rtgui_dc_draw_aa_lines at h
  intro c hc
  simp only [Run.bind] at h
  repeat' split at h
  all_goals first
    | (simp only [Run.done.injEq] at h
       subst h
       simp only [List.mem_append, List.mem_map, List.mem_singleton, List.not_mem_nil,
         DrawEvent.line.injEq, exists_eq_right, or_false, reduceCtorEq] at hc <;>
       exact draw_aa_lines_loop_draw_end fuel dst _ _ points _ _ _ (by assumption) c hc)
    | simp at h

/-- Every call of the line function that `rtgui_dc_blend_lines` makes has `draw_end = RT_FALSE`. -/
theorem blend_lines_draw_end_false (dst : rtgui_dc) (points : List rtgui_point_t)
    (count : Int) (blendMode : RTGUI_BLENDMODE) (color : rtgui_color_t)
    (evs : List BlendEvent)
    (h : rtgui_dc_blend_lines dst points count blendMode color = Run.done evs) :
    ∀ c, BlendEvent.line c ∈ evs → c.draw_end = false := by
  unfold rtgui_dc_blend_lines at h
  intro c hc
  simp only [Run.bind] at h
  repeat' split at h
  all_goals first
    | (simp only [Run.done.injEq] at h
       subst h
       simp only [List.mem_append, List.mem_map, List.mem_singleton, List.not_mem_nil,
         BlendEvent.line.injEq, exists_eq_right, or_false, reduceCtorEq] at hc <;>
       exact blend_lines_loop_draw_end dst _ blendMode _ _ _ _ points _ _ _ (by assumption)
         c hc)
    | simp at h

/-! ## The clipper: division, termination, accepted end points -/

/-! ### Outcodes that share a bit -/

theorem and_ne_zero_iff_bits_fin :
    ∀ a b : Fin 16,
      (a.val &&& b.val ≠ 0 ↔ (a.val &&& 2 ≠ 0 ∧ b.val &&& 2 ≠ 0) ∨
        (a.val &&& 1 ≠ 0 ∧ b.val &&& 1 ≠ 0) ∨
        (a.val &&& 4 ≠ 0 ∧ b.val &&& 4 ≠ 0) ∨ (a.val &&& 8 ≠ 0 ∧ b.val &&& 8 ≠ 0)) := by
  decide

theorem and_ne_zero_iff_bits (a b : Nat) (ha : a < 16) (hb : b < 16) :
    a &&& b ≠ 0 ↔ (a &&& 2 ≠ 0 ∧ b &&& 2 ≠ 0) ∨ (a &&& 1 ≠ 0 ∧ b &&& 1 ≠ 0) ∨
      (a &&& 4 ≠ 0 ∧ b &&& 4 ≠ 0) ∨ (a &&& 8 ≠ 0 ∧ b &&& 8 ≠ 0) :=
  and_ne_zero_iff_bits_fin ⟨a, ha⟩ ⟨b, hb⟩

theorem outcode_lt (rect : rtgui_rect_t) (x y : Int) : ComputeOutCode rect x y < 16 := by
  unfold ComputeOutCode CODE_TOP CODE_BOTTOM CODE_LEFT CODE_RIGHT
  simp only []
  split_ifs <;> simp +decide

theorem outcode_share_iff (rect : rtgui_rect_t) (x1 y1 x2 y2 : Int) :
    ComputeOutCode rect x1 y1 &&& ComputeOutCode rect x2 y2 ≠ 0 ↔
      (y1 < rect.y1 ∧ y2 < rect.y1) ∨
      (¬ y1 < rect.y1 ∧ y1 > rect.y2 ∧ ¬ y2 < rect.y1 ∧ y2 > rect.y2) ∨
      (x1 < rect.x1 ∧ x2 < rect.x1) ∨
      (¬ x1 < rect.x1 ∧ x1 > rect.x2 ∧ ¬ x2 < rect.x1 ∧ x2 > rect.x2) := by
  have t1 := outcode_top_iff rect x1 y1
  have t2 := outcode_top_iff rect x2 y2
  have b1 := outcode_bottom_iff rect x1 y1
  have b2 := outcode_bottom_iff rect x2 y2
  have l1 := outcode_left_iff rect x1 y1
  have l2 := outcode_left_iff rect x2 y2
  have r1 := outcode_right_iff rect x1 y1
  have r2 := outcode_right_iff rect x2 y2
  have ha := outcode_lt rect x1 y1
  have hb := outcode_lt rect x2 y2
  unfold CODE_TOP at t1 t2
  unfold CODE_BOTTOM at b1 b2
  unfold CODE_LEFT at l1 l2
  unfold CODE_RIGHT at r1 r2
  generalize ComputeOutCode rect x1 y1 = a at *
  generalize ComputeOutCode rect x2 y2 = b at *
  rw [and_ne_zero_iff_bits a b ha hb, t1, t2, b1, b2, l1, l2, r1, r2]
  simp only [and_assoc]

theorem clip_edge_first_ne_none (rect : rtgui_rect_t) (a b c d x1 y1 x2 y2 x y : Int)
    (hsh : ComputeOutCode rect x1 y1 &&& ComputeOutCode rect x2 y2 = 0) :
    clip_edge a b c d x1 y1 x2 y2 (ComputeOutCode rect x1 y1) x y ≠ none := by
  have hs := (outcode_share_iff rect x1 y1 x2 y2).not.1 (by simpa using hsh)
  unfold clip_edge
  split_ifs with h1 h2 h3 h4 h5 h6 h7 h8 <;> simp
  · have := (outcode_top_iff rect x1 y1).1 h1; omega
  · have := (outcode_bottom_iff rect x1 y1).1 h3; omega
  · have := (outcode_left_iff rect x1 y1).1 h5; omega
  · have := (outcode_right_iff rect x1 y1).1 h7; omega

theorem clip_edge_second_ne_none (rect : rtgui_rect_t) (a b c d x1 y1 x2 y2 x y : Int)
    (hz : ComputeOutCode rect x1 y1 = 0) :
    clip_edge a b c d x1 y1 x2 y2 (ComputeOutCode rect x2 y2) x y ≠ none := by
  have hw := (outcode_eq_zero_iff rect x1 y1).1 hz
  unfold clip_edge
  split_ifs with h1 h2 h3 h4 h5 h6 h7 h8 <;> simp
  · have := (outcode_top_iff rect x2 y2).1 h1; omega
  · have := (outcode_bottom_iff rect x2 y2).1 h3; omega
  · have := (outcode_left_iff rect x2 y2).1 h5; omega
  · have := (outcode_right_iff rect x2 y2).1 h7; omega

theorem clip_loop_ne_div_by_zero (rect : rtgui_rect_t) :
    ∀ (fuel : Nat) (x1 y1 x2 y2 x y : Int),
      clip_loop rect fuel x1 y1 x2 y2 (ComputeOutCode rect x1 y1) (ComputeOutCode rect x2 y2)
        x y ≠ ClipResult.div_by_zero := by
  intro fuel
  induction fuel with
  | zero =>
    intro x1 y1 x2 y2 x y
    simp only [clip_loop]
    split_ifs <;> simp
  | succ n ih =>
    intro x1 y1 x2 y2 x y
    rw [clip_loop]
    by_cases hz : ComputeOutCode rect x1 y1 = 0 ∧ ComputeOutCode rect x2 y2 = 0
    · rw [if_pos hz]; simp
    rw [if_neg hz]
    by_cases hsh : ComputeOutCode rect x1 y1 &&& ComputeOutCode rect x2 y2 ≠ 0
    · rw [if_pos hsh]; simp
    rw [if_neg hsh]
    have hsh0 : ComputeOutCode rect x1 y1 &&& ComputeOutCode rect x2 y2 = 0 := by
      simpa using hsh
    by_cases h1 : ComputeOutCode rect x1 y1 ≠ 0
    · rw [if_pos h1]
      have hne := clip_edge_first_ne_none rect rect.x1 rect.y1 (rect.x2 - 1) (rect.y2 - 1)
        x1 y1 x2 y2 x y hsh0
      cases hc : clip_edge rect.x1 rect.y1 (rect.x2 - 1) (rect.y2 - 1) x1 y1 x2 y2
          (ComputeOutCode rect x1 y1) x y with
      | none => exact absurd hc hne
      | some p =>
        obtain ⟨px, py⟩ := p
        exact ih px py x2 y2 px py
    · rw [if_neg h1]
      have h10 : ComputeOutCode rect x1 y1 = 0 := by simpa using h1
      have hne := clip_edge_second_ne_none rect rect.x1 rect.y1 (rect.x2 - 1) (rect.y2 - 1)
        x1 y1 x2 y2 x y h10
      cases hc : clip_edge rect.x1 rect.y1 (rect.x2 - 1) (rect.y2 - 1) x1 y1 x2 y2
          (ComputeOutCode rect x2 y2) x y with
      | none => exact absurd hc hne
      | some p =>
        obtain ⟨px, py⟩ := p
        have := ih x1 y1 px py px py
        rw [h10] at this ⊢
        exact this

theorem clip_loop_accepted_outcodes (rect : rtgui_rect_t) :
    ∀ (fuel : Nat) (x1 y1 x2 y2 x y X1 Y1 X2 Y2 : Int),
      clip_loop rect fuel x1 y1 x2 y2 (ComputeOutCode rect x1 y1) (ComputeOutCode rect x2 y2)
        x y = ClipResult.accepted X1 Y1 X2 Y2 →
      ComputeOutCode rect X1 Y1 = 0 ∧ ComputeOutCode rect X2 Y2 = 0 := by
  intro fuel
  induction fuel with
  | zero =>
    intro x1 y1 x2 y2 x y X1 Y1 X2 Y2
    simp only [clip_loop]
    split_ifs with hz
    · intro h
      simp only [ClipResult.accepted.injEq] at h
      obtain ⟨rfl, rfl, rfl, rfl⟩ := h
      exact hz
    · simp
  | succ n ih =>
    intro x1 y1 x2 y2 x y X1 Y1 X2 Y2
    rw [clip_loop]
    by_cases hz : ComputeOutCode rect x1 y1 = 0 ∧ ComputeOutCode rect x2 y2 = 0
    · rw [if_pos hz]
      intro h
      simp only [ClipResult.accepted.injEq] at h
      obtain ⟨rfl, rfl, rfl, rfl⟩ := h
      exact hz
    rw [if_neg hz]
    by_cases hsh : ComputeOutCode rect x1 y1 &&& ComputeOutCode rect x2 y2 ≠ 0
    · rw [if_pos hsh]; simp
    rw [if_neg hsh]
    by_cases h1 : ComputeOutCode rect x1 y1 ≠ 0
    · rw [if_pos h1]
      cases hc : clip_edge rect.x1 rect.y1 (rect.x2 - 1) (rect.y2 - 1) x1 y1 x2 y2
          (ComputeOutCode rect x1 y1) x y with
      | none => simp
      | some p =>
        obtain ⟨px, py⟩ := p
        exact ih px py x2 y2 px py X1 Y1 X2 Y2
    · rw [if_neg h1]
      have h10 : ComputeOutCode rect x1 y1 = 0 := by simpa using h1
      cases hc : clip_edge rect.x1 rect.y1 (rect.x2 - 1) (rect.y2 - 1) x1 y1 x2 y2
          (ComputeOutCode rect x2 y2) x y with
      | none => simp
      | some p =>
        obtain ⟨px, py⟩ := p
        have := ih x1 y1 px py px py X1 Y1 X2 Y2
        rw [h10] at this ⊢
        exact this

/-! ### The loop ends -/

theorem clip_settles_mono (rect : rtgui_rect_t) (k k2 : Nat) (x1 y1 x2 y2 : Int)
    (oc1 oc2 : Nat) (x y : Int) (hk : k ≤ k2)
    (h : clip_settles rect k x1 y1 x2 y2 oc1 oc2 x y) :
    clip_settles rect k2 x1 y1 x2 y2 oc1 oc2 x y := by
  obtain ⟨r, hr, hf⟩ := h
  exact ⟨r, hr, fun fuel hfuel => hf fuel (by omega)⟩

theorem clip_settles_done (rect : rtgui_rect_t) (k : Nat) (x1 y1 x2 y2 x y : Int)
    (h1 : ComputeOutCode rect x1 y1 = 0) (h2 : ComputeOutCode rect x2 y2 = 0) :
    clip_settles rect k x1 y1 x2 y2 (ComputeOutCode rect x1 y1) (ComputeOutCode rect x2 y2)
      x y := by
  rw [h1, h2]
  exact ⟨ClipResult.accepted x1 y1 x2 y2, Or.inr ⟨_, _, _, _, rfl⟩,
    fun fuel _ => clip_loop_done rect fuel x1 y1 x2 y2 x y⟩

theorem clip_settles_shared (rect : rtgui_rect_t) (k : Nat) (x1 y1 x2 y2 : Int)
    (oc1 oc2 : Nat) (x y : Int) (hsh : oc1 &&& oc2 ≠ 0) :
    clip_settles rect (k + 1) x1 y1 x2 y2 oc1 oc2 x y := by
  refine ⟨ClipResult.rejected, Or.inl rfl, fun fuel hfuel => ?_⟩
  obtain ⟨n, rfl⟩ : ∃ n, fuel = n + 1 := ⟨fuel - 1, by omega⟩
  have hz : ¬ (oc1 = 0 ∧ oc2 = 0) := by
    rintro ⟨h1, -⟩
    rw [h1] at hsh
    simp at hsh
  rw [clip_loop, if_neg hz]
  simp only [hsh, ne_eq, not_false_eq_true, if_true]

theorem clip_settles_step_first (rect : rtgui_rect_t) (k : Nat) (x1 y1 x2 y2 x y px py : Int)
    (hoc : ComputeOutCode rect x1 y1 ≠ 0)
    (hsh : ComputeOutCode rect x1 y1 &&& ComputeOutCode rect x2 y2 = 0)
    (hedge : clip_edge rect.x1 rect.y1 (rect.x2 - 1) (rect.y2 - 1) x1 y1 x2 y2
      (ComputeOutCode rect x1 y1) x y = some (px, py))
    (h : clip_settles rect k px py x2 y2 (ComputeOutCode rect px py)
      (ComputeOutCode rect x2 y2) px py) :
    clip_settles rect (k + 1) x1 y1 x2 y2 (ComputeOutCode rect x1 y1)
      (ComputeOutCode rect x2 y2) x y := by
  obtain ⟨r, hr, hf⟩ := h
  refine ⟨r, hr, fun fuel hfuel => ?_⟩
  obtain ⟨n, rfl⟩ : ∃ n, fuel = n + 1 := ⟨fuel - 1, by omega⟩
  rw [clip_loop_step_first rect n x1 y1 x2 y2 x y _ _ hoc hsh, hedge]
  exact hf n (by omega)

theorem clip_settles_step_second (rect : rtgui_rect_t) (k : Nat) (x1 y1 x2 y2 x y px py : Int)
    (h1 : ComputeOutCode rect x1 y1 = 0) (hoc : ComputeOutCode rect x2 y2 ≠ 0)
    (hedge : clip_edge rect.x1 rect.y1 (rect.x2 - 1) (rect.y2 - 1) x1 y1 x2 y2
      (ComputeOutCode rect x2 y2) x y = some (px, py))
    (h : clip_settles rect k x1 y1 px py (ComputeOutCode rect x1 y1)
      (ComputeOutCode rect px py) px py) :
    clip_settles rect (k + 1) x1 y1 x2 y2 (ComputeOutCode rect x1 y1)
      (ComputeOutCode rect x2 y2) x y := by
  obtain ⟨r, hr, hf⟩ := h
  refine ⟨r, hr, fun fuel hfuel => ?_⟩
  obtain ⟨n, rfl⟩ : ∃ n, fuel = n + 1 := ⟨fuel - 1, by omega⟩
  have := hf n (by omega)
  rw [h1] at this ⊢
  rw [clip_loop_step_second rect n x1 y1 x2 y2 x y _ hoc, hedge]
  exact this

/-- Second end point left or right of the window and level with it, first end point in the
window and not on the column `rect.x2` when the second lies to the right: one pass. -/
theorem clip_settles_second_side (rect : rtgui_rect_t) (hx : rect.x1 < rect.x2)
    (x1 y1 x2 y2 x y : Int)
    (hw : rect.x1 ≤ x1 ∧ x1 ≤ rect.x2 ∧ rect.y1 ≤ y1 ∧ y1 ≤ rect.y2)
    (hv : rect.y1 ≤ y2 ∧ y2 ≤ rect.y2)
    (hh : x2 < rect.x1 ∨ (x2 > rect.x2 ∧ x1 ≤ rect.x2 - 1)) :
    clip_settles rect 1 x1 y1 x2 y2 (ComputeOutCode rect x1 y1) (ComputeOutCode rect x2 y2)
      x y := by
  have h1 : ComputeOutCode rect x1 y1 = 0 := (outcode_eq_zero_iff _ _ _).2 hw
  have hoc : ComputeOutCode rect x2 y2 ≠ 0 :=
    fun h => by have := (outcode_eq_zero_iff _ _ _).1 h; omega
  rcases hh with hl | ⟨hr, hr1⟩
  · have hb := interp_between y1 y2 (rect.x1 - x1) (x2 - x1) (by omega) (by omega)
    refine clip_settles_step_second rect 0 x1 y1 x2 y2 x y _ _ h1 hoc
      (clip_edge_left rect _ _ _ _ x1 y1 x2 y2 x2 y2 x y hv.1 hv.2 hl (by omega)) ?_
    exact clip_settles_done rect 0 _ _ _ _ _ _ h1
      ((outcode_eq_zero_iff _ _ _).2 ⟨le_refl _, by omega, by omega, by omega⟩)
  · have hb := interp_between y1 y2 (rect.x2 - 1 - x1) (x2 - x1) (by omega) (by omega)
    refine clip_settles_step_second rect 0 x1 y1 x2 y2 x y _ _ h1 hoc
      (clip_edge_right rect _ _ _ _ x1 y1 x2 y2 x2 y2 x y hv.1 hv.2 hr (by omega) (by omega)) ?_
    exact clip_settles_done rect 0 _ _ _ _ _ _ h1
      ((outcode_eq_zero_iff _ _ _).2 ⟨by omega, by omega, by omega, by omega⟩)

/-- Second end point above or below the window and within its columns, first end point in
the window and not on the row `rect.y2` when the second lies below: one pass. -/
theorem clip_settles_second_level (rect : rtgui_rect_t) (hy : rect.y1 < rect.y2)
    (x1 y1 x2 y2 x y : Int)
    (hw : rect.x1 ≤ x1 ∧ x1 ≤ rect.x2 ∧ rect.y1 ≤ y1 ∧ y1 ≤ rect.y2)
    (hh : rect.x1 ≤ x2 ∧ x2 ≤ rect.x2)
    (hv : y2 < rect.y1 ∨ (y2 > rect.y2 ∧ y1 ≤ rect.y2 - 1)) :
    clip_settles rect 1 x1 y1 x2 y2 (ComputeOutCode rect x1 y1) (ComputeOutCode rect x2 y2)
      x y := by
  have h1 : ComputeOutCode rect x1 y1 = 0 := (outcode_eq_zero_iff _ _ _).2 hw
  have hoc : ComputeOutCode rect x2 y2 ≠ 0 :=
    fun h => by have := (outcode_eq_zero_iff _ _ _).1 h; omega
  rcases hv with ht | ⟨hb2, hb1⟩
  · have hb := interp_between x1 x2 (rect.y1 - y1) (y2 - y1) (by omega) (by omega)
    refine clip_settles_step_second rect 0 x1 y1 x2 y2 x y _ _ h1 hoc
      (clip_edge_top rect _ _ _ _ x1 y1 x2 y2 x2 y2 x y ht (by omega)) ?_
    exact clip_settles_done rect 0 _ _ _ _ _ _ h1
      ((outcode_eq_zero_iff _ _ _).2 ⟨by omega, by omega, le_refl _, by omega⟩)
  · have hb := interp_between x1 x2 (rect.y2 - 1 - y1) (y2 - y1) (by omega) (by omega)
    refine clip_settles_step_second rect 0 x1 y1 x2 y2 x y _ _ h1 hoc
      (clip_edge_bottom rect _ _ _ _ x1 y1 x2 y2 x2 y2 x y hb2 (by omega) (by omega)) ?_
    exact clip_settles_done rect 0 _ _ _ _ _ _ h1
      ((outcode_eq_zero_iff _ _ _).2 ⟨by omega, by omega, by omega, by omega⟩)

/-- Second end point left or right of the window and level with it, first end point in the
window: two passes, unless the first end point is the corner `(rect.x2, rect.y2)` with the
second to its right. -/
theorem clip_settles_second_side2 (rect : rtgui_rect_t) (hx : rect.x1 < rect.x2)
    (hy : rect.y1 < rect.y2) (x1 y1 x2 y2 x y : Int)
    (hw : rect.x1 ≤ x1 ∧ x1 ≤ rect.x2 ∧ rect.y1 ≤ y1 ∧ y1 ≤ rect.y2)
    (hv : rect.y1 ≤ y2 ∧ y2 ≤ rect.y2) (hout : x2 < rect.x1 ∨ x2 > rect.x2)
    (hcorner : ¬ (x1 = rect.x2 ∧ y1 = rect.y2 ∧ x2 > rect.x2)) :
    clip_settles rect 2 x1 y1 x2 y2 (ComputeOutCode rect x1 y1) (ComputeOutCode rect x2 y2)
      x y := by
  by_cases hsafe : x2 < rect.x1 ∨ (x2 > rect.x2 ∧ x1 ≤ rect.x2 - 1)
  · exact clip_settles_mono rect 1 2 _ _ _ _ _ _ _ _ (by omega)
      (clip_settles_second_side rect hx x1 y1 x2 y2 x y hw hv hsafe)
  have hr : x2 > rect.x2 := by omega
  have hx1 : x1 = rect.x2 := by omega
  have hy1 : y1 ≤ rect.y2 - 1 := by omega
  have h1 : ComputeOutCode rect x1 y1 = 0 := (outcode_eq_zero_iff _ _ _).2 hw
  have hoc : ComputeOutCode rect x2 y2 ≠ 0 :=
    fun h => by have := (outcode_eq_zero_iff _ _ _).1 h; omega
  refine clip_settles_step_second rect 1 x1 y1 x2 y2 x y _ _ h1 hoc
    (clip_edge_right rect _ _ _ _ x1 y1 x2 y2 x2 y2 x y hv.1 hv.2 hr (by omega) (by omega)) ?_
  generalize y1 + Int.tdiv ((y2 - y1) * (rect.x2 - 1 - x1)) (x2 - x1) = py
  by_cases hin : rect.y1 ≤ py ∧ py ≤ rect.y2
  · exact clip_settles_done rect 1 _ _ _ _ _ _ h1
      ((outcode_eq_zero_iff _ _ _).2 ⟨by omega, by omega, hin.1, hin.2⟩)
  · exact clip_settles_second_level rect hy x1 y1 (rect.x2 - 1) py _ _ hw
      ⟨by omega, by omega⟩ (by omega)

/-- Second end point above or below the window, first end point in the window: three
passes, unless the first end point is the corner `(rect.x2, rect.y2)` with the second to
its right or below it. -/
theorem clip_settles_second_level3 (rect : rtgui_rect_t) (hx : rect.x1 < rect.x2)
    (hy : rect.y1 < rect.y2) (x1 y1 x2 y2 x y : Int)
    (hw : rect.x1 ≤ x1 ∧ x1 ≤ rect.x2 ∧ rect.y1 ≤ y1 ∧ y1 ≤ rect.y2)
    (hout : y2 < rect.y1 ∨ y2 > rect.y2)
    (hcorner : ¬ (x1 = rect.x2 ∧ y1 = rect.y2 ∧ (x2 > rect.x2 ∨ y2 > rect.y2))) :
    clip_settles rect 3 x1 y1 x2 y2 (ComputeOutCode rect x1 y1) (ComputeOutCode rect x2 y2)
      x y := by
  have h1 : ComputeOutCode rect x1 y1 = 0 := (outcode_eq_zero_iff _ _ _).2 hw
  have hoc : ComputeOutCode rect x2 y2 ≠ 0 :=
    fun h => by have := (outcode_eq_zero_iff _ _ _).1 h; omega
  rcases hout with ht | hb
  · have hbt := interp_between x1 x2 (rect.y1 - y1) (y2 - y1) (by omega) (by omega)
    refine clip_settles_step_second rect 2 x1 y1 x2 y2 x y _ _ h1 hoc
      (clip_edge_top rect _ _ _ _ x1 y1 x2 y2 x2 y2 x y ht (by omega)) ?_
    generalize x1 + Int.tdiv ((x2 - x1) * (rect.y1 - y1)) (y2 - y1) = px at hbt ⊢
    by_cases hin : rect.x1 ≤ px ∧ px ≤ rect.x2
    · exact clip_settles_done rect 2 _ _ _ _ _ _ h1
        ((outcode_eq_zero_iff _ _ _).2 ⟨hin.1, hin.2, le_refl _, by omega⟩)
    · exact clip_settles_second_side2 rect hx hy x1 y1 px rect.y1 _ _ hw
        ⟨le_refl _, by omega⟩ (by omega) (by omega)
  · refine clip_settles_step_second rect 2 x1 y1 x2 y2 x y _ _ h1 hoc
      (clip_edge_bottom rect _ _ _ _ x1 y1 x2 y2 x2 y2 x y hb (by omega) (by omega)) ?_
    generalize x1 + Int.tdiv ((x2 - x1) * (rect.y2 - 1 - y1)) (y2 - y1) = px
    by_cases hin : rect.x1 ≤ px ∧ px ≤ rect.x2
    · exact clip_settles_done rect 2 _ _ _ _ _ _ h1
        ((outcode_eq_zero_iff _ _ _).2 ⟨hin.1, hin.2, by omega, by omega⟩)
    · exact clip_settles_second_side2 rect hx hy x1 y1 px (rect.y2 - 1) _ _ hw
        ⟨by omega, by omega⟩ (by omega) (by omega)

/-- First end point in the window: the loop ends within three passes, unless that end point
is the corner `(rect.x2, rect.y2)` with the second end point to its right or below it. -/
theorem clip_settles_second (rect : rtgui_rect_t) (hx : rect.x1 < rect.x2)
    (hy : rect.y1 < rect.y2) (x1 y1 x2 y2 x y : Int)
    (hw : rect.x1 ≤ x1 ∧ x1 ≤ rect.x2 ∧ rect.y1 ≤ y1 ∧ y1 ≤ rect.y2)
    (hcorner : ¬ (x1 = rect.x2 ∧ y1 = rect.y2 ∧ (x2 > rect.x2 ∨ y2 > rect.y2))) :
    clip_settles rect 3 x1 y1 x2 y2 (ComputeOutCode rect x1 y1) (ComputeOutCode rect x2 y2)
      x y := by
  by_cases hv : y2 < rect.y1 ∨ y2 > rect.y2
  · exact clip_settles_second_level3 rect hx hy x1 y1 x2 y2 x y hw hv hcorner
  by_cases hh : x2 < rect.x1 ∨ x2 > rect.x2
  · exact clip_settles_mono rect 2 3 _ _ _ _ _ _ _ _ (by omega)
      (clip_settles_second_side2 rect hx hy x1 y1 x2 y2 x y hw (by omega) hh (by omega))
  · exact clip_settles_done rect 3 _ _ _ _ _ _ ((outcode_eq_zero_iff _ _ _).2 hw)
      ((outcode_eq_zero_iff _ _ _).2 (by omega))

/-- First end point left or right of the window and level with it, not right of a second
end point on the column `rect.x2`: the loop ends within four passes. -/
theorem clip_settles_first_side (rect : rtgui_rect_t) (hx : rect.x1 < rect.x2)
    (hy : rect.y1 < rect.y2) (x1 y1 x2 y2 x y : Int)
    (hv : rect.y1 ≤ y1 ∧ y1 ≤ rect.y2) (hout : x1 < rect.x1 ∨ x1 > rect.x2)
    (hnx : ¬ (x1 > rect.x2 ∧ x2 = rect.x2)) :
    clip_settles rect 4 x1 y1 x2 y2 (ComputeOutCode rect x1 y1) (ComputeOutCode rect x2 y2)
      x y := by
  by_cases hsh : ComputeOutCode rect x1 y1 &&& ComputeOutCode rect x2 y2 ≠ 0
  · exact clip_settles_shared rect 3 _ _ _ _ _ _ _ _ hsh
  have hsh0 : ComputeOutCode rect x1 y1 &&& ComputeOutCode rect x2 y2 = 0 := by
    simpa using hsh
  have hs := (outcode_share_iff rect x1 y1 x2 y2).not.1 hsh
  have hoc : ComputeOutCode rect x1 y1 ≠ 0 :=
    fun h => by have := (outcode_eq_zero_iff _ _ _).1 h; omega
  -- the state after the pass, with the new first end point on a clip column
  have key : ∀ px py : Int, (px = rect.x1 ∨ px = rect.x2 - 1) →
      min y1 y2 ≤ py ∧ py ≤ max y1 y2 →
      clip_settles rect 3 px py x2 y2 (ComputeOutCode rect px py) (ComputeOutCode rect x2 y2)
        px py := by
    intro px py hpx hpy
    by_cases hin : rect.y1 ≤ py ∧ py ≤ rect.y2
    · exact clip_settles_second rect hx hy px py x2 y2 px py ⟨by omega, by omega, hin.1, hin.2⟩
        (by omega)
    · refine clip_settles_shared rect 2 _ _ _ _ _ _ _ _ ?_
      rw [outcode_share_iff]
      omega
  rcases hout with hl | hr
  · have hb := interp_between y1 y2 (rect.x1 - x1) (x2 - x1) (by omega) (by omega)
    exact clip_settles_step_first rect 3 x1 y1 x2 y2 x y _ _ hoc hsh0
      (clip_edge_left rect _ _ _ _ x1 y1 x2 y2 x1 y1 x y hv.1 hv.2 hl (by omega))
      (key _ _ (Or.inl rfl) hb)
  · have hb := interp_between y1 y2 (rect.x2 - 1 - x1) (x2 - x1) (by omega) (by omega)
    exact clip_settles_step_first rect 3 x1 y1 x2 y2 x y _ _ hoc hsh0
      (clip_edge_right rect _ _ _ _ x1 y1 x2 y2 x1 y1 x y hv.1 hv.2 hr (by omega) (by omega))
      (key _ _ (Or.inr rfl) hb)

/-- First end point above or below the window, neither below a second end point on the row
`rect.y2` nor right of one on the column `rect.x2`: the loop ends within five passes. -/
theorem clip_settles_first_level (rect : rtgui_rect_t) (hx : rect.x1 < rect.x2)
    (hy : rect.y1 < rect.y2) (x1 y1 x2 y2 x y : Int)
    (hout : y1 < rect.y1 ∨ y1 > rect.y2)
    (hny : ¬ (y1 > rect.y2 ∧ y2 = rect.y2)) (hnx : ¬ (x1 > rect.x2 ∧ x2 = rect.x2)) :
    clip_settles rect 5 x1 y1 x2 y2 (ComputeOutCode rect x1 y1) (ComputeOutCode rect x2 y2)
      x y := by
  by_cases hsh : ComputeOutCode rect x1 y1 &&& ComputeOutCode rect x2 y2 ≠ 0
  · exact clip_settles_shared rect 4 _ _ _ _ _ _ _ _ hsh
  have hsh0 : ComputeOutCode rect x1 y1 &&& ComputeOutCode rect x2 y2 = 0 := by
    simpa using hsh
  have hs := (outcode_share_iff rect x1 y1 x2 y2).not.1 hsh
  have hoc : ComputeOutCode rect x1 y1 ≠ 0 :=
    fun h => by have := (outcode_eq_zero_iff _ _ _).1 h; omega
  -- the state after the pass, with the new first end point on a clip row
  have key : ∀ px py : Int, (py = rect.y1 ∨ py = rect.y2 - 1) →
      min x1 x2 ≤ px ∧ px ≤ max x1 x2 →
      clip_settles rect 4 px py x2 y2 (ComputeOutCode rect px py) (ComputeOutCode rect x2 y2)
        px py := by
    intro px py hpy hpx
    by_cases hin : rect.x1 ≤ px ∧ px ≤ rect.x2
    · exact clip_settles_mono rect 3 4 _ _ _ _ _ _ _ _ (by omega)
        (clip_settles_second rect hx hy px py x2 y2 px py ⟨hin.1, hin.2, by omega, by omega⟩
          (by omega))
    · exact clip_settles_first_side rect hx hy px py x2 y2 px py ⟨by omega, by omega⟩
        (by omega) (by omega)
  rcases hout with ht | hb
  · have hbt := interp_between x1 x2 (rect.y1 - y1) (y2 - y1) (by omega) (by omega)
    exact clip_settles_step_first rect 4 x1 y1 x2 y2 x y _ _ hoc hsh0
      (clip_edge_top rect _ _ _ _ x1 y1 x2 y2 x1 y1 x y ht (by omega))
      (key _ _ (Or.inl rfl) hbt)
  · have hbt := interp_between x1 x2 (rect.y2 - 1 - y1) (y2 - y1) (by omega) (by omega)
    exact clip_settles_step_first rect 4 x1 y1 x2 y2 x y _ _ hoc hsh0
      (clip_edge_bottom rect _ _ _ _ x1 y1 x2 y2 x1 y1 x y hb (by omega) (by omega))
      (key _ _ (Or.inr rfl) hbt)

/-- From the variables that pass the two tests of lines 165-174, for a rectangle with
`x1 < x2` and `y1 < y2`, the loop ends within five passes. -/
theorem clip_settles_initial (rect : rtgui_rect_t) (hx : rect.x1 < rect.x2)
    (hy : rect.y1 < rect.y2) (x1 y1 x2 y2 x y : Int)
    (hside : ¬ ((x1 < rect.x1 ∧ x2 < rect.x1) ∨ (x1 > rect.x2 - 1 ∧ x2 > rect.x2 - 1) ∨
      (y1 < rect.y1 ∧ y2 < rect.y1) ∨ (y1 > rect.y2 - 1 ∧ y2 > rect.y2 - 1))) :
    clip_settles rect 5 x1 y1 x2 y2 (ComputeOutCode rect x1 y1) (ComputeOutCode rect x2 y2)
      x y := by
  by_cases hv : y1 < rect.y1 ∨ y1 > rect.y2
  · exact clip_settles_first_level rect hx hy x1 y1 x2 y2 x y hv (by omega) (by omega)
  by_cases hh : x1 < rect.x1 ∨ x1 > rect.x2
  · exact clip_settles_mono rect 4 5 _ _ _ _ _ _ _ _ (by omega)
      (clip_settles_first_side rect hx hy x1 y1 x2 y2 x y (by omega) hh (by omega))
  · exact clip_settles_mono rect 3 5 _ _ _ _ _ _ _ _ (by omega)
      (clip_settles_second rect hx hy x1 y1 x2 y2 x y (by omega) (by omega))

/-! ### The function `_intersect_rect_line` -/

/-- For a rectangle with `x1 < x2` and `y1 < y2`, the end points returned with `RT_TRUE` lie in
the region where `ComputeOutCode` is zero. -/
theorem intersect_accepted_window (fuel : Nat) (rect : rtgui_rect_t)
    (x1 y1 x2 y2 X1 Y1 X2 Y2 : Int) (hx : rect.x1 < rect.x2) (hy : rect.y1 < rect.y2)
    (hacc : _intersect_rect_line fuel rect x1 y1 x2 y2 = ClipResult.accepted X1 Y1 X2 Y2) :
    (rect.x1 ≤ X1 ∧ X1 ≤ rect.x2 ∧ rect.y1 ≤ Y1 ∧ Y1 ≤ rect.y2) ∧
    (rect.x1 ≤ X2 ∧ X2 ≤ rect.x2 ∧ rect.y1 ≤ Y2 ∧ Y2 ≤ rect.y2) := by
  unfold _intersect_rect_line at hacc
  simp only [] at hacc
  by_cases h1 : x1 ≥ rect.x1 ∧ x1 ≤ rect.x2 - 1 ∧ x2 ≥ rect.x1 ∧ x2 ≤ rect.x2 - 1 ∧
      y1 ≥ rect.y1 ∧ y1 ≤ rect.y2 - 1 ∧ y2 ≥ rect.y1 ∧ y2 ≤ rect.y2 - 1
  · rw [if_pos h1] at hacc
    simp only [ClipResult.accepted.injEq] at hacc
    omega
  rw [if_neg h1] at hacc
  by_cases h2 : (x1 < rect.x1 ∧ x2 < rect.x1) ∨ (x1 > rect.x2 - 1 ∧ x2 > rect.x2 - 1) ∨
      (y1 < rect.y1 ∧ y2 < rect.y1) ∨ (y1 > rect.y2 - 1 ∧ y2 > rect.y2 - 1)
  · rw [if_pos h2] at hacc
    simp at hacc
  rw [if_neg h2] at hacc
  by_cases h3 : y1 = y2
  · rw [if_pos h3] at hacc
    simp only [ClipResult.accepted.injEq] at hacc
    obtain ⟨e1, e2, e3, e4⟩ := hacc
    subst e2 e4
    constructor
    · refine ⟨?_, ?_, by omega, by omega⟩ <;> (rw [← e1]; split_ifs <;> omega)
    · refine ⟨?_, ?_, by omega, by omega⟩ <;> (rw [← e3]; split_ifs <;> omega)
  rw [if_neg h3] at hacc
  by_cases h4 : x1 = x2
  · rw [if_pos h4] at hacc
    simp only [ClipResult.accepted.injEq] at hacc
    obtain ⟨e1, e2, e3, e4⟩ := hacc
    subst e1 e3
    constructor
    · refine ⟨by omega, by omega, ?_, ?_⟩ <;> (rw [← e2]; split_ifs <;> omega)
    · refine ⟨by omega, by omega, ?_, ?_⟩ <;> (rw [← e4]; split_ifs <;> omega)
  rw [if_neg h4] at hacc
  have := clip_loop_accepted_outcodes rect fuel x1 y1 x2 y2 0 0 X1 Y1 X2 Y2 hacc
  exact ⟨(outcode_eq_zero_iff _ _ _).1 this.1, (outcode_eq_zero_iff _ _ _).1 this.2⟩

/-- For a rectangle with `x1 < x2` and `y1 < y2`, `_intersect_rect_line` gives one and the same
outcome, `RT_FALSE` or `RT_TRUE`, for every iteration budget of at least 5. -/
theorem intersect_settles (rect : rtgui_rect_t) (x1 y1 x2 y2 : Int)
    (hx : rect.x1 < rect.x2) (hy : rect.y1 < rect.y2) :
    ∃ r : ClipResult, (r = ClipResult.rejected ∨ ∃ a b c d, r = ClipResult.accepted a b c d) ∧
      ∀ fuel, 5 ≤ fuel → _intersect_rect_line fuel rect x1 y1 x2 y2 = r := by
  unfold _intersect_rect_line
  simp only []
  by_cases h1 : x1 ≥ rect.x1 ∧ x1 ≤ rect.x2 - 1 ∧ x2 ≥ rect.x1 ∧ x2 ≤ rect.x2 - 1 ∧
      y1 ≥ rect.y1 ∧ y1 ≤ rect.y2 - 1 ∧ y2 ≥ rect.y1 ∧ y2 ≤ rect.y2 - 1
  · simp only [if_pos h1]
    exact ⟨_, Or.inr ⟨_, _, _, _, rfl⟩, fun _ _ => rfl⟩
  simp only [if_neg h1]
  by_cases h2 : (x1 < rect.x1 ∧ x2 < rect.x1) ∨ (x1 > rect.x2 - 1 ∧ x2 > rect.x2 - 1) ∨
      (y1 < rect.y1 ∧ y2 < rect.y1) ∨ (y1 > rect.y2 - 1 ∧ y2 > rect.y2 - 1)
  · simp only [if_pos h2]
    exact ⟨_, Or.inl rfl, fun _ _ => rfl⟩
  simp only [if_neg h2]
  by_cases h3 : y1 = y2
  · simp only [if_pos h3]
    exact ⟨_, Or.inr ⟨_, _, _, _, rfl⟩, fun _ _ => rfl⟩
  simp only [if_neg h3]
  by_cases h4 : x1 = x2
  · simp only [if_pos h4]
    exact ⟨_, Or.inr ⟨_, _, _, _, rfl⟩, fun _ _ => rfl⟩
  simp only [if_neg h4]
  exact clip_settles_initial rect hx hy x1 y1 x2 y2 0 0 h2

/-- C24: for a rectangle with `x1 < x2` and `y1 < y2` and every integer segment, the loop of
`_intersect_rect_line` ends within five passes: for every iteration budget of at least 5 the
function gives one and the same outcome, which is `RT_FALSE` (the outcodes share a bit) or
`RT_TRUE` with end points whose outcodes are both zero. -/
theorem intersect_loop_terminates (rect : rtgui_rect_t) (x1 y1 x2 y2 : Int)
    (hx : rect.x1 < rect.x2) (hy : rect.y1 < rect.y2) :
    ∃ r : ClipResult,
      (r = ClipResult.rejected ∨ ∃ X1 Y1 X2 Y2, r = ClipResult.accepted X1 Y1 X2 Y2 ∧
        ComputeOutCode rect X1 Y1 = 0 ∧ ComputeOutCode rect X2 Y2 = 0) ∧
      ∀ fuel, 5 ≤ fuel → _intersect_rect_line fuel rect x1 y1 x2 y2 = r := by
  obtain ⟨r, hr, hf⟩ := intersect_settles rect x1 y1 x2 y2 hx hy
  refine ⟨r, ?_, hf⟩
  rcases hr with hr | ⟨a, b, c, d, hr⟩
  · exact Or.inl hr
  · have h5 := hf 5 (le_refl 5)
    rw [hr] at h5
    have hw := intersect_accepted_window 5 rect x1 y1 x2 y2 a b c d hx hy h5
    exact Or.inr ⟨a, b, c, d, hr, (outcode_eq_zero_iff _ _ _).2 hw.1,
      (outcode_eq_zero_iff _ _ _).2 hw.2⟩

/-- Witness for C24: the rectangle `(0,0,5,5)` and the segment `(-1,-3)-(7,9)`. -/
theorem intersect_loop_terminates_witness :
    ∃ r : ClipResult,
      (r = ClipResult.rejected ∨ ∃ X1 Y1 X2 Y2, r = ClipResult.accepted X1 Y1 X2 Y2 ∧
        ComputeOutCode ⟨0, 0, 5, 5⟩ X1 Y1 = 0 ∧ ComputeOutCode ⟨0, 0, 5, 5⟩ X2 Y2 = 0) ∧
      ∀ fuel, 5 ≤ fuel → _intersect_rect_line fuel ⟨0, 0, 5, 5⟩ (-1) (-3) 7 9 = r :=
  intersect_loop_terminates ⟨0, 0, 5, 5⟩ (-1) (-3) 7 9 (by decide) (by decide)

/-- C25: `_intersect_rect_line` never divides by zero, for every rectangle, every segment and
every iteration budget; the same holds for its loop entered with any two end points and
their outcodes: at each pass the divisor `y2 - y1` of a top or bottom intersection and the
divisor `x2 - x1` of a left or right intersection is non-zero. -/
theorem intersect_never_divides_by_zero :
    (∀ (fuel : Nat) (rect : rtgui_rect_t) (x1 y1 x2 y2 : Int),
      _intersect_rect_line fuel rect x1 y1 x2 y2 ≠ ClipResult.div_by_zero) ∧
    (∀ (fuel : Nat) (rect : rtgui_rect_t) (x1 y1 x2 y2 x y : Int),
      clip_loop rect fuel x1 y1 x2 y2 (ComputeOutCode rect x1 y1) (ComputeOutCode rect x2 y2)
        x y ≠ ClipResult.div_by_zero) := by
  refine ⟨fun fuel rect x1 y1 x2 y2 => ?_, fun fuel rect x1 y1 x2 y2 x y =>
    clip_loop_ne_div_by_zero rect fuel x1 y1 x2 y2 x y⟩
  unfold _intersect_rect_line
  simp only []
  by_cases h1 : x1 ≥ rect.x1 ∧ x1 ≤ rect.x2 - 1 ∧ x2 ≥ rect.x1 ∧ x2 ≤ rect.x2 - 1 ∧
      y1 ≥ rect.y1 ∧ y1 ≤ rect.y2 - 1 ∧ y2 ≥ rect.y1 ∧ y2 ≤ rect.y2 - 1
  · rw [if_pos h1]; simp
  rw [if_neg h1]
  by_cases h2 : (x1 < rect.x1 ∧ x2 < rect.x1) ∨ (x1 > rect.x2 - 1 ∧ x2 > rect.x2 - 1) ∨
      (y1 < rect.y1 ∧ y2 < rect.y1) ∨ (y1 > rect.y2 - 1 ∧ y2 > rect.y2 - 1)
  · rw [if_pos h2]; simp
  rw [if_neg h2]
  by_cases h3 : y1 = y2
  · rw [if_pos h3]; simp
  rw [if_neg h3]
  by_cases h4 : x1 = x2
  · rw [if_pos h4]; simp
  rw [if_neg h4]
  exact clip_loop_ne_div_by_zero rect fuel x1 y1 x2 y2 0 0

/-- C26: for a rectangle with `x1 < x2` and `y1 < y2`, both end points that
`_intersect_rect_line` returns with `RT_TRUE` lie in `[rect.x1, rect.x2] × [rect.y1, rect.y2]`,
the region where `ComputeOutCode` is zero. -/
theorem intersect_accepted_in_outcode_window (fuel : Nat) (rect : rtgui_rect_t)
    (x1 y1 x2 y2 X1 Y1 X2 Y2 : Int) (hx : rect.x1 < rect.x2) (hy : rect.y1 < rect.y2)
    (hacc : _intersect_rect_line fuel rect x1 y1 x2 y2 = ClipResult.accepted X1 Y1 X2 Y2) :
    (rect.x1 ≤ X1 ∧ X1 ≤ rect.x2 ∧ rect.y1 ≤ Y1 ∧ Y1 ≤ rect.y2) ∧
    (rect.x1 ≤ X2 ∧ X2 ≤ rect.x2 ∧ rect.y1 ≤ Y2 ∧ Y2 ≤ rect.y2) ∧
    ComputeOutCode rect X1 Y1 = 0 ∧ ComputeOutCode rect X2 Y2 = 0 := by
  have key := intersect_accepted_window fuel rect x1 y1 x2 y2 X1 Y1 X2 Y2 hx hy hacc
  exact ⟨key.1, key.2, (outcode_eq_zero_iff _ _ _).2 key.1, (outcode_eq_zero_iff _ _ _).2 key.2⟩

/-- Witness for C26: against `(0,0,5,5)` the segment `(0,0)-(5,1)` is accepted unchanged; its
end `(5,1)` lies on the column `rect.x2`. -/
theorem intersect_accepted_in_outcode_window_witness :
    _intersect_rect_line 5 ⟨0, 0, 5, 5⟩ 0 0 5 1 = ClipResult.accepted 0 0 5 1 ∧
    ((0 : Int) ≤ 0 ∧ (0 : Int) ≤ 5 ∧ (0 : Int) ≤ 0 ∧ (0 : Int) ≤ 5) ∧
    ((0 : Int) ≤ 5 ∧ (5 : Int) ≤ 5 ∧ (0 : Int) ≤ 1 ∧ (1 : Int) ≤ 5) ∧
    ComputeOutCode ⟨0, 0, 5, 5⟩ 0 0 = 0 ∧ ComputeOutCode ⟨0, 0, 5, 5⟩ 5 1 = 0 :=
  ⟨by decide, intersect_accepted_in_outcode_window 5 ⟨0, 0, 5, 5⟩ 0 0 5 1 0 0 5 1 (by decide)
    (by decide) (by decide)⟩

/-! ## Reads of the points array -/

theorem clip_each_rect_ne_bad_index (fuel : Nat) (x1 y1 x2 y2 : Int) :
    ∀ (rects : List rtgui_rect_t) (k : Int),
      clip_each_rect fuel x1 y1 x2 y2 rects ≠ Run.bad_index k := by
  intro rects
  induction rects with
  | nil => intro k; simp [clip_each_rect]
  | cons r rest ih =>
    intro k
    rw [clip_each_rect]
    split
    · exact ih k
    · cases hr : clip_each_rect fuel x1 y1 x2 y2 rest with
      | bad_index j => exact absurd hr (ih j)
      | done v => simp [Run.bind]
      | div_by_zero => simp [Run.bind]
      | out_of_fuel => simp [Run.bind]
      | null_call => simp [Run.bind]
    · simp
    · simp

theorem draw_aa_lines_body_ne_bad_index (fuel : Nat) (dst : rtgui_dc) (func : DrawLineFunc)
    (color : rtgui_color_t) (points : List rtgui_point_t) (j : Nat)
    (hj : j + 1 < points.length) (k : Int) :
    draw_aa_lines_body fuel dst func color points ((j : Int) + 1) ≠ Run.bad_index k := by
  unfold draw_aa_lines_body
  rw [read_point_eq points ((j : Int) + 1 - 1) j (by omega) (by omega),
    read_point_eq points ((j : Int) + 1) (j + 1) (by push_cast; ring) hj]
  simp only [Run.bind]
  intro h
  repeat' split at h
  all_goals first
    | (exact clip_each_rect_ne_bad_index fuel _ _ _ _ _ _ (by assumption))
    | simp at h

theorem blend_lines_body_ne_bad_index (dst : rtgui_dc) (func : BlendLineFunc)
    (blendMode : RTGUI_BLENDMODE) (r g b a : Nat) (points : List rtgui_point_t) (j : Nat)
    (hj : j + 1 < points.length) (k : Int) :
    blend_lines_body dst func blendMode r g b a points ((j : Int) + 1) ≠ Run.bad_index k := by
  unfold blend_lines_body
  rw [read_point_eq points ((j : Int) + 1 - 1) j (by omega) (by omega),
    read_point_eq points ((j : Int) + 1) (j + 1) (by push_cast; ring) hj]
  simp only [Run.bind]
  intro h
  repeat' split at h
  all_goals simp at h

theorem draw_aa_lines_loop_ne_bad_index (fuel : Nat) (dst : rtgui_dc) (func : DrawLineFunc)
    (color : rtgui_color_t) (points : List rtgui_point_t) :
    ∀ (n j : Nat) (k : Int), j + n < points.length →
      draw_aa_lines_loop fuel dst func color points n ((j : Int) + 1) ≠ Run.bad_index k := by
  intro n
  induction n with
  | zero => intro j k _; simp [draw_aa_lines_loop]
  | succ n ih =>
    intro j k hj
    rw [draw_aa_lines_loop]
    cases hb : draw_aa_lines_body fuel dst func color points ((j : Int) + 1) with
    | bad_index i =>
      exact absurd hb (draw_aa_lines_body_ne_bad_index fuel dst func color points j (by omega) i)
    | done r =>
      simp only [Run.bind]
      split_ifs
      · simp
      · have e : (j : Int) + 1 + 1 = ((j + 1 : Nat) : Int) + 1 := by push_cast; ring
        rw [e]
        cases hl : draw_aa_lines_loop fuel dst func color points n (((j + 1 : Nat) : Int) + 1) with
        | bad_index i => exact absurd hl (ih (j + 1) i (by omega))
        | done v => simp
        | div_by_zero => simp
        | out_of_fuel => simp
        | null_call => simp
    | div_by_zero => simp [Run.bind]
    | out_of_fuel => simp [Run.bind]
    | null_call => simp [Run.bind]

theorem blend_lines_loop_ne_bad_index (dst : rtgui_dc) (func : BlendLineFunc)
    (blendMode : RTGUI_BLENDMODE) (r g b a : Nat) (points : List rtgui_point_t) :
    ∀ (n j : Nat) (k : Int), j + n < points.length →
      blend_lines_loop dst func blendMode r g b a points n ((j : Int) + 1) ≠
        Run.bad_index k := by
  intro n
  induction n with
  | zero => intro j k _; simp [blend_lines_loop]
  | succ n ih =>
    intro j k hj
    rw [blend_lines_loop]
    cases hb : blend_lines_body dst func blendMode r g b a points ((j : Int) + 1) with
    | bad_index i =>
      exact absurd hb
        (blend_lines_body_ne_bad_index dst func blendMode r g b a points j (by omega) i)
    | done r0 =>
      simp only [Run.bind]
      split_ifs
      · simp
      · have e : (j : Int) + 1 + 1 = ((j + 1 : Nat) : Int) + 1 := by push_cast; ring
        rw [e]
        cases hl : blend_lines_loop dst func blendMode r g b a points n
            (((j + 1 : Nat) : Int) + 1) with
        | bad_index i => exact absurd hl (ih (j + 1) i (by omega))
        | done v => simp
        | div_by_zero => simp
        | out_of_fuel => simp
        | null_call => simp
    | div_by_zero => simp [Run.bind]
    | out_of_fuel => simp [Run.bind]
    | null_call => simp [Run.bind]

/-- With `1 ≤ count` and an array of at least `count` points, no read of `points[i]` by
`rtgui_dc_draw_aa_lines` falls outside the array. -/
theorem draw_aa_lines_reads_within (fuel : Nat) (dst : rtgui_dc)
    (points : List rtgui_point_t) (count : Int) (h1 : 1 ≤ count)
    (hlen : count ≤ points.length) (k : Int) :
    rtgui_dc_draw_aa_lines fuel dst points count ≠ Run.bad_index k := by
  obtain ⟨n, rfl⟩ : ∃ n : Nat, count = (n : Int) + 1 := ⟨(count - 1).toNat, by omega⟩
  have hn : ((n : Int) + 1 - 1).toNat = n := by omega
  have hl := draw_aa_lines_loop_ne_bad_index fuel dst
  have e0 : (1 : Int) = ((0 : Nat) : Int) + 1 := by simp
  have r0 := read_point_eq points 0 0 rfl (by omega)
  have rn := read_point_eq points ((n : Int) + 1 - 1) n (by omega) (by omega)
  unfold rtgui_dc_draw_aa_lines
  rw [hn, r0, rn]
  simp only [Run.bind]
  intro h
  repeat' split at h
  all_goals first
    | (rename_i hloop
       rw [e0] at hloop
       exact hl _ _ points n 0 _ (by omega) hloop)
    | simp at h

/-- With `1 ≤ count` and an array of at least `count` points, no read of `points[i]` by
`rtgui_dc_blend_lines` falls outside the array. -/
theorem blend_lines_reads_within (dst : rtgui_dc) (points : List rtgui_point_t) (count : Int)
    (blendMode : RTGUI_BLENDMODE) (color : rtgui_color_t) (h1 : 1 ≤ count)
    (hlen : count ≤ points.length) (k : Int) :
    rtgui_dc_blend_lines dst points count blendMode color ≠ Run.bad_index k := by
  obtain ⟨n, rfl⟩ : ∃ n : Nat, count = (n : Int) + 1 := ⟨(count - 1).toNat, by omega⟩
  have hn : ((n : Int) + 1 - 1).toNat = n := by omega
  have hl := blend_lines_loop_ne_bad_index dst
  have e0 : (1 : Int) = ((0 : Nat) : Int) + 1 := by simp
  have r0 := read_point_eq points 0 0 rfl (by omega)
  have rn := read_point_eq points ((n : Int) + 1 - 1) n (by omega) (by omega)
  unfold rtgui_dc_blend_lines
  rw [hn, r0, rn]
  simp only [Run.bind]
  intro h
  repeat' split at h
  all_goals first
    | (rename_i hloop
       rw [e0] at hloop
       exact hl _ blendMode _ _ _ _ points n 0 _ (by omega) hloop)
    | simp at h

/-- C27: with `count = 0` on a visible buffer, `rtgui_dc_draw_aa_lines` and `rtgui_dc_blend_lines` run
no pass of the loop and then evaluate the test of lines 573 and 1402, which reads
`points[0]` and `points[count-1] = points[-1]`: with an empty array the read of `points[0]`
is outside the array, and with an array of one element the read of `points[-1]` is. With
`count = 1` both functions read `points[0]` only and draw nothing. -/
theorem lines_count_zero_reads_outside_array :
    rtgui_dc_draw_aa_lines 5 (buffer_dc 8 RTGRAPHIC_PIXEL_FORMAT_RGB565) [] 0 = Run.bad_index 0 ∧
    rtgui_dc_draw_aa_lines 5 (buffer_dc 8 RTGRAPHIC_PIXEL_FORMAT_RGB565) [⟨3, 4⟩] 0 =
      Run.bad_index (-1) ∧
    rtgui_dc_blend_lines (buffer_dc 16 RTGRAPHIC_PIXEL_FORMAT_RGB565) [] 0
      RTGUI_BLENDMODE_NONE ⟨255, 0, 0, 255⟩ = Run.bad_index 0 ∧
    rtgui_dc_blend_lines (buffer_dc 16 RTGRAPHIC_PIXEL_FORMAT_RGB565) [⟨3, 4⟩] 0
      RTGUI_BLENDMODE_NONE ⟨255, 0, 0, 255⟩ = Run.bad_index (-1) ∧
    (∀ (fuel : Nat) (dst : rtgui_dc) (p : rtgui_point_t),
      rtgui_dc_draw_aa_lines fuel dst [p] 1 = Run.done []) ∧
    (∀ (dst : rtgui_dc) (p : rtgui_point_t) (blendMode : RTGUI_BLENDMODE)
        (color : rtgui_color_t),
      rtgui_dc_blend_lines dst [p] 1 blendMode color = Run.done []) := by
  refine ⟨by decide, by decide, by decide, by decide, ?_, ?_⟩
  · intro fuel dst p
    unfold rtgui_dc_draw_aa_lines
    split_ifs <;> try rfl
    all_goals
      cases hf : _dc_calc_draw_line_func (_dc_get_bits_per_pixel dst / 8) <;>
        simp [hf, draw_aa_lines_loop, Run.bind, read_point]
  · intro dst p blendMode color
    unfold rtgui_dc_blend_lines
    split_ifs <;> try rfl
    all_goals
      cases hf : _dc_calc_blend_line_func dst.pixel_format <;>
        simp [hf, blend_lines_loop, Run.bind, read_point]

end RTGUI
